import Mathlib

/-!
# kubernetes-nmstate: the NodeNetworkConfigurationPolicy reconciler

A shallow embedding of `controllers/nodenetworkconfigurationpolicy_controller.go`
(the reconciler and its two event filters), of `pkg/selectors/labels.go`, of
`EnactmentKey` and the condition types of `api/shared`, of the enactment condition
counter as `counter_test.go` tabulates it, and of
`controllers/operator/nmstate_controller.go`.

* The object store is explicit state (`Store`); every `r.Client` call is a function on it.
* What other Handlers do to the store while this Handler is between two of its own
  store calls is given by the interference functions of `Env`.
* Calls into packages whose code is not part of the embedding (the engine, the
  enactment counter, `MaxUnavailableNodeCount`, ...) take their result from `Env`.
* Everything a run does that is observable from outside is recorded, in order, in a
  list of `Event`s.
-/

namespace Nmstate

/-! ## Machine integers and time -/

/-- Smallest value of Go's `int` / `int64` / `time.Duration`. -/
def minInt : Int := -9223372036854775808

/-- Largest value of Go's `int` / `int64` / `time.Duration`. -/
def maxInt : Int := 9223372036854775807

/-- Two's complement wrap-around of 64-bit signed arithmetic. -/
def wrapInt (x : Int) : Int :=
  (x + 9223372036854775808) % 18446744073709551616 - 9223372036854775808

/-- An instant, in nanoseconds on an unbounded axis (`time.Time`). -/
abbrev Time := Int

/-- A `time.Duration`: a signed 64-bit count of nanoseconds. -/
abbrev Duration := Int

/-- The constant `time.Second`. -/
def Second : Duration := 1000000000

/-- `time.Since(t)`, that is `now.Sub(t)`: the difference, saturated to the
range of `time.Duration`. -/
def Since (now t : Time) : Duration :=
  if now - t < minInt then minInt
  else if maxInt < now - t then maxInt
  else now - t

/-- `nodeRunningUpdateRetryTime = 5 * time.Second`. -/
def nodeRunningUpdateRetryTime : Duration := 5 * Second

/-! ## Errors -/

/-- The `metav1.StatusReason` classes the reconciler tells apart. -/
inductive StatusReason where
  | NotFound
  | Conflict
  | Unknown
  deriving DecidableEq, Repr

/-- A Go `error`: its API status reason and its text. -/
structure Err where
  reason : StatusReason
  msg : String
  deriving DecidableEq, Repr

/-- `apierrors.IsNotFound`. -/
def IsNotFound (e : Err) : Bool := e.reason == StatusReason.NotFound

/-- `apierrors.IsConflict`. -/
def IsConflict (e : Err) : Bool := e.reason == StatusReason.Conflict

/-- `apierrors.NewNotFound`. -/
def NewNotFound (resource name : String) : Err :=
  ⟨StatusReason.NotFound, resource ++ " \"" ++ name ++ "\" not found"⟩

/-- `apierrors.NewConflict(qualifiedResource, name, err)`. -/
def NewConflict (resource name : String) (cause : String) : Err :=
  ⟨StatusReason.Conflict,
    "Operation cannot be fulfilled on " ++ resource ++ " \"" ++ name ++ "\": " ++ cause⟩

/-- `fmt.Errorf` / `errors.New`: a plain error, with no API status. -/
def Errorf (msg : String) : Err := ⟨StatusReason.Unknown, msg⟩

/-- `errors.Wrap(err, msg)`: the same cause under a longer text. -/
def Wrap (e : Err) (msg : String) : Err := ⟨e.reason, msg ++ ": " ++ e.msg⟩

/-! ## Conditions -/

/-- `corev1.ConditionStatus`. -/
inductive ConditionStatus where
  | True
  | False
  | Unknown
  deriving DecidableEq, Repr

/-- `ConditionType` of an enactment: the five counted types of
`NodeNetworkConfigurationEnactmentConditionTypes` and `Matching`. -/
inductive ConditionType where
  | Available
  | Failing
  | Progressing
  | Pending
  | Aborted
  | Matching
  deriving DecidableEq, Repr

/-- One entry of a `ConditionList`. -/
structure Condition where
  type : ConditionType
  status : ConditionStatus
  reason : String
  message : String
  deriving DecidableEq, Repr

/-- `nmstateapi.ConditionList`. -/
abbrev ConditionList := List Condition

/-- `ConditionList.Find`: the first condition of the given type. -/
def ConditionList.Find (conditions : ConditionList) (t : ConditionType) : Option Condition :=
  List.find? (fun c => c.type == t) conditions

/-- Modelled from the spec: `enactmentstatus.IsProgressing` (package
`pkg/enactmentstatus`, not among the sources). The spec's "already in Progressing":
the list carries a Progressing condition whose status is True. -/
def IsProgressing (conditions : ConditionList) : Bool :=
  match ConditionList.Find conditions ConditionType.Progressing with
  | some c => c.status == ConditionStatus.True
  | none => false

/-! ## Objects and the store -/

/-- `nmstateapi.State`: an opaque network-state document. -/
abbrev State := String

/-- `NodeNetworkConfigurationPolicyStatus`, the two fields of the capacity gate. -/
structure PolicyStatus where
  unavailableNodeCount : Int
  lastUnavailableNodeCountUpdate : Option Time
  deriving DecidableEq, Repr

/-- A `NodeNetworkConfigurationPolicy` object. -/
structure Policy where
  name : String
  generation : Int
  resourceVersion : Nat
  nodeSelector : List (String × String)
  desiredState : State
  status : PolicyStatus
  deriving DecidableEq, Repr

/-- A `NodeNetworkConfigurationEnactment` object (its status). -/
structure Enactment where
  name : String
  desiredState : State
  policyGeneration : Int
  conditions : ConditionList
  deriving DecidableEq, Repr

/-- The part of the object store one Reconcile run touches: the policy of the
request, the enactment at `EnactmentKey(nodeName, policy)`, the labels of the
local node and of its NodeNetworkState (`none`: the object does not exist). -/
structure Store where
  policy : Option Policy
  enactment : Option Enactment
  nodeLabels : Option (List (String × String))
  nnsLabels : Option (List (String × String))
  deriving DecidableEq, Repr

/-- `types.NamespacedName`. -/
structure NamespacedName where
  Namespace : String
  Name : String
  deriving DecidableEq, Repr

/-- `nmstateapi.EnactmentKey(node, policy)`: the name `<node>.<policy>`, no namespace. -/
def EnactmentKey (node policy : String) : NamespacedName :=
  { Namespace := "", Name := node ++ "." ++ policy }

/-- `NewEnactment(nodeName, policy)`: a fresh enactment, no conditions yet. -/
def NewEnactment (nodeName : String) (policy : Policy) : Enactment :=
  { name := (EnactmentKey nodeName policy.name).Name, desiredState := "", policyGeneration := 0,
    conditions := [] }

/-! ## What a run does: events, result, environment -/

/-- The observable actions of a Reconcile run, in the order they happen. The
`Notify...` constructors are the methods of `enactmentconditions.EnactmentConditions`
(one per setter of the condition table, and `NotifyNodeSelectorFailure`).
`IncrementUnavailableNodeCount` stands where the call starts and records the error
the call returned; the store calls of the call follow it. -/
inductive Event where
  | ClientGetPolicy
  | ClientStatusUpdatePolicy (status : PolicyStatus) (resourceVersion : Nat) (accepted : Bool)
  | PolicyconditionsReset
  | PolicyconditionsUpdate
  | ClientCreateEnactment
  | EnactmentconditionsReset
  | EnactmentstatusUpdate (desiredState : State) (policyGeneration : Int)
  | NotifyNodeSelectorFailure (err : Err)
  | NotifyNodeSelectorNotMatching (unmatchingLabels : List (String × String))
  | NotifyMatching
  | NotifyPending
  | NotifyAborted (err : Err)
  | NotifyProgressing
  | NotifyFailedToConfigure (err : Err)
  | NotifySuccess
  | IncrementUnavailableNodeCount (returned : Option Err)
  | DecrementUnavailableNodeCount
  | ApplyDesiredState (desiredState : State)
  | ClientUpdateNNS (accepted : Bool)
  deriving DecidableEq, Repr

/-- `ctrl.Result`. -/
structure Result where
  Requeue : Bool := false
  RequeueAfter : Duration := 0
  deriving DecidableEq, Repr

/-- What a call leaves behind: the returned `(ctrl.Result, error)`, the store
and the events, oldest first. -/
structure Outcome where
  result : Result
  err : Option Err
  store : Store
  trace : List Event
  deriving DecidableEq, Repr

/-- Everything a run takes from outside the controller file.
* `fault...`: an error injected into one store call (`none`: the call reaches the store);
* `before...`, `duringApply`: what other writers did to the store since this
  Handler's previous store call (identity: nobody else wrote);
* `now...`: the readings of `time.Now()`;
* the remaining fields are the results of calls into packages that are not embedded. -/
structure Env where
  nodeName : String
  DesiredStateConfigurationTimeout : Duration
  ProbesTotalTimeout : Duration
  forceRefreshLabel : String
  faultGetPolicy : Option Err
  faultGetEnactment : Option Err
  faultCreateEnactment : Option Err
  faultWaitEnactmentCreated : Option Err
  faultEnactmentstatusUpdate : Option Err
  faultGetNode : Option Err
  faultEnactmentForPolicy : Option Err
  faultIncGet : Option Err
  faultIncUpdate : Option Err
  faultDecGet : Nat → Option Err
  faultDecUpdate : Nat → Option Err
  faultNnsGet : Option Err
  faultNnsUpdate : Option Err
  beforeIncGet : Store → Store
  beforeIncUpdate : Store → Store
  duringApply : Store → Store
  beforeDecUpdate : Nat → Store → Store
  beforeDecRetry : Nat → Store → Store
  nowSince : Time
  nowInc : Time
  nowDec : Nat → Time
  nowNns : Int
  ApplyDefaultVlanFiltering : State → Except Err State
  CountByPolicyFailed : Except Err Int
  MaxUnavailableNodeCount : Policy → Except Err Int
  ApplyDesiredState : State → String × Option Err

/-! ## Store calls -/

/-- `r.Client.Get` of the policy. -/
def clientGetPolicy (fault : Option Err) (s : Store) : Except Err Policy :=
  match fault with
  | some e => Except.error e
  | none =>
    match s.policy with
    | none => Except.error (NewNotFound "nodenetworkconfigurationpolicies" "")
    | some p => Except.ok p

/-- `r.Client.Status().Update` of the policy: the store takes the status of `obj`
only if `obj` carries the resource version the store holds, and then moves to the
next resource version; otherwise it answers Conflict. -/
def clientStatusUpdatePolicy (fault : Option Err) (s : Store) (obj : Policy) : Except Err Store :=
  match fault with
  | some e => Except.error e
  | none =>
    match s.policy with
    | none => Except.error (NewNotFound "nodenetworkconfigurationpolicies" obj.name)
    | some stored =>
      if stored.resourceVersion = obj.resourceVersion then
        Except.ok { s with policy := some { stored with
          status := obj.status, resourceVersion := stored.resourceVersion + 1 } }
      else
        Except.error (NewConflict "nodenetworkconfigurationpolicies" obj.name
          "the object has been modified; please apply your changes to the latest version and try again")

/-- `r.Client.Get` of the enactment. -/
def clientGetEnactment (fault : Option Err) (key : NamespacedName) (s : Store) :
    Except Err Enactment :=
  match fault with
  | some e => Except.error e
  | none =>
    match s.enactment with
    | none => Except.error (NewNotFound "nodenetworkconfigurationenactments" key.Name)
    | some e => Except.ok e

/-- `r.Client.Create` of the enactment; the store rejects a duplicate. -/
def clientCreateEnactment (fault : Option Err) (s : Store) (e : Enactment) : Except Err Store :=
  match fault with
  | some err => Except.error err
  | none =>
    match s.enactment with
    | some _ => Except.error (Errorf ("nodenetworkconfigurationenactments \"" ++ e.name ++ "\" already exists"))
    | none => Except.ok { s with enactment := some e }

/-! ## The capacity gate -/

/-- `shouldIncrementUnavailableNodeCount(policy, conditions)`. -/
def shouldIncrementUnavailableNodeCount (env : Env) (policy : Policy)
    (conditions : ConditionList) : Bool :=
  !IsProgressing conditions &&
    (policy.status.lastUnavailableNodeCountUpdate == none ||
      (match policy.status.lastUnavailableNodeCountUpdate with
        | some t => decide (Since env.nowSince t <
            env.DesiredStateConfigurationTimeout + env.ProbesTotalTimeout)
        | none => false))

/-- Lines 324-337 of `incrementUnavailableNodeCount`: the `Get`, the bound, the
saturation check and the change made to the local copy. The result is the object
the status write will carry. -/
def incrementPrepare (env : Env) (s : Store) : Except Err Policy :=
  match clientGetPolicy env.faultIncGet s with
  | Except.error err => Except.error err
  | Except.ok policy =>
    match env.MaxUnavailableNodeCount policy with
    | Except.error err => Except.error err
    | Except.ok maxUnavailable =>
      if policy.status.unavailableNodeCount ≥ maxUnavailable then
        Except.error (NewConflict "nodenetworkconfigurationpolicies" policy.name
          ("maximal number of " ++ toString policy.status.unavailableNodeCount ++
            " nodes are already processing policy configuration"))
      else
        Except.ok { policy with status :=
          { lastUnavailableNodeCountUpdate := some env.nowInc,
            unavailableNodeCount := wrapInt (policy.status.unavailableNodeCount + 1) } }

/-- `incrementUnavailableNodeCount(policy)`; `s` is the store as the `Get` finds it. -/
def incrementUnavailableNodeCount (env : Env) (s : Store) : Option Err × Store × List Event :=
  match incrementPrepare env s with
  | Except.error err => (some err, s, [Event.ClientGetPolicy])
  | Except.ok policy =>
    let s := env.beforeIncUpdate s
    match clientStatusUpdatePolicy env.faultIncUpdate s policy with
    | Except.error err =>
      (some err, s, [Event.ClientGetPolicy,
        Event.ClientStatusUpdatePolicy policy.status policy.resourceVersion false])
    | Except.ok s =>
      (none, s, [Event.ClientGetPolicy,
        Event.ClientStatusUpdatePolicy policy.status policy.resourceVersion true])

/-- Lines 349-357 of `decrementUnavailableNodeCount`: the `Get`, the zero check and
the change made to the local copy, at the `i`-th run of the retried closure. -/
def decrementPrepare (env : Env) (i : Nat) (s : Store) : Except Err Policy :=
  match clientGetPolicy (env.faultDecGet i) s with
  | Except.error err => Except.error err
  | Except.ok inst =>
    if inst.status.unavailableNodeCount ≤ 0 then
      Except.error (Errorf "no unavailable nodes")
    else
      Except.ok { inst with status :=
        { lastUnavailableNodeCountUpdate := some (env.nowDec i),
          unavailableNodeCount := wrapInt (inst.status.unavailableNodeCount - 1) } }

/-- The closure `decrementUnavailableNodeCount` hands to `retry.RetryOnConflict`,
at its `i`-th run. -/
def decrementAttempt (env : Env) (i : Nat) (s : Store) : Option Err × Store × List Event :=
  match decrementPrepare env i s with
  | Except.error err => (some err, s, [Event.ClientGetPolicy])
  | Except.ok inst =>
    let s := env.beforeDecUpdate i s
    match clientStatusUpdatePolicy (env.faultDecUpdate i) s inst with
    | Except.error err =>
      (some err, s, [Event.ClientGetPolicy,
        Event.ClientStatusUpdatePolicy inst.status inst.resourceVersion false])
    | Except.ok s =>
      (none, s, [Event.ClientGetPolicy,
        Event.ClientStatusUpdatePolicy inst.status inst.resourceVersion true])

/-- `retry.DefaultRetry.Steps`. -/
def DefaultRetrySteps : Nat := 5

/-- `retry.RetryOnConflict(backoff, fn)` for the closure of the decrement: `fn` runs
until it returns nil or an error that is not a Conflict, at most `steps` times;
`i` counts the runs so far. -/
def RetryOnConflict (env : Env) : Nat → Nat → Store → Option Err × Store × List Event
  | 0, _, s => (some (Errorf "timed out waiting for the condition"), s, [])
  | steps + 1, i, s =>
    match decrementAttempt env i s with
    | (none, s1, t) => (none, s1, t)
    | (some err, s1, t) =>
      if IsConflict err then
        if steps = 0 then (some err, s1, t)
        else
          let r := RetryOnConflict env steps (i + 1) (env.beforeDecRetry i s1)
          (r.1, r.2.1, t ++ r.2.2)
      else (some err, s1, t)

/-- `decrementUnavailableNodeCount(policy)`: the retried closure; an error is only logged. -/
def decrementUnavailableNodeCount (env : Env) (s : Store) : Store × List Event :=
  let r := RetryOnConflict env DefaultRetrySteps 0 s
  (r.2.1, r.2.2)

/-! ## Selectors -/

/-- `unmatchingLabels(nodeSelector, labels)` of `pkg/selectors/labels.go`: the
selector entries whose key the labels lack or hold with another value. Maps are
association lists. -/
def unmatchingLabels (nodeSelector labels : List (String × String)) : List (String × String) :=
  nodeSelector.filter (fun kv =>
    match labels.lookup kv.1 with
    | none => true
    | some foundValue => foundValue != kv.2)

/-- `Selectors.UnmatchedNodeLabels(nodeName)`: the map and the error it returns
(on a failed read of the node: the empty map and the error). -/
def UnmatchedNodeLabels (env : Env) (policy : Policy) (s : Store) :
    List (String × String) × Option Err :=
  match env.faultGetNode with
  | some err => ([], some err)
  | none =>
    match s.nodeLabels with
    | none => ([], some (NewNotFound "nodes" env.nodeName))
    | some labels => (unmatchingLabels policy.nodeSelector labels, none)

/-! ## Enactment initialisation -/

/-- `initializeEnactment(policy)`: the conditions of the enactment as the `Get`
read them (none for an enactment created here), or the error.
`enactmentConditions.Reset()` and `enactmentstatus.Update` belong to packages that
are not embedded; their effect on the store is taken from the spec: `Reset` clears
the conditions of the stored enactment, `Update` applies the mutator to its status.
`waitEnactmentCreated` polls in real time; its result is `faultWaitEnactmentCreated`. -/
def initializeEnactment (env : Env) (policy : Policy) (s : Store) :
    Except Err ConditionList × Store × List Event :=
  match env.ApplyDefaultVlanFiltering policy.desiredState with
  | Except.error err =>
    (Except.error (Wrap err "error applying defaults to policy desiredState"), s, [])
  | Except.ok desiredStateWithDefaults =>
    let enactmentKey := EnactmentKey env.nodeName policy.name
    let finish := fun (enactment : Enactment) (s : Store) (t : List Event) =>
      match env.faultEnactmentstatusUpdate with
      | some err => (Except.error err, s, t)
      | none =>
        match s.enactment with
        | none =>
          (Except.error (NewNotFound "nodenetworkconfigurationenactments" enactmentKey.Name),
            s, t)
        | some stored =>
          (Except.ok enactment.conditions,
            { s with enactment := some { stored with
                desiredState := desiredStateWithDefaults,
                policyGeneration := policy.generation } },
            t ++ [Event.EnactmentstatusUpdate desiredStateWithDefaults policy.generation])
    match clientGetEnactment env.faultGetEnactment enactmentKey s with
    | Except.error err =>
      if !IsNotFound err then
        (Except.error (Wrap err "failed getting enactment "), s, [])
      else
        let enactment := NewEnactment env.nodeName policy
        match clientCreateEnactment env.faultCreateEnactment s enactment with
        | Except.error err =>
          (Except.error (Wrap err "error creating NodeNetworkConfigurationEnactment"), s, [])
        | Except.ok s =>
          match env.faultWaitEnactmentCreated with
          | some err =>
            (Except.error (Wrap err "error waitting for NodeNetworkConfigurationEnactment"), s,
              [Event.ClientCreateEnactment])
          | none => finish enactment s [Event.ClientCreateEnactment]
    | Except.ok enactment =>
      let s := { s with enactment := s.enactment.map (fun e => { e with conditions := [] }) }
      finish enactment s [Event.EnactmentconditionsReset]

/-- `enactmentForPolicy(policy)`. -/
def enactmentForPolicy (env : Env) (policy : Policy) (s : Store) : Except Err Enactment :=
  match clientGetEnactment env.faultEnactmentForPolicy (EnactmentKey env.nodeName policy.name) s with
  | Except.error err => Except.error (Wrap err "getting enactment failed")
  | Except.ok inst => Except.ok inst

/-- `forceNNSRefresh(name)`: stamps the refresh label on the node's NodeNetworkState. -/
def forceNNSRefresh (env : Env) (s : Store) : Store × List Event :=
  match env.faultNnsGet with
  | some _ => (s, [])
  | none =>
    match s.nnsLabels with
    | none => (s, [])
    | some labels =>
      match env.faultNnsUpdate with
      | some _ => (s, [Event.ClientUpdateNNS false])
      | none =>
        ({ s with nnsLabels := some ((env.forceRefreshLabel, toString env.nowNns) ::
            labels.filter (fun kv => kv.1 != env.forceRefreshLabel)) },
          [Event.ClientUpdateNNS true])

/-! ## Reconcile -/

/-- Lines 195-210 of `Reconcile`: from `NotifyProgressing` to the return. -/
def reconcileApply (env : Env) (enactmentInstance : Enactment) (s : Store) : Outcome :=
  let s := env.duringApply s
  match env.ApplyDesiredState enactmentInstance.desiredState with
  | (nmstateOutput, some err) =>
    let errmsg := Errorf
      ("error reconciling NodeNetworkConfigurationPolicy at desired state apply: " ++
        nmstateOutput ++ ", " ++ err.msg)
    { result := {}, err := none, store := s,
      trace := [Event.NotifyProgressing, Event.ApplyDesiredState enactmentInstance.desiredState,
        Event.NotifyFailedToConfigure errmsg] }
  | (_, none) =>
    let r := forceNNSRefresh env s
    { result := {}, err := none, store := r.1,
      trace := [Event.NotifyProgressing, Event.ApplyDesiredState enactmentInstance.desiredState,
        Event.NotifySuccess] ++ r.2 }

/-- Runs `defer r.decrementUnavailableNodeCount(instance)` once the body has returned. -/
def deferDecrement (env : Env) (body : Outcome) : Outcome :=
  let r := decrementUnavailableNodeCount env body.store
  { body with store := r.1, trace := body.trace ++ Event.DecrementUnavailableNodeCount :: r.2 }

/-- Lines 183-210 of `Reconcile`: admission, then the apply under the deferred decrement. -/
def reconcileAdmit (env : Env) (inst : Policy) (previousConditions : ConditionList)
    (enactmentInstance : Enactment) (s : Store) : Outcome :=
  if shouldIncrementUnavailableNodeCount env inst previousConditions then
    match incrementUnavailableNodeCount env (env.beforeIncGet s) with
    | (some err, s, t) =>
      if IsConflict err then
        { result := { RequeueAfter := nodeRunningUpdateRetryTime }, err := none, store := s,
          trace := Event.IncrementUnavailableNodeCount (some err) :: t }
      else
        { result := {}, err := some err, store := s,
          trace := Event.IncrementUnavailableNodeCount (some err) :: t }
    | (none, s, t) =>
      let body := deferDecrement env (reconcileApply env enactmentInstance s)
      { body with trace := Event.IncrementUnavailableNodeCount none :: t ++ body.trace }
  else
    deferDecrement env (reconcileApply env enactmentInstance s)

/-- Lines 151-210 of `Reconcile`: what runs under `defer policyconditions.Update`. -/
def reconcileSelected (env : Env) (inst : Policy) (previousConditions : ConditionList)
    (s : Store) : Outcome :=
  let sel := UnmatchedNodeLabels env inst s
  let unmatchingNodeLabels := sel.1
  let t0 := match sel.2 with
    | some err => [Event.NotifyNodeSelectorFailure err]
    | none => []
  if unmatchingNodeLabels.length > 0 then
    { result := {}, err := none, store := s,
      trace := t0 ++ [Event.NotifyNodeSelectorNotMatching unmatchingNodeLabels] }
  else
    match enactmentForPolicy env inst s with
    | Except.error err => { result := {}, err := some err, store := s, trace := t0 }
    | Except.ok enactmentInstance =>
      match env.CountByPolicyFailed with
      | Except.error err =>
        { result := {}, err := some err, store := s, trace := t0 ++ [Event.NotifyMatching] }
      | Except.ok failed =>
        if failed > 0 then
          { result := {}, err := none, store := s,
            trace := t0 ++ [Event.NotifyMatching,
              Event.NotifyAborted (Errorf "policy has failing enactments, aborting")] }
        else
          let r := reconcileAdmit env inst previousConditions enactmentInstance s
          { r with trace := t0 ++ Event.NotifyMatching :: r.trace }

/-- `Reconcile(ctx, request)` on the store `s`. -/
def Reconcile (env : Env) (s : Store) : Outcome :=
  match clientGetPolicy env.faultGetPolicy s with
  | Except.error err =>
    if IsNotFound err then
      { result := {}, err := none, store := s, trace := [Event.ClientGetPolicy] }
    else
      { result := {}, err := some err, store := s, trace := [Event.ClientGetPolicy] }
  | Except.ok inst =>
    match initializeEnactment env inst s with
    | (Except.error err, s, t) =>
      { result := {}, err := some err, store := s,
        trace := Event.ClientGetPolicy :: Event.PolicyconditionsReset :: t }
    | (Except.ok previousConditions, s, t) =>
      let r := reconcileSelected env inst previousConditions s
      { r with trace := Event.ClientGetPolicy :: Event.PolicyconditionsReset :: t ++
          r.trace ++ [Event.PolicyconditionsUpdate] }

/-! ## Many Handlers against one store -/

/-- The shared store and, per Handler, the object its next status write carries
(`none`: the Handler is not between the `Get` and the `Update` of the gate). -/
structure Cluster where
  store : Store
  inFlight : Nat → Option Policy

/-- One step of one Handler `h` in the capacity protocol: the first half of an
increment, the first half of a run of the decrement closure, or the status write
that ends either. -/
inductive Action where
  | IncGet (h : Nat) (env : Env)
  | DecGet (h : Nat) (env : Env) (i : Nat)
  | StatusUpdate (h : Nat) (fault : Option Err)

/-- The Handlers' environments that appear in a step. -/
def Action.envs : Action → List Env
  | Action.IncGet _ env => [env]
  | Action.DecGet _ env _ => [env]
  | Action.StatusUpdate _ _ => []

/-- Effect of one step on the cluster. -/
def Cluster.step (c : Cluster) : Action → Cluster
  | Action.IncGet h env =>
    { c with inFlight := Function.update c.inFlight h (incrementPrepare env c.store).toOption }
  | Action.DecGet h env i =>
    { c with inFlight := Function.update c.inFlight h (decrementPrepare env i c.store).toOption }
  | Action.StatusUpdate h fault =>
    match c.inFlight h with
    | none => c
    | some obj =>
      match clientStatusUpdatePolicy fault c.store obj with
      | Except.error _ => { c with inFlight := Function.update c.inFlight h none }
      | Except.ok s => { store := s, inFlight := Function.update c.inFlight h none }

/-- An interleaving: the steps of all Handlers in the order the store sees them. -/
def Cluster.run (c : Cluster) (steps : List Action) : Cluster :=
  steps.foldl Cluster.step c


/-! ## The invariant of the capacity gate -/

/-- The stored count lies between `minInt` and the budget `m`; an object in flight
never carries a resource version ahead of the store's, and one that carries the
store's version carries a count between `minInt` and `m`. -/
def GateInv (m : Int) (c : Cluster) : Prop :=
  (∀ p, c.store.policy = some p →
    minInt ≤ p.status.unavailableNodeCount ∧ p.status.unavailableNodeCount ≤ m) ∧
  (∀ h obj p, c.inFlight h = some obj → c.store.policy = some p →
    obj.resourceVersion ≤ p.resourceVersion ∧
    (obj.resourceVersion = p.resourceVersion →
      minInt ≤ obj.status.unavailableNodeCount ∧ obj.status.unavailableNodeCount ≤ m))


/-! ## Classes of events -/

/-- The events of lines 117-181 of `Reconcile` (everything up to the abort gate)
and of the deferred `policyconditions.Update`. -/
def Event.early : Event → Bool
  | Event.ClientGetPolicy => true
  | Event.PolicyconditionsReset => true
  | Event.PolicyconditionsUpdate => true
  | Event.ClientCreateEnactment => true
  | Event.EnactmentconditionsReset => true
  | Event.EnactmentstatusUpdate _ _ => true
  | Event.NotifyNodeSelectorFailure _ => true
  | Event.NotifyNodeSelectorNotMatching _ => true
  | Event.NotifyMatching => true
  | Event.NotifyAborted _ => true
  | _ => false

/-- The store calls of the capacity gate. -/
def Event.gateCall : Event → Bool
  | Event.ClientGetPolicy => true
  | Event.ClientStatusUpdatePolicy _ _ _ => true
  | _ => false

/-- The events of lines 195-210 of `Reconcile`. -/
def Event.applying : Event → Bool
  | Event.NotifyProgressing => true
  | Event.ApplyDesiredState _ => true
  | Event.NotifyFailedToConfigure _ => true
  | Event.NotifySuccess => true
  | Event.ClientUpdateNNS _ => true
  | _ => false

/-- A status write of the policy (accepted or not). -/
def Event.isStatusUpdate : Event → Bool
  | Event.ClientStatusUpdatePolicy _ _ _ => true
  | _ => false

/-! ## Concrete runs -/

/-- An environment for the examples: node `node01`, no store call fails, nobody else
writes, the engine succeeds, no enactment is failing. -/
def quietEnv (maxUnavailable : Int) (now : Time) : Env :=
  { nodeName := "node01"
    DesiredStateConfigurationTimeout := 240 * Second
    ProbesTotalTimeout := 480 * Second
    forceRefreshLabel := "nmstate.io/force-nns-refresh"
    faultGetPolicy := none
    faultGetEnactment := none
    faultCreateEnactment := none
    faultWaitEnactmentCreated := none
    faultEnactmentstatusUpdate := none
    faultGetNode := none
    faultEnactmentForPolicy := none
    faultIncGet := none
    faultIncUpdate := none
    faultDecGet := fun _ => none
    faultDecUpdate := fun _ => none
    faultNnsGet := none
    faultNnsUpdate := none
    beforeIncGet := id
    beforeIncUpdate := id
    duringApply := id
    beforeDecUpdate := fun _ => id
    beforeDecRetry := fun _ => id
    nowSince := now
    nowInc := now
    nowDec := fun _ => now + 30 * Second
    nowNns := now + 30 * Second
    ApplyDefaultVlanFiltering := fun st => Except.ok st
    CountByPolicyFailed := Except.ok 0
    MaxUnavailableNodeCount := fun _ => Except.ok maxUnavailable
    ApplyDesiredState := fun _ => ("ok", none) }

/-- The policy `policy1` with the given gate status, at resource version 7. -/
def examplePolicy (count : Int) (last : Option Time) : Policy :=
  { name := "policy1", generation := 1, resourceVersion := 7, nodeSelector := [],
    desiredState := "interfaces: []",
    status := { unavailableNodeCount := count, lastUnavailableNodeCountUpdate := last } }

/-- The condition vector the Success setter leaves (Progressing is False). -/
def successConditions : ConditionList :=
  [ ⟨ConditionType.Failing, ConditionStatus.False, "SuccessfullyConfigured", ""⟩,
    ⟨ConditionType.Available, ConditionStatus.True, "SuccessfullyConfigured", ""⟩,
    ⟨ConditionType.Progressing, ConditionStatus.False, "SuccessfullyConfigured", ""⟩,
    ⟨ConditionType.Pending, ConditionStatus.False, "SuccessfullyConfigured", ""⟩,
    ⟨ConditionType.Aborted, ConditionStatus.False, "SuccessfullyConfigured", ""⟩,
    ⟨ConditionType.Matching, ConditionStatus.True, "NodeSelectorAllSelectorsMatching", ""⟩ ]

/-- A store holding `examplePolicy`, the enactment `node01.policy1` with the given
conditions, the node and its NodeNetworkState. -/
def exampleStore (count : Int) (last : Option Time) (conditions : ConditionList) : Store :=
  { policy := some (examplePolicy count last),
    enactment := some ⟨"node01.policy1", "interfaces: []", 1, conditions⟩,
    nodeLabels := some [],
    nnsLabels := some [] }

/-- Another Handler's accepted status write: the count goes up by one and the
resource version moves on. -/
def otherHandlerWrites (s : Store) : Store :=
  { s with policy := s.policy.map (fun p => { p with
      resourceVersion := p.resourceVersion + 1,
      status := { p.status with unavailableNodeCount := p.status.unavailableNodeCount + 1 } }) }


/-- The stored count is a value of Go's `int`. -/
def Store.intCount (s : Store) : Prop :=
  ∀ p, s.policy = some p →
    minInt ≤ p.status.unavailableNodeCount ∧ p.status.unavailableNodeCount ≤ maxInt


/-- The events of lines 183-210 of `Reconcile`: the two calls on the count, their
store calls, and the events of the apply. -/
def Event.admission : Event → Bool
  | Event.IncrementUnavailableNodeCount _ => true
  | Event.DecrementUnavailableNodeCount => true
  | e => e.gateCall || e.applying


/-- The environment of `quietEnv` with an engine that fails. -/
def failingEngineEnv (maxUnavailable : Int) (now : Time) : Env :=
  { quietEnv maxUnavailable now with
    ApplyDesiredState := fun _ => ("rollback", some (Errorf "exit status 1")) }

/-- The environment of `quietEnv` in which another Handler's status write lands
between the `Get` and the `Update` of the increment. -/
def racingEnv (maxUnavailable : Int) (now : Time) : Env :=
  { quietEnv maxUnavailable now with beforeIncUpdate := otherHandlerWrites }

/-- The environment of `quietEnv` in which the status `Update` of the increment
fails with an error that is not a Conflict. -/
def brokenUpdateEnv (maxUnavailable : Int) (now : Time) : Env :=
  { quietEnv maxUnavailable now with faultIncUpdate := some (Errorf "connection refused") }

/-- What lines 153-156 of `Reconcile` notify: `NotifyNodeSelectorFailure` when
`UnmatchedNodeLabels` returned an error, nothing otherwise. -/
def selectorFailureEvents (err : Option Err) : List Event :=
  match err with
  | some e => [Event.NotifyNodeSelectorFailure e]
  | none => []

/-- The events of `initializeEnactment`. -/
def Event.initializing : Event → Bool
  | Event.ClientCreateEnactment => true
  | Event.EnactmentconditionsReset => true
  | Event.EnactmentstatusUpdate _ _ => true
  | _ => false

/-- A store in which the requested policy does not exist (deleted after the request
was queued). -/
def deletedPolicyStore : Store :=
  { policy := none, enactment := none, nodeLabels := some [], nnsLabels := some [] }

/-- The environment of `quietEnv` in which the `Get` of the policy fails with an
error that is not NotFound. -/
def brokenGetEnv (maxUnavailable : Int) (now : Time) : Env :=
  { quietEnv maxUnavailable now with faultGetPolicy := some (Errorf "connection refused") }

/-- The environment of `quietEnv` in which the enactment count reports one failing
enactment. -/
def failingSiblingEnv (maxUnavailable : Int) (now : Time) : Env :=
  { quietEnv maxUnavailable now with CountByPolicyFailed := Except.ok 1 }

/-- The environment of `quietEnv` in which the `Get` of the local node fails. -/
def nodeReadFailsEnv (maxUnavailable : Int) (now : Time) : Env :=
  { quietEnv maxUnavailable now with faultGetNode := some (Errorf "connection refused") }

/-- The store of `exampleStore` whose policy selects `role=worker` while the node
carries no label, with or without the enactment `node01.policy1`. -/
def notMatchingStore (enactment : Option Enactment) : Store :=
  { policy := some { examplePolicy 0 none with nodeSelector := [("role", "worker")] },
    enactment := enactment,
    nodeLabels := some [],
    nnsLabels := some [] }

/-- The condition vector the Progressing setter leaves. -/
def progressingConditions : ConditionList :=
  [ ⟨ConditionType.Failing, ConditionStatus.Unknown, "ConfigurationProgressing", ""⟩,
    ⟨ConditionType.Available, ConditionStatus.Unknown, "ConfigurationProgressing", ""⟩,
    ⟨ConditionType.Progressing, ConditionStatus.True, "ConfigurationProgressing", ""⟩,
    ⟨ConditionType.Pending, ConditionStatus.False, "ConfigurationProgressing", ""⟩,
    ⟨ConditionType.Aborted, ConditionStatus.False, "ConfigurationProgressing", ""⟩,
    ⟨ConditionType.Matching, ConditionStatus.True, "NodeSelectorAllSelectorsMatching", ""⟩ ]

/-- The events of lines 151-210 of `Reconcile`, the part that runs under the deferred
`policyconditions.Update`. -/
def Event.selected : Event → Bool
  | Event.NotifyNodeSelectorFailure _ => true
  | Event.NotifyNodeSelectorNotMatching _ => true
  | Event.NotifyMatching => true
  | Event.NotifyAborted _ => true
  | e => e.admission

/-- The environment of `quietEnv` in which rendering the defaults of the desired
state fails, so that `initializeEnactment` returns an error. -/
def brokenDefaultsEnv (maxUnavailable : Int) (now : Time) : Env :=
  { quietEnv maxUnavailable now with
    ApplyDefaultVlanFiltering := fun _ => Except.error (Errorf "yaml: invalid document") }

/-! ## The conditions package -/

/-- Modelled from the spec: `ConditionList.Set` (the condition types of `api/shared`
are among the sources, the methods of `ConditionList` are not). The condition of the
given type takes the status, reason and message; a list without a condition of that
type gets one appended. -/
def ConditionList.Set : ConditionList → ConditionType → ConditionStatus → String → String →
    ConditionList
  | [], t, status, reason, message => [⟨t, status, reason, message⟩]
  | c :: rest, t, status, reason, message =>
    if c.type == t then ⟨t, status, reason, message⟩ :: rest
    else c :: ConditionList.Set rest t status reason message

/-- The status a condition list holds for a type, if it holds one. -/
def ConditionList.statusOf (conditions : ConditionList) (t : ConditionType) :
    Option ConditionStatus :=
  (ConditionList.Find conditions t).map (fun c => c.status)

/-- Modelled from the spec: one row of the setter table of section 4.1 (package
`pkg/enactmentstatus/conditions`, of which only `counter_test.go` is among the
sources): the setter writes the six statuses of its row, with its reason, the message
going to the condition that is True. -/
def setVector (conditions : ConditionList) (reason message : String)
    (matching pending progressing available failing aborted : ConditionStatus) :
    ConditionList :=
  let msg := fun (st : ConditionStatus) => if st == ConditionStatus.True then message else ""
  let l := ConditionList.Set conditions ConditionType.Failing failing reason (msg failing)
  let l := ConditionList.Set l ConditionType.Available available reason (msg available)
  let l := ConditionList.Set l ConditionType.Progressing progressing reason (msg progressing)
  let l := ConditionList.Set l ConditionType.Pending pending reason (msg pending)
  let l := ConditionList.Set l ConditionType.Aborted aborted reason (msg aborted)
  ConditionList.Set l ConditionType.Matching matching reason ""

/-- Modelled from the spec: `SetNodeSelectorNotMatching`, row NotMatching of the table. -/
def SetNodeSelectorNotMatching (conditions : ConditionList) (message : String) : ConditionList :=
  setVector conditions "NodeSelectorNotMatching" message
    ConditionStatus.False ConditionStatus.False ConditionStatus.False ConditionStatus.False
    ConditionStatus.False ConditionStatus.False

/-- Modelled from the spec: `SetMatching`, row Matching of the table: Matching becomes
True, the other conditions stay as they are. -/
def SetMatching (conditions : ConditionList) (message : String) : ConditionList :=
  ConditionList.Set conditions ConditionType.Matching ConditionStatus.True
    "NodeSelectorAllSelectorsMatching" message

/-- Modelled from the spec: `SetPending`, row Pending of the table. -/
def SetPending (conditions : ConditionList) (message : String) : ConditionList :=
  setVector conditions "MaxUnavailableLimitReached" message
    ConditionStatus.True ConditionStatus.True ConditionStatus.False ConditionStatus.False
    ConditionStatus.False ConditionStatus.False

/-- Modelled from the spec: `SetProgressing`, row Progressing of the table. -/
def SetProgressing (conditions : ConditionList) (message : String) : ConditionList :=
  setVector conditions "ConfigurationProgressing" message
    ConditionStatus.True ConditionStatus.False ConditionStatus.True ConditionStatus.Unknown
    ConditionStatus.Unknown ConditionStatus.False

/-- Modelled from the spec: `SetSuccess`, row Success of the table. -/
def SetSuccess (conditions : ConditionList) (message : String) : ConditionList :=
  setVector conditions "SuccessfullyConfigured" message
    ConditionStatus.True ConditionStatus.False ConditionStatus.False ConditionStatus.True
    ConditionStatus.False ConditionStatus.False

/-- Modelled from the spec: `SetFailedToConfigure`, row FailedToConfigure of the table. -/
def SetFailedToConfigure (conditions : ConditionList) (message : String) : ConditionList :=
  setVector conditions "FailedToConfigure" message
    ConditionStatus.True ConditionStatus.False ConditionStatus.False ConditionStatus.False
    ConditionStatus.True ConditionStatus.False

/-- Modelled from the spec: `SetConfigurationAborted`, row Aborted of the table. -/
def SetConfigurationAborted (conditions : ConditionList) (message : String) : ConditionList :=
  setVector conditions "ConfigurationAborted" message
    ConditionStatus.True ConditionStatus.False ConditionStatus.False ConditionStatus.False
    ConditionStatus.False ConditionStatus.True

/-- `NodeNetworkConfigurationEnactmentConditionTypes` of `api/shared`: the five
counted types, in the order of the source. -/
def NodeNetworkConfigurationEnactmentConditionTypes : List ConditionType :=
  [ConditionType.Available, ConditionType.Failing, ConditionType.Progressing,
    ConditionType.Pending, ConditionType.Aborted]

/-- `CountByConditionStatus` of `counter_test.go`: the counts under `t` (True),
`f` (False) and `u` (Unknown). -/
structure CountByConditionStatus where
  t : Nat
  f : Nat
  u : Nat
  deriving DecidableEq, Repr

/-- The count under one status. -/
def CountByConditionStatus.get (c : CountByConditionStatus) : ConditionStatus → Nat
  | ConditionStatus.True => c.t
  | ConditionStatus.False => c.f
  | ConditionStatus.Unknown => c.u

/-- One more under one status. -/
def CountByConditionStatus.incr (c : CountByConditionStatus) : ConditionStatus →
    CountByConditionStatus
  | ConditionStatus.True => { c with t := c.t + 1 }
  | ConditionStatus.False => { c with f := c.f + 1 }
  | ConditionStatus.Unknown => { c with u := c.u + 1 }

/-- `ConditionCount` of `counter_test.go`: a map from condition type to counts. -/
abbrev ConditionCount := List (ConditionType × CountByConditionStatus)

/-- Modelled from the spec: the status under which `Count` counts one enactment for
one condition type (`counter.go` is not among the sources). An enactment of the
policy's generation counts under the status of its condition of that type, and under
Unknown when it has none. For an enactment of another generation the spec's sentence
(Unknown on Progressing, Available and Failing, False on Pending and Aborted)
disagrees with the table of `counter_test.go`, which is among the sources and has such
an enactment under Unknown on every type; the table is followed. -/
def countedStatus (enactment : Enactment) (policyGeneration : Int)
    (conditionType : ConditionType) : ConditionStatus :=
  match ConditionList.Find enactment.conditions conditionType with
  | some condition =>
    if enactment.policyGeneration = policyGeneration then condition.status
    else ConditionStatus.Unknown
  | none => ConditionStatus.Unknown

/-- Modelled from the spec: `Count(enactments, policyGeneration)` of
`pkg/enactmentstatus/conditions` (`counter.go` is not among the sources): for each of
the five counted types, the enactments tallied by `countedStatus`. -/
def Count (enactments : List Enactment) (policyGeneration : Int) : ConditionCount :=
  NodeNetworkConfigurationEnactmentConditionTypes.map (fun conditionType =>
    (conditionType,
      enactments.foldl
        (fun acc enactment => acc.incr (countedStatus enactment policyGeneration conditionType))
        ⟨0, 0, 0⟩))

/-- The count a `ConditionCount` holds for a type and a status (0 for a type that is
not a key of the map). -/
def ConditionCount.get (cc : ConditionCount) (conditionType : ConditionType)
    (status : ConditionStatus) : Nat :=
  match cc.lookup conditionType with
  | some c => c.get status
  | none => 0

/-- The stale rule in the words of the spec, section 4.5: an enactment of another
generation counts as Unknown on Progressing, Available and Failing and as False on
Pending and Aborted. -/
def countedStatusAsSpecified (enactment : Enactment) (policyGeneration : Int)
    (conditionType : ConditionType) : ConditionStatus :=
  if enactment.policyGeneration = policyGeneration then
    match ConditionList.Find enactment.conditions conditionType with
    | some condition => condition.status
    | none => ConditionStatus.Unknown
  else
    match conditionType with
    | ConditionType.Pending => ConditionStatus.False
    | ConditionType.Aborted => ConditionStatus.False
    | _ => ConditionStatus.Unknown

/-- `enactment(policyGeneration, setters...)` of `counter_test.go`: an enactment of the
given generation whose conditions are the setters applied, in order, to the empty list
with the empty message. -/
def testEnactment (policyGeneration : Int)
    (setters : List (ConditionList → String → ConditionList)) : Enactment :=
  { name := "", desiredState := "", policyGeneration := policyGeneration,
    conditions := setters.foldl (fun conditions setter => setter conditions "") [] }

/-- The table of `counter_test.go`: for each entry the enactments, the policy
generation and the expected count (in the order Available, Failing, Progressing,
Pending, Aborted). -/
def counterTestTable : List (List Enactment × Int × ConditionCount) :=
  let row := fun (a fl p pe ab : Nat × Nat × Nat) =>
    ([(ConditionType.Available, ⟨a.1, a.2.1, a.2.2⟩),
      (ConditionType.Failing, ⟨fl.1, fl.2.1, fl.2.2⟩),
      (ConditionType.Progressing, ⟨p.1, p.2.1, p.2.2⟩),
      (ConditionType.Pending, ⟨pe.1, pe.2.1, pe.2.2⟩),
      (ConditionType.Aborted, ⟨ab.1, ab.2.1, ab.2.2⟩)] : ConditionCount)
  [ ([testEnactment 1 [], testEnactment 1 []], 1,
      row (0, 0, 2) (0, 0, 2) (0, 0, 2) (0, 0, 2) (0, 0, 2)),
    ([testEnactment 1 [SetFailedToConfigure], testEnactment 1 [SetProgressing]], 1,
      row (0, 1, 1) (1, 0, 1) (1, 1, 0) (0, 2, 0) (0, 2, 0)),
    ([testEnactment 1 [SetSuccess], testEnactment 1 [SetProgressing]], 1,
      row (1, 0, 1) (0, 1, 1) (1, 1, 0) (0, 2, 0) (0, 2, 0)),
    ([testEnactment 1 [SetProgressing], testEnactment 1 [SetProgressing]], 1,
      row (0, 0, 2) (0, 0, 2) (2, 0, 0) (0, 2, 0) (0, 2, 0)),
    ([testEnactment 1 [SetSuccess], testEnactment 1 [SetSuccess]], 1,
      row (2, 0, 0) (0, 2, 0) (0, 2, 0) (0, 2, 0) (0, 2, 0)),
    ([testEnactment 1 [SetFailedToConfigure], testEnactment 1 [SetFailedToConfigure]], 1,
      row (0, 2, 0) (2, 0, 0) (0, 2, 0) (0, 2, 0) (0, 2, 0)),
    ([testEnactment 1 [SetFailedToConfigure], testEnactment 1 [SetConfigurationAborted]], 1,
      row (0, 2, 0) (1, 1, 0) (0, 2, 0) (0, 2, 0) (1, 1, 0)),
    ([testEnactment 1 [SetPending], testEnactment 1 [SetProgressing]], 1,
      row (0, 1, 1) (0, 1, 1) (1, 1, 0) (1, 1, 0) (0, 2, 0)),
    ([testEnactment 1 [SetPending], testEnactment 1 [SetSuccess]], 1,
      row (1, 1, 0) (0, 2, 0) (0, 2, 0) (1, 1, 0) (0, 2, 0)),
    ([testEnactment 1 [SetPending], testEnactment 1 [SetFailedToConfigure]], 1,
      row (0, 2, 0) (1, 1, 0) (0, 2, 0) (1, 1, 0) (0, 2, 0)),
    ([testEnactment 1 [SetPending], testEnactment 1 [SetConfigurationAborted]], 1,
      row (0, 2, 0) (0, 2, 0) (0, 2, 0) (1, 1, 0) (1, 1, 0)),
    ([testEnactment 1 [SetProgressing], testEnactment 2 [SetProgressing]], 2,
      row (0, 0, 2) (0, 0, 2) (1, 0, 1) (0, 1, 1) (0, 1, 1)),
    ([testEnactment 1 [SetPending], testEnactment 2 [SetPending]], 2,
      row (0, 1, 1) (0, 1, 1) (0, 1, 1) (1, 0, 1) (0, 1, 1)),
    ([testEnactment 1 [SetSuccess], testEnactment 2 [SetSuccess]], 2,
      row (1, 0, 1) (0, 1, 1) (0, 1, 1) (0, 1, 1) (0, 1, 1)),
    ([testEnactment 1 [SetFailedToConfigure], testEnactment 2 [SetFailedToConfigure]], 2,
      row (0, 1, 1) (1, 0, 1) (0, 1, 1) (0, 1, 1) (0, 1, 1)),
    ([testEnactment 1 [SetFailedToConfigure], testEnactment 2 [SetConfigurationAborted]], 2,
      row (0, 1, 1) (0, 1, 1) (0, 1, 1) (0, 1, 1) (1, 0, 1)) ]

/-- The five setters of the rows Pending, Progressing, Success, FailedToConfigure and
Aborted of the setter table. -/
def perReasonSetters : List (ConditionList → String → ConditionList) :=
  [SetPending, SetProgressing, SetSuccess, SetFailedToConfigure, SetConfigurationAborted]

/-- The statuses a condition list holds for the five counted types, in the order
Available, Failing, Progressing, Pending, Aborted. -/
def countedVector (conditions : ConditionList) : List (Option ConditionStatus) :=
  NodeNetworkConfigurationEnactmentConditionTypes.map (ConditionList.statusOf conditions)

/-- The count in the words of the spec, section 4.5: `Count` with the stale rule
`countedStatusAsSpecified`. -/
def CountAsSpecified (enactments : List Enactment) (policyGeneration : Int) : ConditionCount :=
  NodeNetworkConfigurationEnactmentConditionTypes.map (fun conditionType =>
    (conditionType,
      enactments.foldl
        (fun acc enactment =>
          acc.incr (countedStatusAsSpecified enactment policyGeneration conditionType))
        ⟨0, 0, 0⟩))

/-! ## The enactment's conditions along a run -/

/-- The enactment condition notifications of `Reconcile`: the calls
`enactmentConditions.Notify...`. -/
def Event.isNotification : Event → Bool
  | Event.NotifyNodeSelectorFailure _ => true
  | Event.NotifyNodeSelectorNotMatching _ => true
  | Event.NotifyMatching => true
  | Event.NotifyPending => true
  | Event.NotifyAborted _ => true
  | Event.NotifyProgressing => true
  | Event.NotifyFailedToConfigure _ => true
  | Event.NotifySuccess => true
  | _ => false

/-- A write of the refresh label of the NodeNetworkState (accepted or not). -/
def Event.isNNSUpdate : Event → Bool
  | Event.ClientUpdateNNS _ => true
  | _ => false

/-- Modelled from the spec: what one call of `Reconcile` does to the enactment's
condition list (the notifier of `pkg/enactmentstatus/conditions` is not among the
sources). Each notification applies the setter of its row of the table, the
conditions reset empties the list, any other call leaves the list as it is; the table
has no row for `NotifyNodeSelectorFailure`, which is left without effect here. -/
def notifyConditions (conditions : ConditionList) : Event → ConditionList
  | Event.EnactmentconditionsReset => []
  | Event.NotifyNodeSelectorNotMatching _ => SetNodeSelectorNotMatching conditions ""
  | Event.NotifyMatching => SetMatching conditions ""
  | Event.NotifyPending => SetPending conditions ""
  | Event.NotifyAborted err => SetConfigurationAborted conditions err.msg
  | Event.NotifyProgressing => SetProgressing conditions ""
  | Event.NotifyFailedToConfigure err => SetFailedToConfigure conditions err.msg
  | Event.NotifySuccess => SetSuccess conditions ""
  | _ => conditions

/-- The enactment's condition list after the calls of a trace, in order. -/
def conditionsAfter (conditions : ConditionList) (trace : List Event) : ConditionList :=
  trace.foldl notifyConditions conditions

/-- The store the apply starts from on the admitted path: the one the increment left
when the increment runs, the one of the run otherwise. -/
def admittedStore (env : Env) (inst : Policy) (previousConditions : ConditionList)
    (s : Store) : Store :=
  if shouldIncrementUnavailableNodeCount env inst previousConditions then
    (incrementUnavailableNodeCount env (env.beforeIncGet s)).2.1
  else s

/-- The calls of the admission on the admitted path: the increment and its store
calls when the increment runs, none otherwise. -/
def admissionEvents (env : Env) (inst : Policy) (previousConditions : ConditionList)
    (s : Store) : List Event :=
  if shouldIncrementUnavailableNodeCount env inst previousConditions then
    Event.IncrementUnavailableNodeCount none ::
      (incrementUnavailableNodeCount env (env.beforeIncGet s)).2.2
  else []

/-! ## The event filters -/

/-- A Go `map[string]string` as the filters see it: nil, or the entries (the first
entry of a key is the key's value). -/
abbrev LabelMap := Option (List (String × String))

/-- What the event filters can read of an object (`client.Object`): its name, its
generation and its labels; the annotations and the status stand for what the filters
do not read. -/
structure Object where
  name : String
  generation : Int
  labels : LabelMap
  annotations : LabelMap
  status : String
  deriving DecidableEq, Repr

/-- `event.CreateEvent`. -/
structure CreateEvent where
  Object : Object

/-- `event.DeleteEvent`. -/
structure DeleteEvent where
  Object : Object

/-- `event.UpdateEvent`. -/
structure UpdateEvent where
  ObjectOld : Object
  ObjectNew : Object

/-- `event.GenericEvent`. -/
structure GenericEvent where
  Object : Object

/-- `predicate.Funcs` of controller-runtime (a library, not among the sources): one
optional function per kind of event. -/
structure Funcs where
  CreateFunc : Option (CreateEvent → Bool) := none
  DeleteFunc : Option (DeleteEvent → Bool) := none
  UpdateFunc : Option (UpdateEvent → Bool) := none
  GenericFunc : Option (GenericEvent → Bool) := none

/-- `Funcs.Create`: the function's answer, true when the function is nil. -/
def Funcs.Create (p : Funcs) (e : CreateEvent) : Bool :=
  match p.CreateFunc with
  | some f => f e
  | none => true

/-- `Funcs.Delete`: the function's answer, true when the function is nil. -/
def Funcs.Delete (p : Funcs) (e : DeleteEvent) : Bool :=
  match p.DeleteFunc with
  | some f => f e
  | none => true

/-- `Funcs.Update`: the function's answer, true when the function is nil. -/
def Funcs.Update (p : Funcs) (e : UpdateEvent) : Bool :=
  match p.UpdateFunc with
  | some f => f e
  | none => true

/-- `Funcs.Generic`: the function's answer, true when the function is nil. -/
def Funcs.Generic (p : Funcs) (e : GenericEvent) : Bool :=
  match p.GenericFunc with
  | some f => f e
  | none => true

/-- The keys of a map given by its entries. -/
def mapKeys (m : List (String × String)) : List String :=
  (m.map Prod.fst).dedup

/-- `reflect.DeepEqual` on two `map[string]string`: both nil or both not, the same
number of keys, and every key of the first bound to the same value in the second. -/
def DeepEqual : LabelMap → LabelMap → Bool
  | none, none => true
  | some a, some b =>
    (mapKeys a).length == (mapKeys b).length &&
      (mapKeys a).all (fun k => a.lookup k == b.lookup k)
  | _, _ => false

/-- Two label maps are the same map: both nil, or both not and every key bound alike
(or unbound) in both. -/
def sameLabelMap : LabelMap → LabelMap → Prop
  | none, none => True
  | some a, some b => ∀ k, a.lookup k = b.lookup k
  | _, _ => False

/-- Modelled from the spec: `nmstate.EventIsForThisNode` (package `pkg/nmstate`, not
among the sources): the object carries the name of the Handler's node ("only for this
node; filter by name"). -/
def EventIsForThisNode (nodeName : String) (meta : Object) : Bool :=
  meta.name == nodeName

/-- `onCreateOrUpdateWithDifferentGeneration`: the filter on policy events. -/
def onCreateOrUpdateWithDifferentGeneration : Funcs :=
  { CreateFunc := some (fun _ => true)
    DeleteFunc := some (fun _ => false)
    UpdateFunc := some (fun updateEvent =>
      let generationIsDifferent :=
        updateEvent.ObjectNew.generation != updateEvent.ObjectOld.generation
      generationIsDifferent) }

/-- `onLabelsUpdatedForThisNode`: the filter on node events (`nodeName` is the
package variable). -/
def onLabelsUpdatedForThisNode (nodeName : String) : Funcs :=
  { CreateFunc := some (fun _ => false)
    DeleteFunc := some (fun _ => false)
    UpdateFunc := some (fun updateEvent =>
      let labelsChanged := !DeepEqual updateEvent.ObjectOld.labels updateEvent.ObjectNew.labels
      labelsChanged && EventIsForThisNode nodeName updateEvent.ObjectNew)
    GenericFunc := some (fun _ => false) }

/-! ## The operator: one NMState object -/

/-- What `NMStateReconciler.Reconcile` reads of an `NMState` object. -/
structure NMState where
  Name : String
  CreationTimestamp : Time
  deriving DecidableEq, Repr

/-- The calls of `NMStateReconciler.Reconcile`, in the order it makes them. -/
inductive OperatorEvent where
  | ClientList
  | ClientGet (name : String)
  | ClientDelete (name : String)
  | applyCRDs (name : String)
  | applyNamespace (name : String)
  | applyRBAC (name : String)
  | applyHandler (name : String)
  deriving DecidableEq, Repr

/-- The four apply steps. -/
def OperatorEvent.isApply : OperatorEvent → Bool
  | OperatorEvent.applyCRDs _ => true
  | OperatorEvent.applyNamespace _ => true
  | OperatorEvent.applyRBAC _ => true
  | OperatorEvent.applyHandler _ => true
  | _ => false

/-- What a run of the operator's reconciler depends on besides the listed objects:
the failures of the store calls, what other clients do between the `List` and the
`Get`, the library's `sort.Slice`, and the outcome of each apply step. -/
structure OperatorEnv where
  faultList : Option Err
  faultGet : Option Err
  faultDelete : Option Err
  beforeGet : List NMState → List NMState
  sortSlice : (NMState → NMState → Bool) → List NMState → List NMState
  applyCRDs : NMState → Option Err
  applyNamespace : NMState → Option Err
  applyRBAC : NMState → Option Err
  applyHandler : NMState → Option Err

/-- What a run of the operator's reconciler leaves: the returned
`(ctrl.Result, error)`, the `NMState` objects of the store and the calls. -/
structure OperatorOutcome where
  result : Result
  err : Option Err
  store : List NMState
  trace : List OperatorEvent

/-- `r.Client.Get(ctx, req.NamespacedName, instance)` for an `NMState`. -/
def clientGetNMState (fault : Option Err) (name : String) (s : List NMState) :
    Except Err NMState :=
  match fault with
  | some err => Except.error err
  | none =>
    match s.find? (fun i => i.Name == name) with
    | some inst => Except.ok inst
    | none => Except.error (NewNotFound "nmstates.nmstate.io" name)

/-- The `less` that `Reconcile` hands to `sort.Slice`:
`Items[j].CreationTimestamp.After(Items[i].CreationTimestamp.Time)`. -/
def creationLess (i j : NMState) : Bool :=
  decide (j.CreationTimestamp > i.CreationTimestamp)

/-- Lines 104-127 of `nmstate_controller.go`: the four apply steps, each returning
its error. -/
def applyManifests (env : OperatorEnv) (inst : NMState) : Option Err × List OperatorEvent :=
  match env.applyCRDs inst with
  | some err => (some err, [OperatorEvent.applyCRDs inst.Name])
  | none =>
    match env.applyNamespace inst with
    | some err =>
      (some err, [OperatorEvent.applyCRDs inst.Name,
        OperatorEvent.applyNamespace inst.Name])
    | none =>
      match env.applyRBAC inst with
      | some err =>
        (some err, [OperatorEvent.applyCRDs inst.Name,
          OperatorEvent.applyNamespace inst.Name, OperatorEvent.applyRBAC inst.Name])
      | none =>
        (env.applyHandler inst, [OperatorEvent.applyCRDs inst.Name,
          OperatorEvent.applyNamespace inst.Name, OperatorEvent.applyRBAC inst.Name,
          OperatorEvent.applyHandler inst.Name])

/-- The items of the list as lines 88-94 leave them: sorted by `sort.Slice` with
`creationLess` when there is more than one. -/
def listedItems (env : OperatorEnv) (items : List NMState) : List NMState :=
  if items.length > 1 then env.sortSlice creationLess items else items

/-- `NMStateReconciler.Reconcile(ctx, req)` on the `NMState` objects `s` of the store,
for the request name `reqName`. -/
def NMStateReconciler.Reconcile (env : OperatorEnv) (reqName : String) (s : List NMState) :
    OperatorOutcome :=
  match env.faultList with
  | some err =>
    { result := {}, err := some (Wrap err "failed listing all NMState instances"), store := s,
      trace := [OperatorEvent.ClientList] }
  | none =>
    let instanceList := s
    let s := env.beforeGet s
    match clientGetNMState env.faultGet reqName s with
    | Except.error err =>
      if IsNotFound err then
        { result := {}, err := none, store := s,
          trace := [OperatorEvent.ClientList, OperatorEvent.ClientGet reqName] }
      else
        { result := {}, err := some err, store := s,
          trace := [OperatorEvent.ClientList, OperatorEvent.ClientGet reqName] }
    | Except.ok inst =>
      let applied :=
        let r := applyManifests env inst
        { result := {}, err := r.1, store := s,
          trace := OperatorEvent.ClientList :: OperatorEvent.ClientGet reqName :: r.2 }
      match listedItems env instanceList with
      | [] => applied
      | first :: _ =>
        if first.Name != reqName then
          let s := match env.faultDelete with
            | some _ => s
            | none => s.filter (fun i => i.Name != inst.Name)
          { result := {}, err := none, store := s,
            trace := [OperatorEvent.ClientList, OperatorEvent.ClientGet reqName,
              OperatorEvent.ClientDelete inst.Name] }
        else applied

/-- An `OperatorEnv` for the examples: no call fails, nobody else writes, and
`sort.Slice` is an insertion sort. -/
def quietOperatorEnv : OperatorEnv :=
  { faultList := none, faultGet := none, faultDelete := none, beforeGet := fun s => s,
    sortSlice := fun less l => l.insertionSort (fun a b => !less b a),
    applyCRDs := fun _ => none, applyNamespace := fun _ => none, applyRBAC := fun _ => none,
    applyHandler := fun _ => none }

/-- Three `NMState` objects as a `List` may return them, the oldest in the middle. -/
def exampleInstances : List NMState :=
  [⟨"second", 20⟩, ⟨"nmstate", 10⟩, ⟨"third", 30⟩]

end Nmstate

namespace Nmstate

/-! ## Lemmas on the embedding -/

theorem wrapInt_of_inRange (x : Int) (h1 : minInt ≤ x) (h2 : x ≤ maxInt) : wrapInt x = x := by
  unfold wrapInt
  unfold minInt at h1
  unfold maxInt at h2
  omega

theorem clientGetPolicy_ok {fault : Option Err} {s : Store} {p : Policy}
    (h : clientGetPolicy fault s = Except.ok p) : fault = none ∧ s.policy = some p := by
  unfold clientGetPolicy at h
  split at h
  · cases h
  · split at h
    · cases h
    · rename_i q hq
      cases h
      exact ⟨rfl, hq⟩

theorem clientStatusUpdatePolicy_ok {fault : Option Err} {s s1 : Store} {obj : Policy}
    (h : clientStatusUpdatePolicy fault s obj = Except.ok s1) :
    ∃ stored, s.policy = some stored ∧ stored.resourceVersion = obj.resourceVersion ∧
      s1 = { s with policy := some { stored with
        status := obj.status, resourceVersion := stored.resourceVersion + 1 } } := by
  unfold clientStatusUpdatePolicy at h
  split at h
  · cases h
  · split at h
    · cases h
    · rename_i stored hs
      split at h
      · rename_i hrv
        cases h
        exact ⟨stored, hs, hrv, rfl⟩
      · cases h

theorem incrementPrepare_ok {env : Env} {s : Store} {obj : Policy}
    (h : incrementPrepare env s = Except.ok obj) :
    ∃ p maxUnavailable, s.policy = some p ∧ env.faultIncGet = none ∧
      env.MaxUnavailableNodeCount p = Except.ok maxUnavailable ∧
      p.status.unavailableNodeCount < maxUnavailable ∧
      obj = { p with status :=
        { lastUnavailableNodeCountUpdate := some env.nowInc,
          unavailableNodeCount := wrapInt (p.status.unavailableNodeCount + 1) } } := by
  unfold incrementPrepare at h
  split at h
  · cases h
  · rename_i p hp
    obtain ⟨hf, hs⟩ := clientGetPolicy_ok hp
    split at h
    · cases h
    · rename_i mx hmx
      split at h
      · cases h
      · rename_i hlt
        cases h
        exact ⟨p, mx, hs, hf, hmx, by omega, rfl⟩

theorem decrementPrepare_ok {env : Env} {i : Nat} {s : Store} {obj : Policy}
    (h : decrementPrepare env i s = Except.ok obj) :
    ∃ p, s.policy = some p ∧ env.faultDecGet i = none ∧
      0 < p.status.unavailableNodeCount ∧
      obj = { p with status :=
        { lastUnavailableNodeCountUpdate := some (env.nowDec i),
          unavailableNodeCount := wrapInt (p.status.unavailableNodeCount - 1) } } := by
  unfold decrementPrepare at h
  split at h
  · cases h
  · rename_i p hp
    obtain ⟨hf, hs⟩ := clientGetPolicy_ok hp
    split at h
    · cases h
    · rename_i hlt
      cases h
      exact ⟨p, hs, hf, by omega, rfl⟩

theorem GateInv_step (m : Int) (hm : m ≤ maxInt) (c : Cluster) (a : Action)
    (hmax : ∀ env ∈ a.envs, ∀ q, env.MaxUnavailableNodeCount q = Except.ok m)
    (hinv : GateInv m c) : GateInv m (c.step a) := by
  obtain ⟨hstore, hfl⟩ := hinv
  cases a with
  | IncGet h env =>
    refine ⟨hstore, ?_⟩
    intro h1 obj p hobj hp
    simp only [Cluster.step] at hobj hp
    by_cases hh : h1 = h
    · subst hh
      rw [Function.update_same] at hobj
      cases hprep : incrementPrepare env c.store with
      | error e => rw [hprep] at hobj; cases hobj
      | ok o =>
        rw [hprep] at hobj
        cases hobj
        obtain ⟨p1, mx, hs, _, hmx, hlt, ho⟩ := incrementPrepare_ok hprep
        rw [hs] at hp
        have hpe : p1 = p := Option.some.inj hp
        subst hpe
        have hm1 := hmax env (by simp [Action.envs]) p1
        rw [hm1] at hmx
        cases hmx
        obtain ⟨hlo, _⟩ := hstore p1 hs
        subst ho
        refine ⟨le_refl _, fun _ => ?_⟩
        have hw := wrapInt_of_inRange (p1.status.unavailableNodeCount + 1) (by omega) (by omega)
        simp only [hw]
        constructor <;> omega
    · rw [Function.update_noteq hh] at hobj
      exact hfl h1 obj p hobj hp
  | DecGet h env i =>
    refine ⟨hstore, ?_⟩
    intro h1 obj p hobj hp
    simp only [Cluster.step] at hobj hp
    by_cases hh : h1 = h
    · subst hh
      rw [Function.update_same] at hobj
      cases hprep : decrementPrepare env i c.store with
      | error e => rw [hprep] at hobj; cases hobj
      | ok o =>
        rw [hprep] at hobj
        cases hobj
        obtain ⟨p1, hs, _, hpos, ho⟩ := decrementPrepare_ok hprep
        rw [hs] at hp
        have hpe : p1 = p := Option.some.inj hp
        subst hpe
        obtain ⟨_, hhi⟩ := hstore p1 hs
        subst ho
        refine ⟨le_refl _, fun _ => ?_⟩
        have hw := wrapInt_of_inRange (p1.status.unavailableNodeCount - 1)
          (by unfold minInt; omega) (by omega)
        simp only [hw]
        constructor
        · unfold minInt; omega
        · omega
    · rw [Function.update_noteq hh] at hobj
      exact hfl h1 obj p hobj hp
  | StatusUpdate h fault =>
    simp only [Cluster.step]
    cases hfh : c.inFlight h with
    | none => exact ⟨hstore, hfl⟩
    | some obj =>
      simp only
      cases hup : clientStatusUpdatePolicy fault c.store obj with
      | error e =>
        refine ⟨hstore, ?_⟩
        intro h1 obj1 p hobj hp
        simp only at hobj hp
        by_cases hh : h1 = h
        · subst hh
          rw [Function.update_same] at hobj
          cases hobj
        · rw [Function.update_noteq hh] at hobj
          exact hfl h1 obj1 p hobj hp
      | ok s1 =>
        obtain ⟨stored, hs, hrv, hs1⟩ := clientStatusUpdatePolicy_ok hup
        obtain ⟨_, hsame⟩ := hfl h obj stored hfh hs
        obtain ⟨hlo, hhi⟩ := hsame hrv.symm
        subst hs1
        constructor
        · intro p hp
          simp only [Option.some.injEq] at hp
          subst hp
          exact ⟨hlo, hhi⟩
        · intro h1 obj1 p hobj hp
          simp only [Option.some.injEq] at hp
          subst hp
          simp only at hobj
          by_cases hh : h1 = h
          · subst hh
            rw [Function.update_same] at hobj
            cases hobj
          · rw [Function.update_noteq hh] at hobj
            obtain ⟨hle, _⟩ := hfl h1 obj1 stored hobj hs
            simp only
            exact ⟨by omega, fun heq => by omega⟩

theorem GateInv_run (m : Int) (hm : m ≤ maxInt) (steps : List Action) :
    ∀ c : Cluster,
      (∀ a ∈ steps, ∀ env ∈ a.envs, ∀ q, env.MaxUnavailableNodeCount q = Except.ok m) →
      GateInv m c → GateInv m (c.run steps) := by
  induction steps with
  | nil => intro c _ hinv; exact hinv
  | cons a rest ih =>
    intro c hmax hinv
    simp only [Cluster.run, List.foldl_cons]
    exact ih (c.step a) (fun b hb => hmax b (List.mem_cons_of_mem a hb))
      (GateInv_step m hm c a (hmax a (List.mem_cons_self a rest)) hinv)

/-! ## The capacity gate under concurrency -/

/-- C1: with a fixed budget `m` and a stored count that starts at or below `m`, the
stored `unavailableNodeCount` is at most `m` after every interleaving of the
increment and decrement steps of any number of Handlers, the store rejecting every
status write that carries a stale resource version. -/
theorem unavailableNodeCount_le_maxUnavailable (m : Int) (hm : m ≤ maxInt) (s : Store)
    (hinit : ∀ p, s.policy = some p →
      minInt ≤ p.status.unavailableNodeCount ∧ p.status.unavailableNodeCount ≤ m)
    (steps : List Action)
    (hmax : ∀ a ∈ steps, ∀ env ∈ a.envs, ∀ q, env.MaxUnavailableNodeCount q = Except.ok m) :
    ∀ p, (Cluster.run ⟨s, fun _ => none⟩ steps).store.policy = some p →
      p.status.unavailableNodeCount ≤ m := by
  have hinv : GateInv m (Cluster.run ⟨s, fun _ => none⟩ steps) := by
    apply GateInv_run m hm steps _ hmax
    refine ⟨hinit, ?_⟩
    intro h obj p hobj _
    cases hobj
  intro p hp
  exact (hinv.1 p hp).2

/-- Two Handlers race for a budget of one: both read count 0, the first write is
accepted, the second is rejected, and the count ends at 1. -/
theorem unavailableNodeCount_le_maxUnavailable_witness :
    (Cluster.run ⟨exampleStore 0 none [], fun _ => none⟩
        [Action.IncGet 0 (quietEnv 1 1000), Action.IncGet 1 (quietEnv 1 2000),
          Action.StatusUpdate 0 none, Action.StatusUpdate 1 none]).store.policy
      = some { examplePolicy 1 (some 1000) with resourceVersion := 8 } ∧
    ({ examplePolicy 1 (some 1000) with resourceVersion := 8 } : Policy).status.unavailableNodeCount
      ≤ 1 := by
  have hrun : (Cluster.run ⟨exampleStore 0 none [], fun _ => none⟩
        [Action.IncGet 0 (quietEnv 1 1000), Action.IncGet 1 (quietEnv 1 2000),
          Action.StatusUpdate 0 none, Action.StatusUpdate 1 none]).store.policy
      = some { examplePolicy 1 (some 1000) with resourceVersion := 8 } := by
    rfl
  refine ⟨hrun, ?_⟩
  refine unavailableNodeCount_le_maxUnavailable 1 (by decide) (exampleStore 0 none [])
    ?_ _ ?_ _ hrun
  · intro p hp
    cases hp
    exact ⟨by decide, by decide⟩
  · intro a ha env henv q
    simp only [List.mem_cons, List.mem_singleton, List.not_mem_nil, or_false] at ha
    rcases ha with rfl | rfl | rfl | rfl <;> simp [Action.envs] at henv <;> subst henv <;> rfl

/-! ## Increment and decrement, one call -/

theorem incrementPrepare_saturated (env : Env) (s : Store) (p : Policy) (m : Int)
    (hget : env.faultIncGet = none) (hp : s.policy = some p)
    (hmax : env.MaxUnavailableNodeCount p = Except.ok m)
    (hsat : p.status.unavailableNodeCount ≥ m) :
    incrementPrepare env s = Except.error
      (NewConflict "nodenetworkconfigurationpolicies" p.name
        ("maximal number of " ++ toString p.status.unavailableNodeCount ++
          " nodes are already processing policy configuration")) := by
  simp [incrementPrepare, clientGetPolicy, hget, hp, hmax, hsat]

theorem incrementPrepare_admitted (env : Env) (s : Store) (p : Policy) (m : Int)
    (hget : env.faultIncGet = none) (hp : s.policy = some p)
    (hmax : env.MaxUnavailableNodeCount p = Except.ok m)
    (hlt : p.status.unavailableNodeCount < m) :
    incrementPrepare env s = Except.ok { p with status :=
      { lastUnavailableNodeCountUpdate := some env.nowInc,
        unavailableNodeCount := wrapInt (p.status.unavailableNodeCount + 1) } } := by
  have hn : ¬ m ≤ p.status.unavailableNodeCount := by omega
  simp [incrementPrepare, clientGetPolicy, hget, hp, hmax, hn]

theorem clientStatusUpdatePolicy_accepted (s : Store) (stored obj : Policy)
    (hs : s.policy = some stored) (hrv : stored.resourceVersion = obj.resourceVersion) :
    clientStatusUpdatePolicy none s obj = Except.ok { s with policy := some { stored with
      status := obj.status, resourceVersion := stored.resourceVersion + 1 } } := by
  simp [clientStatusUpdatePolicy, hs, hrv]

theorem clientStatusUpdatePolicy_stale (s : Store) (stored obj : Policy)
    (hs : s.policy = some stored) (hrv : stored.resourceVersion ≠ obj.resourceVersion) :
    clientStatusUpdatePolicy none s obj = Except.error
      (NewConflict "nodenetworkconfigurationpolicies" obj.name
        "the object has been modified; please apply your changes to the latest version and try again") := by
  simp [clientStatusUpdatePolicy, hs, hrv]

/-- C2: when the status the increment has just read has
`unavailableNodeCount >= maxUnavailable`, `incrementUnavailableNodeCount` returns a
Conflict error, attempts no status write, and leaves the store (so the stored count
and `lastUnavailableNodeCountUpdate`) as it was. -/
theorem increment_saturated_conflict_without_write (env : Env) (s : Store) (p : Policy)
    (m : Int) (hget : env.faultIncGet = none) (hp : s.policy = some p)
    (hmax : env.MaxUnavailableNodeCount p = Except.ok m)
    (hsat : p.status.unavailableNodeCount ≥ m) :
    (∃ err, (incrementUnavailableNodeCount env s).1 = some err ∧ IsConflict err = true) ∧
    (incrementUnavailableNodeCount env s).2.1 = s ∧
    (∀ e ∈ (incrementUnavailableNodeCount env s).2.2, e.isStatusUpdate = false) ∧
    (incrementUnavailableNodeCount env s).2.1.policy = some p := by
  have h := incrementPrepare_saturated env s p m hget hp hmax hsat
  have hrun : incrementUnavailableNodeCount env s =
      (some (NewConflict "nodenetworkconfigurationpolicies" p.name
        ("maximal number of " ++ toString p.status.unavailableNodeCount ++
          " nodes are already processing policy configuration")), s,
        [Event.ClientGetPolicy]) := by
    simp only [incrementUnavailableNodeCount, h]
  rw [hrun]
  refine ⟨⟨_, rfl, rfl⟩, rfl, ?_, hp⟩
  intro e he
  simp only [List.mem_singleton] at he
  subst he
  rfl

/-- A policy at count 2 under a budget of 2: the increment answers Conflict and
the store keeps count 2. -/
theorem increment_saturated_conflict_without_write_witness :
    (∃ err, (incrementUnavailableNodeCount (quietEnv 2 1000) (exampleStore 2 none [])).1
        = some err ∧ IsConflict err = true) ∧
    (incrementUnavailableNodeCount (quietEnv 2 1000) (exampleStore 2 none [])).2.1
      = exampleStore 2 none [] ∧
    (∀ e ∈ (incrementUnavailableNodeCount (quietEnv 2 1000) (exampleStore 2 none [])).2.2,
      e.isStatusUpdate = false) ∧
    (incrementUnavailableNodeCount (quietEnv 2 1000) (exampleStore 2 none [])).2.1.policy
      = some (examplePolicy 2 none) :=
  increment_saturated_conflict_without_write (quietEnv 2 1000) (exampleStore 2 none [])
    (examplePolicy 2 none) 2 rfl rfl rfl (by decide)

theorem incrementUnavailableNodeCount_accepted (env : Env) (s : Store) (p stored : Policy)
    (m : Int) (hget : env.faultIncGet = none) (hp : s.policy = some p)
    (hmax : env.MaxUnavailableNodeCount p = Except.ok m)
    (hlo : minInt ≤ p.status.unavailableNodeCount) (hm : m ≤ maxInt)
    (hlt : p.status.unavailableNodeCount < m)
    (hfault : env.faultIncUpdate = none)
    (hstored : (env.beforeIncUpdate s).policy = some stored)
    (hrv : stored.resourceVersion = p.resourceVersion) :
    incrementUnavailableNodeCount env s =
      (none, { env.beforeIncUpdate s with policy := some { stored with
          status := { unavailableNodeCount := p.status.unavailableNodeCount + 1,
                      lastUnavailableNodeCountUpdate := some env.nowInc },
          resourceVersion := stored.resourceVersion + 1 } },
        [Event.ClientGetPolicy,
          Event.ClientStatusUpdatePolicy
            { unavailableNodeCount := p.status.unavailableNodeCount + 1,
              lastUnavailableNodeCountUpdate := some env.nowInc } p.resourceVersion true]) := by
  have h := incrementPrepare_admitted env s p m hget hp hmax hlt
  have hw := wrapInt_of_inRange (p.status.unavailableNodeCount + 1) (by omega) (by omega)
  rw [hw] at h
  have hu := clientStatusUpdatePolicy_accepted (env.beforeIncUpdate s) stored
    { p with status :=
      { lastUnavailableNodeCountUpdate := some env.nowInc,
        unavailableNodeCount := p.status.unavailableNodeCount + 1 } } hstored hrv
  simp only [incrementUnavailableNodeCount, h, hfault, hu]

/-- C3: when the status the increment has just read has
`unavailableNodeCount < maxUnavailable` and the store accepts the status write (no
fault, and the store still holds the resource version that was read),
`incrementUnavailableNodeCount` returns no error, the stored status has the read
count plus exactly 1 and `lastUnavailableNodeCountUpdate` at the current time, and
the one status write carried the resource version of the read. -/
theorem increment_admitted_adds_one (env : Env) (s : Store) (p stored : Policy) (m : Int)
    (hget : env.faultIncGet = none) (hp : s.policy = some p)
    (hmax : env.MaxUnavailableNodeCount p = Except.ok m)
    (hlo : minInt ≤ p.status.unavailableNodeCount) (hm : m ≤ maxInt)
    (hlt : p.status.unavailableNodeCount < m)
    (hfault : env.faultIncUpdate = none)
    (hstored : (env.beforeIncUpdate s).policy = some stored)
    (hrv : stored.resourceVersion = p.resourceVersion) :
    (incrementUnavailableNodeCount env s).1 = none ∧
    (incrementUnavailableNodeCount env s).2.1.policy = some { stored with
      status := { unavailableNodeCount := p.status.unavailableNodeCount + 1,
                  lastUnavailableNodeCountUpdate := some env.nowInc },
      resourceVersion := stored.resourceVersion + 1 } ∧
    (incrementUnavailableNodeCount env s).2.2 = [Event.ClientGetPolicy,
      Event.ClientStatusUpdatePolicy
        { unavailableNodeCount := p.status.unavailableNodeCount + 1,
          lastUnavailableNodeCountUpdate := some env.nowInc } p.resourceVersion true] := by
  rw [incrementUnavailableNodeCount_accepted env s p stored m hget hp hmax hlo hm hlt hfault
    hstored hrv]
  exact ⟨rfl, rfl, rfl⟩

/-- A policy at count 0 under a budget of 2, read at resource version 7: the store
ends with count 1, stamped 1000, at resource version 8. -/
theorem increment_admitted_adds_one_witness :
    (incrementUnavailableNodeCount (quietEnv 2 1000) (exampleStore 0 none [])).1 = none ∧
    (incrementUnavailableNodeCount (quietEnv 2 1000) (exampleStore 0 none [])).2.1.policy
      = some { examplePolicy 0 none with
          status := { unavailableNodeCount := (examplePolicy 0 none).status.unavailableNodeCount + 1,
                      lastUnavailableNodeCountUpdate := some (quietEnv 2 1000).nowInc },
          resourceVersion := (examplePolicy 0 none).resourceVersion + 1 } ∧
    (incrementUnavailableNodeCount (quietEnv 2 1000) (exampleStore 0 none [])).2.2
      = [Event.ClientGetPolicy,
        Event.ClientStatusUpdatePolicy
          { unavailableNodeCount := (examplePolicy 0 none).status.unavailableNodeCount + 1,
            lastUnavailableNodeCountUpdate := some (quietEnv 2 1000).nowInc }
          (examplePolicy 0 none).resourceVersion true] :=
  increment_admitted_adds_one (quietEnv 2 1000) (exampleStore 0 none [])
    (examplePolicy 0 none) (examplePolicy 0 none) 2 rfl rfl rfl (by decide) (by decide)
    (by decide) rfl rfl rfl

theorem decrementPrepare_zero (env : Env) (i : Nat) (s : Store) (p : Policy)
    (hget : env.faultDecGet i = none) (hp : s.policy = some p)
    (hz : p.status.unavailableNodeCount ≤ 0) :
    decrementPrepare env i s = Except.error (Errorf "no unavailable nodes") := by
  simp [decrementPrepare, clientGetPolicy, hget, hp, hz]

theorem decrementPrepare_positive (env : Env) (i : Nat) (s : Store) (p : Policy)
    (hget : env.faultDecGet i = none) (hp : s.policy = some p)
    (hpos : 0 < p.status.unavailableNodeCount) :
    decrementPrepare env i s = Except.ok { p with status :=
      { lastUnavailableNodeCountUpdate := some (env.nowDec i),
        unavailableNodeCount := wrapInt (p.status.unavailableNodeCount - 1) } } := by
  have hn : ¬ p.status.unavailableNodeCount ≤ 0 := by omega
  simp [decrementPrepare, clientGetPolicy, hget, hp, hn]

theorem decrementAttempt_writes (env : Env) (i : Nat) (s : Store) (hwf : s.intCount)
    (hupd : ∀ j st, Store.intCount st → Store.intCount (env.beforeDecUpdate j st)) :
    (∀ st rv ok, Event.ClientStatusUpdatePolicy st rv ok ∈ (decrementAttempt env i s).2.2 →
      0 ≤ st.unavailableNodeCount) ∧
    Store.intCount (decrementAttempt env i s).2.1 := by
  unfold decrementAttempt
  cases hprep : decrementPrepare env i s with
  | error e =>
    refine ⟨?_, hwf⟩
    intro st rv ok hmem
    simp at hmem
  | ok inst =>
    obtain ⟨p, hp, _, hpos, hinst⟩ := decrementPrepare_ok hprep
    obtain ⟨_, hhi⟩ := hwf p hp
    have hw := wrapInt_of_inRange (p.status.unavailableNodeCount - 1)
      (by unfold minInt; omega) (by omega)
    have hc : inst.status.unavailableNodeCount = p.status.unavailableNodeCount - 1 := by
      rw [hinst]; exact hw
    simp only
    cases hup : clientStatusUpdatePolicy (env.faultDecUpdate i) (env.beforeDecUpdate i s) inst with
    | error e =>
      refine ⟨?_, hupd i s hwf⟩
      intro st rv ok hmem
      simp at hmem
      obtain ⟨h1, _, _⟩ := hmem
      rw [h1, hc]; omega
    | ok s1 =>
      constructor
      · intro st rv ok hmem
        simp at hmem
        obtain ⟨h1, _, _⟩ := hmem
        rw [h1, hc]; omega
      · obtain ⟨stored, _, _, hs1⟩ := clientStatusUpdatePolicy_ok hup
        intro q hq
        rw [hs1] at hq
        simp only [Option.some.injEq] at hq
        subst hq
        simp only
        rw [hc]
        constructor
        · unfold minInt; omega
        · omega

theorem RetryOnConflict_writes (env : Env)
    (hupd : ∀ j st, Store.intCount st → Store.intCount (env.beforeDecUpdate j st))
    (hretry : ∀ j st, Store.intCount st → Store.intCount (env.beforeDecRetry j st))
    (steps : Nat) :
    ∀ (i : Nat) (s : Store), s.intCount →
      ∀ st rv ok, Event.ClientStatusUpdatePolicy st rv ok ∈ (RetryOnConflict env steps i s).2.2 →
        0 ≤ st.unavailableNodeCount := by
  induction steps with
  | zero =>
    intro i s _ st rv ok hmem
    simp [RetryOnConflict] at hmem
  | succ n ih =>
    intro i s hwf st rv ok hmem
    obtain ⟨hw, hwf1⟩ := decrementAttempt_writes env i s hwf hupd
    unfold RetryOnConflict at hmem
    rcases hatt : decrementAttempt env i s with ⟨r, s1, t⟩
    rw [hatt] at hmem hw hwf1
    cases r with
    | none => exact hw st rv ok hmem
    | some err =>
      simp only at hmem
      split at hmem
      · split at hmem
        · exact hw st rv ok hmem
        · simp only [List.mem_append] at hmem
          rcases hmem with hmem | hmem
          · exact hw st rv ok hmem
          · exact ih (i + 1) (env.beforeDecRetry i s1) (hretry i s1 hwf1) st rv ok hmem
      · exact hw st rv ok hmem

/-- C6: `decrementUnavailableNodeCount` never writes a negative count, whatever the
faults, the retries and the writes of other Handlers (all counts being Go `int`s);
when the count it reads is `<= 0` it attempts no status write and leaves the store as
it was; when the count it reads is positive, the write it attempts carries the read
count minus exactly 1, and that is the stored count once the store has accepted it. -/
theorem decrement_never_below_zero (env : Env) (s : Store)
    (hwf : s.intCount)
    (hupd : ∀ j st, Store.intCount st → Store.intCount (env.beforeDecUpdate j st))
    (hretry : ∀ j st, Store.intCount st → Store.intCount (env.beforeDecRetry j st)) :
    (∀ st rv ok, Event.ClientStatusUpdatePolicy st rv ok ∈
        (decrementUnavailableNodeCount env s).2 → 0 ≤ st.unavailableNodeCount) ∧
    (∀ p, env.faultDecGet 0 = none → s.policy = some p →
      p.status.unavailableNodeCount ≤ 0 →
      decrementUnavailableNodeCount env s = (s, [Event.ClientGetPolicy])) ∧
    (∀ p stored, env.faultDecGet 0 = none → s.policy = some p →
      0 < p.status.unavailableNodeCount →
      env.faultDecUpdate 0 = none →
      (env.beforeDecUpdate 0 s).policy = some stored →
      stored.resourceVersion = p.resourceVersion →
      decrementUnavailableNodeCount env s =
        ({ env.beforeDecUpdate 0 s with policy := some { stored with
            status := { unavailableNodeCount := p.status.unavailableNodeCount - 1,
                        lastUnavailableNodeCountUpdate := some (env.nowDec 0) },
            resourceVersion := stored.resourceVersion + 1 } },
          [Event.ClientGetPolicy,
            Event.ClientStatusUpdatePolicy
              { unavailableNodeCount := p.status.unavailableNodeCount - 1,
                lastUnavailableNodeCountUpdate := some (env.nowDec 0) }
              p.resourceVersion true])) := by
  refine ⟨?_, ?_, ?_⟩
  · intro st rv ok hmem
    exact RetryOnConflict_writes env hupd hretry DefaultRetrySteps 0 s hwf st rv ok hmem
  · intro p hget hp hz
    have h := decrementPrepare_zero env 0 s p hget hp hz
    simp [decrementUnavailableNodeCount, DefaultRetrySteps, RetryOnConflict, decrementAttempt, h,
      IsConflict, Errorf]
  · intro p stored hget hp hpos hfault hstored hrv
    have h := decrementPrepare_positive env 0 s p hget hp hpos
    have hw := wrapInt_of_inRange (p.status.unavailableNodeCount - 1)
      (by unfold minInt; omega) (by have := (hwf p hp).2; omega)
    rw [hw] at h
    have hu := clientStatusUpdatePolicy_accepted (env.beforeDecUpdate 0 s) stored
      { p with status :=
        { lastUnavailableNodeCountUpdate := some (env.nowDec 0),
          unavailableNodeCount := p.status.unavailableNodeCount - 1 } } hstored hrv
    simp [decrementUnavailableNodeCount, DefaultRetrySteps, RetryOnConflict, decrementAttempt, h,
      hfault, hu]

/-- One Handler, nobody else writing: a read count of 1 is written back as 0, a read
count of 0 is left alone without a write. -/
theorem decrement_never_below_zero_witness :
    decrementUnavailableNodeCount (quietEnv 2 1000) (exampleStore 1 none []) =
      ({ exampleStore 1 none [] with policy := some { examplePolicy 1 none with
          status := { unavailableNodeCount := 1 - 1,
                      lastUnavailableNodeCountUpdate := some (1000 + 30 * Second) },
          resourceVersion := 7 + 1 } },
        [Event.ClientGetPolicy,
          Event.ClientStatusUpdatePolicy
            { unavailableNodeCount := 1 - 1,
              lastUnavailableNodeCountUpdate := some (1000 + 30 * Second) } 7 true]) ∧
    decrementUnavailableNodeCount (quietEnv 2 1000) (exampleStore 0 none []) =
      (exampleStore 0 none [], [Event.ClientGetPolicy]) := by
  constructor
  · exact (decrement_never_below_zero (quietEnv 2 1000) (exampleStore 1 none [])
      (by intro p hp; cases hp; exact ⟨by decide, by decide⟩)
      (fun _ _ h => h) (fun _ _ h => h)).2.2 (examplePolicy 1 none) (examplePolicy 1 none)
      rfl rfl (by decide) rfl rfl rfl
  · exact (decrement_never_below_zero (quietEnv 2 1000) (exampleStore 0 none [])
      (by intro p hp; cases hp; exact ⟨by decide, by decide⟩)
      (fun _ _ h => h) (fun _ _ h => h)).2.1 (examplePolicy 0 none) rfl rfl (by decide)

/-! ## The increment-eligibility predicate -/

theorem Since_lt_iff (now t : Time) (window : Duration) (hlo : minInt < window)
    (hhi : window ≤ maxInt) : Since now t < window ↔ now - t < window := by
  unfold Since
  simp only [minInt, maxInt, Time, Duration] at *
  split
  · omega
  · split <;> omega

theorem shouldIncrementUnavailableNodeCount_eq_true (env : Env) (policy : Policy)
    (conditions : ConditionList) :
    shouldIncrementUnavailableNodeCount env policy conditions = true ↔
      (IsProgressing conditions = false ∧
        (policy.status.lastUnavailableNodeCountUpdate = none ∨
          ∃ t, policy.status.lastUnavailableNodeCountUpdate = some t ∧
            Since env.nowSince t <
              env.DesiredStateConfigurationTimeout + env.ProbesTotalTimeout)) := by
  unfold shouldIncrementUnavailableNodeCount
  cases hl : policy.status.lastUnavailableNodeCountUpdate with
  | none => simp
  | some t => simp

/-- C4: `shouldIncrementUnavailableNodeCount` is true exactly when
`IsProgressing(previousConditions)` is false and `lastUnavailableNodeCountUpdate` is
either absent or less than `DesiredStateConfigurationTimeout + ProbesTotalTimeout`
ago, the elapsed time being `time.Since` of the stamp; for a window that is a
`time.Duration` above its least value, `time.Since` can be read as the plain
difference between now and the stamp. -/
theorem shouldIncrementUnavailableNodeCount_iff (env : Env) (policy : Policy)
    (conditions : ConditionList) :
    (shouldIncrementUnavailableNodeCount env policy conditions = true ↔
      (IsProgressing conditions = false ∧
        (policy.status.lastUnavailableNodeCountUpdate = none ∨
          ∃ t, policy.status.lastUnavailableNodeCountUpdate = some t ∧
            Since env.nowSince t <
              env.DesiredStateConfigurationTimeout + env.ProbesTotalTimeout))) ∧
    (minInt < env.DesiredStateConfigurationTimeout + env.ProbesTotalTimeout →
      env.DesiredStateConfigurationTimeout + env.ProbesTotalTimeout ≤ maxInt →
      (shouldIncrementUnavailableNodeCount env policy conditions = true ↔
        (IsProgressing conditions = false ∧
          (policy.status.lastUnavailableNodeCountUpdate = none ∨
            ∃ t, policy.status.lastUnavailableNodeCountUpdate = some t ∧
              env.nowSince - t <
                env.DesiredStateConfigurationTimeout + env.ProbesTotalTimeout)))) := by
  have key := shouldIncrementUnavailableNodeCount_eq_true env policy conditions
  refine ⟨key, ?_⟩
  intro hlo hhi
  rw [key]
  constructor
  · rintro ⟨h1, h2⟩
    refine ⟨h1, ?_⟩
    rcases h2 with h2 | ⟨t, ht, hs⟩
    · exact Or.inl h2
    · exact Or.inr ⟨t, ht, (Since_lt_iff _ _ _ hlo hhi).1 hs⟩
  · rintro ⟨h1, h2⟩
    refine ⟨h1, ?_⟩
    rcases h2 with h2 | ⟨t, ht, hs⟩
    · exact Or.inl h2
    · exact Or.inr ⟨t, ht, (Since_lt_iff _ _ _ hlo hhi).2 hs⟩

/-- With a window of 720 s, previous conditions not Progressing and a stamp 30 s
old, the predicate is true. -/
theorem shouldIncrementUnavailableNodeCount_iff_witness :
    shouldIncrementUnavailableNodeCount (quietEnv 2 (1000 * Second))
      (examplePolicy 0 (some (970 * Second))) successConditions = true :=
  ((shouldIncrementUnavailableNodeCount_iff (quietEnv 2 (1000 * Second))
      (examplePolicy 0 (some (970 * Second))) successConditions).2
    (by decide) (by decide)).2
    ⟨by decide, Or.inr ⟨970 * Second, rfl, by decide⟩⟩

/-! ## The events of each part of Reconcile -/

theorem not_mem_of_class {l : List Event} {f : Event → Bool} (h : ∀ e ∈ l, f e = true)
    (x : Event) (hx : f x = false) : x ∉ l := by
  intro hmem
  rw [h x hmem] at hx
  cases hx

theorem incrementUnavailableNodeCount_trace (env : Env) (s : Store) :
    ∀ e ∈ (incrementUnavailableNodeCount env s).2.2, e.gateCall = true := by
  intro e he
  unfold incrementUnavailableNodeCount at he
  split at he
  · simp at he; subst he; rfl
  · simp only at he
    split at he <;> simp at he <;> rcases he with rfl | rfl <;> rfl

theorem decrementAttempt_trace (env : Env) (i : Nat) (s : Store) :
    ∀ e ∈ (decrementAttempt env i s).2.2, e.gateCall = true := by
  intro e he
  unfold decrementAttempt at he
  split at he
  · simp at he; subst he; rfl
  · simp only at he
    split at he <;> simp at he <;> rcases he with rfl | rfl <;> rfl

theorem RetryOnConflict_trace (env : Env) (steps : Nat) :
    ∀ (i : Nat) (s : Store), ∀ e ∈ (RetryOnConflict env steps i s).2.2, e.gateCall = true := by
  induction steps with
  | zero =>
    intro i s e he
    simp [RetryOnConflict] at he
  | succ n ih =>
    intro i s e he
    have hatt := decrementAttempt_trace env i s
    unfold RetryOnConflict at he
    rcases hd : decrementAttempt env i s with ⟨r, s1, t⟩
    rw [hd] at he hatt
    cases r with
    | none => exact hatt e he
    | some err =>
      simp only at he
      split at he
      · split at he
        · exact hatt e he
        · simp only [List.mem_append] at he
          rcases he with he | he
          · exact hatt e he
          · exact ih _ _ e he
      · exact hatt e he

theorem decrementUnavailableNodeCount_trace (env : Env) (s : Store) :
    ∀ e ∈ (decrementUnavailableNodeCount env s).2, e.gateCall = true :=
  RetryOnConflict_trace env DefaultRetrySteps 0 s

theorem forceNNSRefresh_trace (env : Env) (s : Store) :
    ∀ e ∈ (forceNNSRefresh env s).2, e.applying = true := by
  intro e he
  unfold forceNNSRefresh at he
  split at he
  · simp at he
  · split at he
    · simp at he
    · split at he <;> simp at he <;> subst he <;> rfl

theorem reconcileApply_trace (env : Env) (en : Enactment) (s : Store) :
    ∀ e ∈ (reconcileApply env en s).trace, e.applying = true := by
  intro e he
  unfold reconcileApply at he
  simp only at he
  split at he
  · simp at he
    rcases he with rfl | rfl | rfl <;> rfl
  · simp only [List.mem_append, List.mem_cons, List.mem_singleton, List.not_mem_nil,
      or_false] at he
    rcases he with (rfl | rfl | rfl) | he
    · rfl
    · rfl
    · rfl
    · exact forceNNSRefresh_trace env _ e he

theorem initializeEnactment_trace (env : Env) (p : Policy) (s : Store) :
    ∀ e ∈ (initializeEnactment env p s).2.2, e.early = true := by
  intro e he
  unfold initializeEnactment at he
  split at he
  · simp at he
  · simp only at he
    split at he
    · split at he
      · simp at he
      · split at he
        · simp at he
        · split at he
          · simp at he; subst he; rfl
          · split at he
            · simp at he; subst he; rfl
            · split at he
              · simp at he; subst he; rfl
              · simp at he; rcases he with rfl | rfl <;> rfl
    · split at he
      · simp at he; subst he; rfl
      · split at he
        · simp at he; subst he; rfl
        · simp at he; rcases he with rfl | rfl <;> rfl

theorem deferDecrement_trace (env : Env) (body : Outcome) :
    (deferDecrement env body).trace =
      body.trace ++ Event.DecrementUnavailableNodeCount ::
        (decrementUnavailableNodeCount env body.store).2 := rfl

theorem reconcileAdmit_trace (env : Env) (inst : Policy) (prev : ConditionList)
    (en : Enactment) (s : Store) :
    ∀ e ∈ (reconcileAdmit env inst prev en s).trace, e.admission = true := by
  intro e he
  have hbody : ∀ s1, ∀ e ∈ (deferDecrement env (reconcileApply env en s1)).trace,
      e.admission = true := by
    intro s1 e he
    rw [deferDecrement_trace] at he
    simp only [List.mem_append, List.mem_cons] at he
    rcases he with he | rfl | he
    · have := reconcileApply_trace env en s1 e he
      cases e <;> simp_all [Event.admission, Event.applying, Event.gateCall]
    · rfl
    · have := decrementUnavailableNodeCount_trace env _ e he
      cases e <;> simp_all [Event.admission, Event.applying, Event.gateCall]
  have hinc := incrementUnavailableNodeCount_trace env (env.beforeIncGet s)
  unfold reconcileAdmit at he
  split at he
  · rcases hi : incrementUnavailableNodeCount env (env.beforeIncGet s) with ⟨r, s1, t⟩
    rw [hi] at he hinc
    have hgate : ∀ e ∈ t, e.admission = true := by
      intro e he
      have := hinc e he
      cases e <;> simp_all [Event.admission, Event.applying, Event.gateCall]
    cases r with
    | some err =>
      simp only at he
      split at he
      · simp only [List.mem_cons] at he
        rcases he with rfl | he
        · rfl
        · exact hgate e he
      · simp only [List.mem_cons] at he
        rcases he with rfl | he
        · rfl
        · exact hgate e he
    | none =>
      simp only [List.mem_cons, List.mem_append] at he
      rcases he with (rfl | he) | he
      · rfl
      · exact hgate e he
      · exact hbody s1 e he
  · exact hbody s e he

/-- Every run of `Reconcile` either returns before the admission step, having
produced early events only, or is the run of lines 183-210 between early events
and the deferred `policyconditions.Update`. -/
theorem Reconcile_cases (env : Env) (s : Store) :
    (∀ e ∈ (Reconcile env s).trace, e.early = true) ∨
    ∃ inst prev en s1 pre, (∀ e ∈ pre, e.early = true) ∧
      clientGetPolicy env.faultGetPolicy s = Except.ok inst ∧
      Reconcile env s =
        { reconcileAdmit env inst prev en s1 with
          trace := pre ++ (reconcileAdmit env inst prev en s1).trace ++
            [Event.PolicyconditionsUpdate] } := by
  unfold Reconcile
  cases hget : clientGetPolicy env.faultGetPolicy s with
  | error err =>
    left
    intro e he
    simp only at he
    split at he <;> simp at he <;> subst he <;> rfl
  | ok inst =>
    simp only
    have hinit := initializeEnactment_trace env inst s
    rcases hi : initializeEnactment env inst s with ⟨r, s1, t⟩
    rw [hi] at hinit
    cases r with
    | error err =>
      left
      intro e he
      simp only [List.mem_cons] at he
      rcases he with rfl | rfl | he
      · rfl
      · rfl
      · exact hinit e he
    | ok prev =>
      simp only
      unfold reconcileSelected
      simp only
      have hinit1 : t.all Event.early = true := List.all_eq_true.mpr hinit
      have ht0 : (match (UnmatchedNodeLabels env inst s1).2 with
          | some err => [Event.NotifyNodeSelectorFailure err]
          | none => []).all Event.early = true := by
        split <;> rfl
      generalize (match (UnmatchedNodeLabels env inst s1).2 with
          | some err => [Event.NotifyNodeSelectorFailure err]
          | none => []) = t0 at ht0 ⊢
      split
      · left
        apply List.all_eq_true.mp
        simp [hinit1, ht0, Event.early]
      · split
        · left
          apply List.all_eq_true.mp
          simp [hinit1, ht0, Event.early]
        · rename_i en _
          split
          · left
            apply List.all_eq_true.mp
            simp [hinit1, ht0, Event.early]
          · split
            · left
              apply List.all_eq_true.mp
              simp [hinit1, ht0, Event.early]
            · right
              refine ⟨inst, prev, en, s1,
                Event.ClientGetPolicy :: Event.PolicyconditionsReset :: t ++ t0 ++
                  [Event.NotifyMatching], ?_, rfl, ?_⟩
              · apply List.all_eq_true.mp
                simp [hinit1, ht0, Event.early]
              · simp

/-! ## Admission inside Reconcile -/

theorem reconcileAdmit_of_increment_error (env : Env) (inst : Policy) (prev : ConditionList)
    (en : Enactment) (s : Store) (err : Err)
    (hmem : Event.IncrementUnavailableNodeCount (some err) ∈
      (reconcileAdmit env inst prev en s).trace) :
    ∃ s2 t, (∀ e ∈ t, e.gateCall = true) ∧
      shouldIncrementUnavailableNodeCount env inst prev = true ∧
      incrementUnavailableNodeCount env (env.beforeIncGet s) = (some err, s2, t) ∧
      reconcileAdmit env inst prev en s =
        { result := if IsConflict err then { RequeueAfter := nodeRunningUpdateRetryTime } else {},
          err := if IsConflict err then none else some err,
          store := s2,
          trace := Event.IncrementUnavailableNodeCount (some err) :: t } := by
  have hbody : ∀ s1, Event.IncrementUnavailableNodeCount (some err) ∉
      (deferDecrement env (reconcileApply env en s1)).trace := by
    intro s1 h
    rw [deferDecrement_trace] at h
    simp only [List.mem_append, List.mem_cons] at h
    rcases h with h | h | h
    · exact not_mem_of_class (reconcileApply_trace env en s1) (Event.IncrementUnavailableNodeCount (some err)) rfl h
    · cases h
    · exact not_mem_of_class (decrementUnavailableNodeCount_trace env _) (Event.IncrementUnavailableNodeCount (some err)) rfl h
  have hinc := incrementUnavailableNodeCount_trace env (env.beforeIncGet s)
  unfold reconcileAdmit at hmem ⊢
  split at hmem
  · rename_i hshould
    rw [if_pos hshould]
    rcases hi : incrementUnavailableNodeCount env (env.beforeIncGet s) with ⟨r, s2, t⟩
    rw [hi] at hmem hinc
    cases r with
    | some err1 =>
      simp only at hmem ⊢
      have herr : err = err1 := by
        split at hmem
        · simp only [List.mem_cons] at hmem
          rcases hmem with h | h
          · injection h with h1; injection h1
          · exact absurd h (not_mem_of_class hinc (Event.IncrementUnavailableNodeCount (some err)) rfl)
        · simp only [List.mem_cons] at hmem
          rcases hmem with h | h
          · injection h with h1; injection h1
          · exact absurd h (not_mem_of_class hinc (Event.IncrementUnavailableNodeCount (some err)) rfl)
      subst herr
      refine ⟨s2, t, hinc, hshould, rfl, ?_⟩
      split <;> rfl
    | none =>
      simp only [List.mem_cons, List.mem_append] at hmem
      rcases hmem with (h | h) | h
      · cases h
      · exact absurd h (not_mem_of_class hinc (Event.IncrementUnavailableNodeCount (some err)) rfl)
      · exact absurd h (hbody s2)
  · exact absurd hmem (hbody s)

theorem reconcileAdmit_of_increment_ok (env : Env) (inst : Policy) (prev : ConditionList)
    (en : Enactment) (s : Store)
    (hmem : Event.IncrementUnavailableNodeCount none ∈
      (reconcileAdmit env inst prev en s).trace) :
    ∃ s2 t, (∀ e ∈ t, e.gateCall = true) ∧
      shouldIncrementUnavailableNodeCount env inst prev = true ∧
      incrementUnavailableNodeCount env (env.beforeIncGet s) = (none, s2, t) ∧
      (reconcileAdmit env inst prev en s).trace =
        Event.IncrementUnavailableNodeCount none :: t ++
          ((reconcileApply env en s2).trace ++ Event.DecrementUnavailableNodeCount ::
            (decrementUnavailableNodeCount env (reconcileApply env en s2).store).2) := by
  have hbody : ∀ s1, Event.IncrementUnavailableNodeCount none ∉
      (deferDecrement env (reconcileApply env en s1)).trace := by
    intro s1 h
    rw [deferDecrement_trace] at h
    simp only [List.mem_append, List.mem_cons] at h
    rcases h with h | h | h
    · exact not_mem_of_class (reconcileApply_trace env en s1) (Event.IncrementUnavailableNodeCount none) rfl h
    · cases h
    · exact not_mem_of_class (decrementUnavailableNodeCount_trace env _) (Event.IncrementUnavailableNodeCount none) rfl h
  have hinc := incrementUnavailableNodeCount_trace env (env.beforeIncGet s)
  unfold reconcileAdmit at hmem ⊢
  split at hmem
  · rename_i hshould
    rw [if_pos hshould]
    rcases hi : incrementUnavailableNodeCount env (env.beforeIncGet s) with ⟨r, s2, t⟩
    rw [hi] at hmem hinc
    cases r with
    | some err1 =>
      simp only at hmem
      split at hmem
      · simp only [List.mem_cons] at hmem
        rcases hmem with h | h
        · cases h
        · exact absurd h (not_mem_of_class hinc (Event.IncrementUnavailableNodeCount none) rfl)
      · simp only [List.mem_cons] at hmem
        rcases hmem with h | h
        · cases h
        · exact absurd h (not_mem_of_class hinc (Event.IncrementUnavailableNodeCount none) rfl)
    | none =>
      exact ⟨s2, t, hinc, hshould, rfl, rfl⟩
  · exact absurd hmem (hbody s)

theorem reconcileApply_outcome (env : Env) (en : Enactment) (s : Store) :
    Event.ApplyDesiredState en.desiredState ∈ (reconcileApply env en s).trace ∧
    (Event.NotifySuccess ∈ (reconcileApply env en s).trace ∨
      ∃ e, Event.NotifyFailedToConfigure e ∈ (reconcileApply env en s).trace) := by
  unfold reconcileApply
  simp only
  split
  · exact ⟨by simp, Or.inr ⟨_, List.mem_cons_of_mem _ (List.mem_cons_of_mem _
      (List.mem_singleton.mpr rfl))⟩⟩
  · exact ⟨by simp, Or.inl (by simp)⟩

/-- C5: in every Reconcile run in which `incrementUnavailableNodeCount` returned no
error, `decrementUnavailableNodeCount` is invoked exactly once, after the engine was
invoked and its outcome notified (Success or FailedToConfigure alike). -/
theorem decrement_invoked_once_after_increment (env : Env) (s : Store)
    (hinc : Event.IncrementUnavailableNodeCount none ∈ (Reconcile env s).trace) :
    (Reconcile env s).trace.count Event.DecrementUnavailableNodeCount = 1 ∧
    ∃ t1 t2 d, (Reconcile env s).trace = t1 ++ Event.DecrementUnavailableNodeCount :: t2 ∧
      Event.ApplyDesiredState d ∈ t1 ∧
      (Event.NotifySuccess ∈ t1 ∨ ∃ e, Event.NotifyFailedToConfigure e ∈ t1) := by
  rcases Reconcile_cases env s with hearly | ⟨inst, prev, en, s1, pre, hpre, _, hrec⟩
  · exact absurd hinc (not_mem_of_class hearly (Event.IncrementUnavailableNodeCount none) rfl)
  · rw [hrec] at hinc ⊢
    simp only [List.mem_append, List.mem_singleton] at hinc
    have hadm : Event.IncrementUnavailableNodeCount none ∈
        (reconcileAdmit env inst prev en s1).trace := by
      rcases hinc with (h | h) | h
      · exact absurd h (not_mem_of_class hpre (Event.IncrementUnavailableNodeCount none) rfl)
      · exact h
      · cases h
    obtain ⟨s2, t, ht, _, _, htrace⟩ := reconcileAdmit_of_increment_ok env inst prev en s1 hadm
    simp only [htrace]
    have h1 : List.count Event.DecrementUnavailableNodeCount pre = 0 :=
      List.count_eq_zero_of_not_mem
        (not_mem_of_class hpre Event.DecrementUnavailableNodeCount rfl)
    have h2 : List.count Event.DecrementUnavailableNodeCount t = 0 :=
      List.count_eq_zero_of_not_mem
        (not_mem_of_class ht Event.DecrementUnavailableNodeCount rfl)
    have h3 : List.count Event.DecrementUnavailableNodeCount (reconcileApply env en s2).trace = 0 :=
      List.count_eq_zero_of_not_mem
        (not_mem_of_class (reconcileApply_trace env en s2) Event.DecrementUnavailableNodeCount rfl)
    have h4 : List.count Event.DecrementUnavailableNodeCount
        (decrementUnavailableNodeCount env (reconcileApply env en s2).store).2 = 0 :=
      List.count_eq_zero_of_not_mem
        (not_mem_of_class (decrementUnavailableNodeCount_trace env _)
          Event.DecrementUnavailableNodeCount rfl)
    constructor
    · simp [List.count_append, List.count_cons, h1, h2, h3, h4]
    · obtain ⟨happ, hout⟩ := reconcileApply_outcome env en s2
      refine ⟨pre ++ (Event.IncrementUnavailableNodeCount none :: t ++
          (reconcileApply env en s2).trace),
        (decrementUnavailableNodeCount env (reconcileApply env en s2).store).2 ++
          [Event.PolicyconditionsUpdate], en.desiredState, by simp, ?_, ?_⟩
      · simp only [List.mem_append]
        exact Or.inr (Or.inr happ)
      · rcases hout with h | ⟨e, h⟩
        · left
          simp only [List.mem_append]
          exact Or.inr (Or.inr h)
        · right
          refine ⟨e, ?_⟩
          simp only [List.mem_append]
          exact Or.inr (Or.inr h)

/-- An admitted run whose engine succeeds and an admitted run whose engine fails:
each invokes the decrement exactly once. -/
theorem decrement_invoked_once_after_increment_witness :
    (Reconcile (quietEnv 2 1000) (exampleStore 0 none [])).trace.count
      Event.DecrementUnavailableNodeCount = 1 ∧
    (Reconcile (failingEngineEnv 2 1000) (exampleStore 0 none [])).trace.count
      Event.DecrementUnavailableNodeCount = 1 :=
  ⟨(decrement_invoked_once_after_increment (quietEnv 2 1000) (exampleStore 0 none [])
      (by decide)).1,
   (decrement_invoked_once_after_increment (failingEngineEnv 2 1000) (exampleStore 0 none [])
      (by decide)).1⟩

/-- C9: in every Reconcile run in which `incrementUnavailableNodeCount` returns an
error, a Conflict makes Reconcile return a nil error with `RequeueAfter` of exactly
5 seconds, any other error is returned as the Reconcile error with an empty result;
either way the engine is not invoked, Progressing is not notified and
`decrementUnavailableNodeCount` is not invoked. -/
theorem increment_conflict_requeues (env : Env) (s : Store) (err : Err)
    (hinc : Event.IncrementUnavailableNodeCount (some err) ∈ (Reconcile env s).trace) :
    (IsConflict err = true →
      (Reconcile env s).err = none ∧
      (Reconcile env s).result = { Requeue := false, RequeueAfter := 5 * 1000000000 }) ∧
    (IsConflict err = false →
      (Reconcile env s).err = some err ∧
      (Reconcile env s).result = { Requeue := false, RequeueAfter := 0 }) ∧
    (∀ d, Event.ApplyDesiredState d ∉ (Reconcile env s).trace) ∧
    Event.NotifyProgressing ∉ (Reconcile env s).trace ∧
    Event.DecrementUnavailableNodeCount ∉ (Reconcile env s).trace := by
  rcases Reconcile_cases env s with hearly | ⟨inst, prev, en, s1, pre, hpre, _, hrec⟩
  · exact absurd hinc
      (not_mem_of_class hearly (Event.IncrementUnavailableNodeCount (some err)) rfl)
  · rw [hrec] at hinc ⊢
    simp only [List.mem_append, List.mem_singleton] at hinc
    have hadm : Event.IncrementUnavailableNodeCount (some err) ∈
        (reconcileAdmit env inst prev en s1).trace := by
      rcases hinc with (h | h) | h
      · exact absurd h
          (not_mem_of_class hpre (Event.IncrementUnavailableNodeCount (some err)) rfl)
      · exact h
      · cases h
    obtain ⟨s2, t, ht, _, _, hwhole⟩ :=
      reconcileAdmit_of_increment_error env inst prev en s1 err hadm
    rw [hwhole]
    have hno : ∀ x : Event, x.early = false → x.gateCall = false →
        x ≠ Event.IncrementUnavailableNodeCount (some err) →
        x ≠ Event.PolicyconditionsUpdate →
        x ∉ pre ++ (Event.IncrementUnavailableNodeCount (some err) :: t) ++
          [Event.PolicyconditionsUpdate] := by
      intro x h1 h2 h3 h4 hmem
      simp only [List.mem_append, List.mem_cons, List.mem_singleton, List.not_mem_nil,
        or_false] at hmem
      rcases hmem with (h | h | h) | h
      · exact not_mem_of_class hpre x h1 h
      · exact h3 h
      · exact not_mem_of_class ht x h2 h
      · exact h4 h
    refine ⟨?_, ?_, ?_, ?_, ?_⟩
    · intro hc
      simp [hc, nodeRunningUpdateRetryTime, Second]
    · intro hc
      simp [hc]
    · intro d
      exact hno _ rfl rfl (by simp) (by simp)
    · exact hno _ rfl rfl (by simp) (by simp)
    · exact hno _ rfl rfl (by simp) (by simp)

/-- A saturated run (count 1 under a budget of 1) returns nil with a requeue after
5 s; a run whose status write fails with a plain error returns that error. -/
theorem increment_conflict_requeues_witness :
    ((Reconcile (quietEnv 1 1000) (exampleStore 1 none [])).err = none ∧
      (Reconcile (quietEnv 1 1000) (exampleStore 1 none [])).result =
        { Requeue := false, RequeueAfter := 5 * 1000000000 }) ∧
    ((Reconcile (brokenUpdateEnv 1 1000) (exampleStore 0 none [])).err =
        some (Errorf "connection refused") ∧
      (Reconcile (brokenUpdateEnv 1 1000) (exampleStore 0 none [])).result =
        { Requeue := false, RequeueAfter := 0 }) :=
  ⟨(increment_conflict_requeues (quietEnv 1 1000) (exampleStore 1 none [])
      (NewConflict "nodenetworkconfigurationpolicies" "policy1"
        ("maximal number of " ++ toString (1 : Int) ++
          " nodes are already processing policy configuration"))
      (by decide)).1 rfl,
   (increment_conflict_requeues (brokenUpdateEnv 1 1000) (exampleStore 0 none [])
      (Errorf "connection refused") (by decide)).2.1 rfl⟩

/-! ## Saturation and the Pending condition -/

theorem Reconcile_never_notifies_pending (env : Env) (s : Store) :
    Event.NotifyPending ∉ (Reconcile env s).trace := by
  rcases Reconcile_cases env s with hearly | ⟨inst, prev, en, s1, pre, hpre, _, hrec⟩
  · exact not_mem_of_class hearly Event.NotifyPending rfl
  · rw [hrec]
    intro hmem
    simp only [List.mem_append, List.mem_singleton] at hmem
    rcases hmem with (h | h) | h
    · exact not_mem_of_class hpre Event.NotifyPending rfl h
    · exact not_mem_of_class (reconcileAdmit_trace env inst prev en s1) Event.NotifyPending rfl h
    · cases h

/-- C8: a Reconcile run on a saturated policy (count 1, budget 1): the increment
answers Conflict and Reconcile returns the 5 s requeue, and the only condition
notified on the enactment is Matching: Pending is not notified. -/
theorem saturated_run_leaves_pending_unnotified :
    (Reconcile (quietEnv 1 1000) (exampleStore 1 none [])).trace =
      [Event.ClientGetPolicy, Event.PolicyconditionsReset, Event.EnactmentconditionsReset,
        Event.EnactmentstatusUpdate "interfaces: []" 1, Event.NotifyMatching,
        Event.IncrementUnavailableNodeCount
          (some (NewConflict "nodenetworkconfigurationpolicies" "policy1"
            "maximal number of 1 nodes are already processing policy configuration")),
        Event.ClientGetPolicy, Event.PolicyconditionsUpdate] ∧
    (Reconcile (quietEnv 1 1000) (exampleStore 1 none [])).result =
      { Requeue := false, RequeueAfter := 5 * Second } ∧
    (Reconcile (quietEnv 1 1000) (exampleStore 1 none [])).err = none ∧
    Event.NotifyPending ∉ (Reconcile (quietEnv 1 1000) (exampleStore 1 none [])).trace := by
  refine ⟨rfl, rfl, rfl, ?_⟩
  exact Reconcile_never_notifies_pending _ _

/-! ## A lost race on the status write -/

/-- C10, as stated, fails: Handler `node01` reads count 0 at resource version 7 under
a budget of 3, another Handler's write lands (count 1, version 8), and the call
returns the store's Conflict after its one `Get` and its one rejected `Update`,
although the fresh count 1 is below the budget: an increment started on the store
as the race left it is admitted. -/
theorem increment_lost_race_returns_conflict :
    incrementUnavailableNodeCount (racingEnv 3 1000) (exampleStore 0 none []) =
      (some (NewConflict "nodenetworkconfigurationpolicies" "policy1"
          "the object has been modified; please apply your changes to the latest version and try again"),
        otherHandlerWrites (exampleStore 0 none []),
        [Event.ClientGetPolicy,
          Event.ClientStatusUpdatePolicy
            { unavailableNodeCount := 1, lastUnavailableNodeCountUpdate := some 1000 } 7 false]) ∧
    (otherHandlerWrites (exampleStore 0 none [])).policy =
      some { examplePolicy 1 none with resourceVersion := 8 } ∧
    (incrementUnavailableNodeCount (quietEnv 3 1000)
      (otherHandlerWrites (exampleStore 0 none []))).1 = none ∧
    (Reconcile (racingEnv 3 1000) (exampleStore 0 none [])).trace.count Event.ClientGetPolicy = 2 ∧
    (Reconcile (racingEnv 3 1000) (exampleStore 0 none [])).result =
      { Requeue := false, RequeueAfter := 5 * Second } := by
  refine ⟨rfl, rfl, rfl, rfl, rfl⟩

/-- C10, amended: when the store rejects the status write of
`incrementUnavailableNodeCount` because the stored resource version is no longer the one
read, the call returns the store's Conflict after that single read and single write
attempt and leaves the store as the other writer left it; the admission step of
Reconcile turns that Conflict, like saturation, into a nil error with a requeue after
5 seconds, so the re-read happens in the next Reconcile run. -/
theorem increment_stale_write_returns_conflict (env : Env) (s : Store) (p stored : Policy)
    (m : Int) (hget : env.faultIncGet = none) (hp : s.policy = some p)
    (hmax : env.MaxUnavailableNodeCount p = Except.ok m)
    (hlt : p.status.unavailableNodeCount < m)
    (hfault : env.faultIncUpdate = none)
    (hstored : (env.beforeIncUpdate s).policy = some stored)
    (hrv : stored.resourceVersion ≠ p.resourceVersion) :
    incrementUnavailableNodeCount env s =
      (some (NewConflict "nodenetworkconfigurationpolicies" p.name
          "the object has been modified; please apply your changes to the latest version and try again"),
        env.beforeIncUpdate s,
        [Event.ClientGetPolicy,
          Event.ClientStatusUpdatePolicy
            { unavailableNodeCount := wrapInt (p.status.unavailableNodeCount + 1),
              lastUnavailableNodeCountUpdate := some env.nowInc } p.resourceVersion false]) ∧
    (∀ inst prev en s0, env.beforeIncGet s0 = s →
      shouldIncrementUnavailableNodeCount env inst prev = true →
      (reconcileAdmit env inst prev en s0).err = none ∧
      (reconcileAdmit env inst prev en s0).result =
        { Requeue := false, RequeueAfter := 5 * 1000000000 } ∧
      (reconcileAdmit env inst prev en s0).store = env.beforeIncUpdate s ∧
      (reconcileAdmit env inst prev en s0).trace.count Event.ClientGetPolicy = 1) := by
  have h := incrementPrepare_admitted env s p m hget hp hmax hlt
  have hu := clientStatusUpdatePolicy_stale (env.beforeIncUpdate s) stored
    { p with status :=
      { lastUnavailableNodeCountUpdate := some env.nowInc,
        unavailableNodeCount := wrapInt (p.status.unavailableNodeCount + 1) } } hstored hrv
  have hrun : incrementUnavailableNodeCount env s =
      (some (NewConflict "nodenetworkconfigurationpolicies" p.name
          "the object has been modified; please apply your changes to the latest version and try again"),
        env.beforeIncUpdate s,
        [Event.ClientGetPolicy,
          Event.ClientStatusUpdatePolicy
            { unavailableNodeCount := wrapInt (p.status.unavailableNodeCount + 1),
              lastUnavailableNodeCountUpdate := some env.nowInc } p.resourceVersion false]) := by
    simp only [incrementUnavailableNodeCount, h, hfault, hu]
  refine ⟨hrun, ?_⟩
  intro inst prev en s0 hs0 hshould
  unfold reconcileAdmit
  rw [if_pos hshould, hs0, hrun]
  simp [IsConflict, NewConflict, nodeRunningUpdateRetryTime, Second]

/-- The racing run of the counterexample: the call returns the Conflict and the
admission step requeues after 5 s. -/
theorem increment_stale_write_returns_conflict_witness :
    (incrementUnavailableNodeCount (racingEnv 3 1000) (exampleStore 0 none [])).1 =
      some (NewConflict "nodenetworkconfigurationpolicies" "policy1"
        "the object has been modified; please apply your changes to the latest version and try again") ∧
    (reconcileAdmit (racingEnv 3 1000) (examplePolicy 0 none) []
        ⟨"node01.policy1", "interfaces: []", 1, []⟩ (exampleStore 0 none [])).result =
      { Requeue := false, RequeueAfter := 5 * 1000000000 } := by
  have h := increment_stale_write_returns_conflict (racingEnv 3 1000) (exampleStore 0 none [])
    (examplePolicy 0 none) { examplePolicy 1 none with resourceVersion := 8 } 3
    rfl rfl rfl (by decide) rfl rfl (by decide)
  refine ⟨?_, ?_⟩
  · rw [h.1]
    rfl
  · exact (h.2 (examplePolicy 0 none) [] ⟨"node01.policy1", "interfaces: []", 1, []⟩
      (exampleStore 0 none []) rfl (by decide)).2.1

/-! ## Reconciling the same policy a second time -/

theorem forceNNSRefresh_policy (env : Env) (s : Store) :
    (forceNNSRefresh env s).1.policy = s.policy := by
  unfold forceNNSRefresh
  split
  · rfl
  · split
    · rfl
    · split <;> rfl

theorem reconcileApply_policy (env : Env) (en : Enactment) (s : Store) :
    (reconcileApply env en s).store.policy = (env.duringApply s).policy := by
  unfold reconcileApply
  simp only
  split
  · rfl
  · exact forceNNSRefresh_policy env _

theorem decrementUnavailableNodeCount_first_attempt (env : Env) (s s1 : Store) (inst : Policy)
    (hprep : decrementPrepare env 0 s = Except.ok inst)
    (hupd : clientStatusUpdatePolicy (env.faultDecUpdate 0) (env.beforeDecUpdate 0 s) inst =
      Except.ok s1) :
    decrementUnavailableNodeCount env s =
      (s1, [Event.ClientGetPolicy,
        Event.ClientStatusUpdatePolicy inst.status inst.resourceVersion true]) := by
  have hatt : decrementAttempt env 0 s =
      (none, s1, [Event.ClientGetPolicy,
        Event.ClientStatusUpdatePolicy inst.status inst.resourceVersion true]) := by
    simp only [decrementAttempt, hprep, hupd]
  simp only [decrementUnavailableNodeCount, DefaultRetrySteps, RetryOnConflict, hatt]

/-- C7, as stated, fails: at a second reconcile of `policy1` on `node01`, the
enactment holding the conditions of a successful first apply (Progressing False) and
the count stamped 30 s ago inside a window of 720 s, the predicate is true and the
count is incremented again (written as 1 at resource version 7). -/
theorem second_reconcile_increments_again :
    IsProgressing successConditions = false ∧
    Since (1000 * Second) (970 * Second) < 240 * Second + 480 * Second ∧
    shouldIncrementUnavailableNodeCount (quietEnv 2 (1000 * Second))
      (examplePolicy 0 (some (970 * Second))) successConditions = true ∧
    Event.IncrementUnavailableNodeCount none ∈
      (Reconcile (quietEnv 2 (1000 * Second))
        (exampleStore 0 (some (970 * Second)) successConditions)).trace ∧
    Event.ClientStatusUpdatePolicy
        { unavailableNodeCount := 1, lastUnavailableNodeCountUpdate := some (1000 * Second) }
        7 true ∈
      (Reconcile (quietEnv 2 (1000 * Second))
        (exampleStore 0 (some (970 * Second)) successConditions)).trace := by
  refine ⟨by decide, by decide, by decide, by decide, by decide⟩

/-- C7, amended: at a second reconcile whose previous conditions are not Progressing
and whose `lastUnavailableNodeCountUpdate` lies inside the timeout window, the
increment-eligibility predicate is true; with no concurrent Handler, store calls that
succeed and a count `c` with `0 <= c < maxUnavailable`, the admission step increments
the count again (writes `c + 1`) and the deferred decrement writes it back, so the
reconcile leaves the count at `c`, as the first one did. -/
theorem second_reconcile_count_restored (env : Env) (inst : Policy) (prev : ConditionList)
    (en : Enactment) (s : Store) (p : Policy) (m : Int) (t : Time)
    (hprog : IsProgressing prev = false)
    (hlast : inst.status.lastUnavailableNodeCountUpdate = some t)
    (hrecent : Since env.nowSince t <
      env.DesiredStateConfigurationTimeout + env.ProbesTotalTimeout)
    (hq1 : env.beforeIncGet = id) (hq2 : env.beforeIncUpdate = id)
    (hq3 : env.duringApply = id) (hq4 : env.beforeDecUpdate 0 = id)
    (hf1 : env.faultIncGet = none) (hf2 : env.faultIncUpdate = none)
    (hf3 : env.faultDecGet 0 = none) (hf4 : env.faultDecUpdate 0 = none)
    (hp : s.policy = some p) (hmax : ∀ q, env.MaxUnavailableNodeCount q = Except.ok m)
    (hm : m ≤ maxInt) (h0 : 0 ≤ p.status.unavailableNodeCount)
    (hlt : p.status.unavailableNodeCount < m) :
    shouldIncrementUnavailableNodeCount env inst prev = true ∧
    Event.IncrementUnavailableNodeCount none ∈ (reconcileAdmit env inst prev en s).trace ∧
    Event.ClientStatusUpdatePolicy
        { unavailableNodeCount := p.status.unavailableNodeCount + 1,
          lastUnavailableNodeCountUpdate := some env.nowInc } p.resourceVersion true ∈
      (reconcileAdmit env inst prev en s).trace ∧
    (reconcileAdmit env inst prev en s).store.policy = some { p with
      status := { unavailableNodeCount := p.status.unavailableNodeCount,
                  lastUnavailableNodeCountUpdate := some (env.nowDec 0) },
      resourceVersion := p.resourceVersion + 1 + 1 } := by
  have hshould : shouldIncrementUnavailableNodeCount env inst prev = true :=
    (shouldIncrementUnavailableNodeCount_eq_true env inst prev).2
      ⟨hprog, Or.inr ⟨t, hlast, hrecent⟩⟩
  have hstored : (env.beforeIncUpdate s).policy = some p := by rw [hq2]; exact hp
  have hacc := incrementUnavailableNodeCount_accepted env s p p m hf1 hp (hmax p)
    (by unfold minInt; omega) hm hlt hf2 hstored rfl
  rcases hi : incrementUnavailableNodeCount env s with ⟨r, s2, tr⟩
  rw [hi] at hacc
  have hi1 : r = none := congrArg Prod.fst hacc
  have hi2 : s2.policy = some { p with
      status := { unavailableNodeCount := p.status.unavailableNodeCount + 1,
                  lastUnavailableNodeCountUpdate := some env.nowInc },
      resourceVersion := p.resourceVersion + 1 } := by
    have := congrArg (fun x => x.2.1.policy) hacc
    exact this
  have hi3 : tr = [Event.ClientGetPolicy,
      Event.ClientStatusUpdatePolicy
        { unavailableNodeCount := p.status.unavailableNodeCount + 1,
          lastUnavailableNodeCountUpdate := some env.nowInc } p.resourceVersion true] :=
    congrArg (fun x => x.2.2) hacc
  subst hi1
  have hpol : (reconcileApply env en s2).store.policy = s2.policy := by
    rw [reconcileApply_policy, hq3]; rfl
  have hprep := decrementPrepare_positive env 0 (reconcileApply env en s2).store _ hf3
    (hpol.trans hi2) (by simp only; omega)
  have hw := wrapInt_of_inRange (p.status.unavailableNodeCount + 1 - 1)
    (by unfold minInt; omega) (by omega)
  simp only [hw] at hprep
  have hupd := clientStatusUpdatePolicy_accepted
    (env.beforeDecUpdate 0 (reconcileApply env en s2).store)
    { p with
      status := { unavailableNodeCount := p.status.unavailableNodeCount + 1,
                  lastUnavailableNodeCountUpdate := some env.nowInc },
      resourceVersion := p.resourceVersion + 1 }
    { p with
      status := { lastUnavailableNodeCountUpdate := some (env.nowDec 0),
                  unavailableNodeCount := p.status.unavailableNodeCount + 1 - 1 },
      resourceVersion := p.resourceVersion + 1 }
    (by rw [hq4]; exact hpol.trans hi2) rfl
  rw [← hf4] at hupd
  have hdec0 := decrementUnavailableNodeCount_first_attempt env _ _ _ hprep hupd
  have hdec : (decrementUnavailableNodeCount env (reconcileApply env en s2).store).1.policy =
      some { p with
        status := { unavailableNodeCount := p.status.unavailableNodeCount,
                    lastUnavailableNodeCountUpdate := some (env.nowDec 0) },
        resourceVersion := p.resourceVersion + 1 + 1 } := by
    rw [hdec0]
    simp
  have hwhole : reconcileAdmit env inst prev en s =
      { deferDecrement env (reconcileApply env en s2) with
        trace := Event.IncrementUnavailableNodeCount none :: tr ++
          (deferDecrement env (reconcileApply env en s2)).trace } := by
    unfold reconcileAdmit
    rw [if_pos hshould, hq1]
    simp only [id, hi]
  refine ⟨hshould, ?_, ?_, ?_⟩
  · rw [hwhole]; simp
  · rw [hwhole, hi3]; simp
  · rw [hwhole]
    exact hdec

/-- The second reconcile of the counterexample: predicate true, and the count is 0
again when the admission step and its deferred decrement are done. -/
theorem second_reconcile_count_restored_witness :
    shouldIncrementUnavailableNodeCount (quietEnv 2 (1000 * Second))
      (examplePolicy 0 (some (970 * Second))) successConditions = true ∧
    (reconcileAdmit (quietEnv 2 (1000 * Second)) (examplePolicy 0 (some (970 * Second)))
        successConditions ⟨"node01.policy1", "interfaces: []", 1, []⟩
        (exampleStore 0 (some (970 * Second)) [])).store.policy =
      some { examplePolicy 0 (some (970 * Second)) with
        status := { unavailableNodeCount := 0,
                    lastUnavailableNodeCountUpdate := some (1000 * Second + 30 * Second) },
        resourceVersion := 7 + 1 + 1 } := by
  have h := second_reconcile_count_restored (quietEnv 2 (1000 * Second))
    (examplePolicy 0 (some (970 * Second))) successConditions
    ⟨"node01.policy1", "interfaces: []", 1, []⟩ (exampleStore 0 (some (970 * Second)) [])
    (examplePolicy 0 (some (970 * Second))) 2 (970 * Second)
    (by decide) rfl (by decide) rfl rfl rfl rfl rfl rfl rfl rfl rfl (fun _ => rfl)
    (by decide) (by decide) (by decide)
  exact ⟨h.1, h.2.2.2⟩

/-! ## Enactment initialisation and the steps before admission -/

theorem initializeEnactment_frame (env : Env) (p : Policy) (s : Store) :
    (initializeEnactment env p s).2.1.policy = s.policy ∧
    (initializeEnactment env p s).2.1.nodeLabels = s.nodeLabels ∧
    (initializeEnactment env p s).2.1.nnsLabels = s.nnsLabels := by
  unfold initializeEnactment
  split
  · exact ⟨rfl, rfl, rfl⟩
  · simp only
    split
    · split
      · exact ⟨rfl, rfl, rfl⟩
      · split
        · exact ⟨rfl, rfl, rfl⟩
        · rename_i s1 hc
          have hs1 : s1.policy = s.policy ∧ s1.nodeLabels = s.nodeLabels ∧
              s1.nnsLabels = s.nnsLabels := by
            unfold clientCreateEnactment at hc
            split at hc
            · cases hc
            · split at hc
              · cases hc
              · cases hc
                exact ⟨rfl, rfl, rfl⟩
          split
          · exact hs1
          · split
            · exact hs1
            · split
              · exact hs1
              · exact hs1
    · split
      · exact ⟨rfl, rfl, rfl⟩
      · split
        · exact ⟨rfl, rfl, rfl⟩
        · exact ⟨rfl, rfl, rfl⟩

theorem initializeEnactment_existing (env : Env) (p : Policy) (s : Store) (e : Enactment)
    (he : s.enactment = some e) (hfault : env.faultGetEnactment = none)
    (prev : ConditionList) (s1 : Store) (t : List Event)
    (hinit : initializeEnactment env p s = (Except.ok prev, s1, t)) :
    prev = e.conditions ∧
    (∃ d, s1.enactment = some ⟨e.name, d, p.generation, []⟩) ∧
    Event.ClientCreateEnactment ∉ t := by
  unfold initializeEnactment at hinit
  split at hinit
  · cases hinit
  · rename_i d _
    simp only [clientGetEnactment, hfault, he] at hinit
    split at hinit
    · cases hinit
    · simp only [Option.map_some'] at hinit
      cases hinit
      exact ⟨rfl, ⟨d, rfl⟩, by simp⟩

theorem initializeEnactment_creates (env : Env) (p : Policy) (s : Store) (d : State)
    (he : s.enactment = none) (hvlan : env.ApplyDefaultVlanFiltering p.desiredState = Except.ok d)
    (hf1 : env.faultGetEnactment = none) (hf2 : env.faultCreateEnactment = none)
    (hf3 : env.faultWaitEnactmentCreated = none) (hf4 : env.faultEnactmentstatusUpdate = none) :
    initializeEnactment env p s =
      (Except.ok [],
        { s with enactment := some { NewEnactment env.nodeName p with
            desiredState := d, policyGeneration := p.generation } },
        [Event.ClientCreateEnactment, Event.EnactmentstatusUpdate d p.generation]) := by
  unfold initializeEnactment
  simp [hvlan, clientGetEnactment, clientCreateEnactment, hf1, hf2, hf3, hf4, he, IsNotFound,
    NewNotFound, NewEnactment]

theorem selectorFailureEvents_early (err : Option Err) :
    ∀ e ∈ selectorFailureEvents err, e.early = true := by
  intro e he
  cases err with
  | none => simp [selectorFailureEvents] at he
  | some x =>
    simp [selectorFailureEvents] at he
    subst he
    rfl

theorem Reconcile_eq_selected (env : Env) (s s1 : Store) (inst : Policy)
    (prev : ConditionList) (t : List Event)
    (hget : clientGetPolicy env.faultGetPolicy s = Except.ok inst)
    (hinit : initializeEnactment env inst s = (Except.ok prev, s1, t)) :
    Reconcile env s =
      { reconcileSelected env inst prev s1 with
        trace := Event.ClientGetPolicy :: Event.PolicyconditionsReset :: t ++
          (reconcileSelected env inst prev s1).trace ++ [Event.PolicyconditionsUpdate] } := by
  unfold Reconcile
  simp only [hget, hinit]

theorem reconcileSelected_not_matching (env : Env) (inst : Policy) (prev : ConditionList)
    (s1 : Store) (hsel : (UnmatchedNodeLabels env inst s1).1 ≠ []) :
    reconcileSelected env inst prev s1 =
      { result := {}, err := none, store := s1,
        trace := selectorFailureEvents (UnmatchedNodeLabels env inst s1).2 ++
          [Event.NotifyNodeSelectorNotMatching (UnmatchedNodeLabels env inst s1).1] } := by
  have hlen : (UnmatchedNodeLabels env inst s1).1.length > 0 :=
    List.length_pos.mpr hsel
  unfold reconcileSelected
  simp only [hlen, if_true]
  rfl

theorem reconcileSelected_aborted (env : Env) (inst : Policy) (prev : ConditionList)
    (s1 : Store) (en : Enactment) (n : Int)
    (hsel : (UnmatchedNodeLabels env inst s1).1 = [])
    (hen : enactmentForPolicy env inst s1 = Except.ok en)
    (hcount : env.CountByPolicyFailed = Except.ok n) (hn : n > 0) :
    reconcileSelected env inst prev s1 =
      { result := {}, err := none, store := s1,
        trace := selectorFailureEvents (UnmatchedNodeLabels env inst s1).2 ++
          [Event.NotifyMatching,
            Event.NotifyAborted (Errorf "policy has failing enactments, aborting")] } := by
  unfold reconcileSelected
  simp only [hsel, List.length_nil, gt_iff_lt, lt_self_iff_false, if_false, hen, hcount]
  rw [if_pos hn]
  rfl

theorem reconcileSelected_admitted (env : Env) (inst : Policy) (prev : ConditionList)
    (s1 : Store) (en : Enactment) (n : Int)
    (hsel : (UnmatchedNodeLabels env inst s1).1 = [])
    (hen : enactmentForPolicy env inst s1 = Except.ok en)
    (hcount : env.CountByPolicyFailed = Except.ok n) (hn : ¬ n > 0) :
    reconcileSelected env inst prev s1 =
      { reconcileAdmit env inst prev en s1 with
        trace := selectorFailureEvents (UnmatchedNodeLabels env inst s1).2 ++
          Event.NotifyMatching :: (reconcileAdmit env inst prev en s1).trace } := by
  unfold reconcileSelected
  simp only [hsel, List.length_nil, gt_iff_lt, lt_self_iff_false, if_false, hen, hcount]
  rw [if_neg hn]
  rfl

/-- What `reconcileSelected` can do: return before the admission with the store
untouched and early events only, or run lines 183-210 on the same store. -/
theorem reconcileSelected_cases (env : Env) (inst : Policy) (prev : ConditionList)
    (s1 : Store) :
    ((reconcileSelected env inst prev s1).store = s1 ∧
      ∀ e ∈ (reconcileSelected env inst prev s1).trace, e.early = true) ∨
    ∃ en n, (UnmatchedNodeLabels env inst s1).1 = [] ∧
      enactmentForPolicy env inst s1 = Except.ok en ∧
      env.CountByPolicyFailed = Except.ok n ∧ ¬ n > 0 ∧
      reconcileSelected env inst prev s1 =
        { reconcileAdmit env inst prev en s1 with
          trace := selectorFailureEvents (UnmatchedNodeLabels env inst s1).2 ++
            Event.NotifyMatching :: (reconcileAdmit env inst prev en s1).trace } := by
  have hselE := selectorFailureEvents_early (UnmatchedNodeLabels env inst s1).2
  have hselA : (selectorFailureEvents (UnmatchedNodeLabels env inst s1).2).all Event.early
      = true := List.all_eq_true.mpr hselE
  by_cases hsel : (UnmatchedNodeLabels env inst s1).1 = []
  · cases hen : enactmentForPolicy env inst s1 with
    | error err =>
      left
      have : reconcileSelected env inst prev s1 =
          { result := {}, err := some err, store := s1,
            trace := selectorFailureEvents (UnmatchedNodeLabels env inst s1).2 } := by
        unfold reconcileSelected
        simp only [hsel, List.length_nil, gt_iff_lt, lt_self_iff_false, if_false, hen]
        rfl
      rw [this]
      exact ⟨rfl, hselE⟩
    | ok en =>
      cases hcount : env.CountByPolicyFailed with
      | error err =>
        left
        have : reconcileSelected env inst prev s1 =
            { result := {}, err := some err, store := s1,
              trace := selectorFailureEvents (UnmatchedNodeLabels env inst s1).2 ++
                [Event.NotifyMatching] } := by
          unfold reconcileSelected
          simp only [hsel, List.length_nil, gt_iff_lt, lt_self_iff_false, if_false, hen, hcount]
          rfl
        rw [this]
        refine ⟨rfl, ?_⟩
        apply List.all_eq_true.mp
        simp [hselA, Event.early]
      | ok n =>
        by_cases hn : n > 0
        · left
          rw [reconcileSelected_aborted env inst prev s1 en n hsel hen hcount hn]
          refine ⟨rfl, ?_⟩
          apply List.all_eq_true.mp
          simp [hselA, Event.early]
        · right
          exact ⟨en, n, hsel, rfl, rfl, hn,
            reconcileSelected_admitted env inst prev s1 en n hsel hen hcount hn⟩
  · left
    rw [reconcileSelected_not_matching env inst prev s1 hsel]
    refine ⟨rfl, ?_⟩
    apply List.all_eq_true.mp
    simp [hselA, Event.early]

/-- Every run of `Reconcile` either returns before the admission step, with early
events only and the policy object untouched, or passes the policy read, the
enactment initialisation, the selector, the enactment read and the abort gate and
then runs lines 183-210. -/
theorem Reconcile_paths (env : Env) (s : Store) :
    ((Reconcile env s).store.policy = s.policy ∧
      ∀ e ∈ (Reconcile env s).trace, e.early = true) ∨
    ∃ inst prev s1 t en n,
      clientGetPolicy env.faultGetPolicy s = Except.ok inst ∧
      initializeEnactment env inst s = (Except.ok prev, s1, t) ∧
      (UnmatchedNodeLabels env inst s1).1 = [] ∧
      enactmentForPolicy env inst s1 = Except.ok en ∧
      env.CountByPolicyFailed = Except.ok n ∧ ¬ n > 0 ∧
      Reconcile env s =
        { reconcileAdmit env inst prev en s1 with
          trace := Event.ClientGetPolicy :: Event.PolicyconditionsReset :: t ++
            (selectorFailureEvents (UnmatchedNodeLabels env inst s1).2 ++
              Event.NotifyMatching :: (reconcileAdmit env inst prev en s1).trace) ++
            [Event.PolicyconditionsUpdate] } := by
  cases hget : clientGetPolicy env.faultGetPolicy s with
  | error err =>
    left
    unfold Reconcile
    simp only [hget]
    split
    · refine ⟨rfl, ?_⟩
      intro e he
      simp at he
      subst he
      rfl
    · refine ⟨rfl, ?_⟩
      intro e he
      simp at he
      subst he
      rfl
  | ok inst =>
    have hframe := initializeEnactment_frame env inst s
    have htr := initializeEnactment_trace env inst s
    rcases hinit : initializeEnactment env inst s with ⟨r, s1, t⟩
    rw [hinit] at hframe htr
    have htA : t.all Event.early = true := List.all_eq_true.mpr htr
    cases r with
    | error err =>
      left
      unfold Reconcile
      simp only [hget, hinit]
      refine ⟨hframe.1, ?_⟩
      apply List.all_eq_true.mp
      simp [htA, Event.early]
    | ok prev =>
      rw [Reconcile_eq_selected env s s1 inst prev t hget hinit]
      rcases reconcileSelected_cases env inst prev s1 with ⟨hst, hearly⟩ |
        ⟨en, n, hsel, hen, hcount, hn, heq⟩
      · left
        simp only
        refine ⟨by rw [hst]; exact hframe.1, ?_⟩
        have hA : (reconcileSelected env inst prev s1).trace.all Event.early = true :=
          List.all_eq_true.mpr hearly
        apply List.all_eq_true.mp
        simp [htA, hA, Event.early]
      · right
        refine ⟨inst, prev, s1, t, en, n, rfl, hinit, hsel, hen, hcount, hn, ?_⟩
        rw [heq]

theorem initializeEnactment_trace_initializing (env : Env) (p : Policy) (s : Store) :
    ∀ e ∈ (initializeEnactment env p s).2.2, e.initializing = true := by
  intro e he
  unfold initializeEnactment at he
  split at he
  · simp at he
  · simp only at he
    split at he
    · split at he
      · simp at he
      · split at he
        · simp at he
        · split at he
          · simp at he; subst he; rfl
          · split at he
            · simp at he; subst he; rfl
            · split at he
              · simp at he; subst he; rfl
              · simp at he; rcases he with rfl | rfl <;> rfl
    · split at he
      · simp at he; subst he; rfl
      · split at he
        · simp at he; subst he; rfl
        · simp at he; rcases he with rfl | rfl <;> rfl

/-! ## Policy read errors -/

/-- C20: when the `Get` of the policy fails, Reconcile returns an empty result and does
nothing further: the run consists of that read alone and the store is left as it was;
the returned error is nil when the failure is NotFound and is the failure itself
otherwise. -/
theorem policy_read_error_ends_run (env : Env) (s : Store) (err : Err)
    (hget : clientGetPolicy env.faultGetPolicy s = Except.error err) :
    (IsNotFound err = true →
      Reconcile env s =
        { result := { Requeue := false, RequeueAfter := 0 }, err := none, store := s,
          trace := [Event.ClientGetPolicy] }) ∧
    (IsNotFound err = false →
      Reconcile env s =
        { result := { Requeue := false, RequeueAfter := 0 }, err := some err, store := s,
          trace := [Event.ClientGetPolicy] }) := by
  unfold Reconcile
  simp only [hget]
  constructor
  · intro h
    rw [if_pos h]
  · intro h
    rw [if_neg (by simp [h])]

/-- A deleted policy ends the run with `(Result{}, nil)`; a refused connection ends it
with that error; either way the store is untouched. -/
theorem policy_read_error_ends_run_witness :
    Reconcile (quietEnv 2 1000) deletedPolicyStore =
      { result := { Requeue := false, RequeueAfter := 0 }, err := none,
        store := deletedPolicyStore, trace := [Event.ClientGetPolicy] } ∧
    Reconcile (brokenGetEnv 2 1000) (exampleStore 0 none []) =
      { result := { Requeue := false, RequeueAfter := 0 },
        err := some (Errorf "connection refused"),
        store := exampleStore 0 none [], trace := [Event.ClientGetPolicy] } :=
  ⟨(policy_read_error_ends_run (quietEnv 2 1000) deletedPolicyStore
      (NewNotFound "nodenetworkconfigurationpolicies" "") rfl).1 rfl,
   (policy_read_error_ends_run (brokenGetEnv 2 1000) (exampleStore 0 none [])
      (Errorf "connection refused") rfl).2 rfl⟩

/-! ## The exits before admission -/

/-- C18: in a Reconcile run on a matching node in which the enactment count reports
`Failed() > 0`, Reconcile notifies Aborted and returns an empty result and a nil
error; the engine is not invoked, Progressing is not notified, the increment and the
decrement are not invoked and the policy object is left as it was. -/
theorem failing_sibling_aborts (env : Env) (s s1 : Store) (inst : Policy)
    (prev : ConditionList) (t : List Event) (en : Enactment) (n : Int)
    (hget : clientGetPolicy env.faultGetPolicy s = Except.ok inst)
    (hinit : initializeEnactment env inst s = (Except.ok prev, s1, t))
    (hsel : (UnmatchedNodeLabels env inst s1).1 = [])
    (hen : enactmentForPolicy env inst s1 = Except.ok en)
    (hcount : env.CountByPolicyFailed = Except.ok n) (hn : n > 0) :
    Event.NotifyAborted (Errorf "policy has failing enactments, aborting") ∈
      (Reconcile env s).trace ∧
    (Reconcile env s).result = { Requeue := false, RequeueAfter := 0 } ∧
    (Reconcile env s).err = none ∧
    (∀ d, Event.ApplyDesiredState d ∉ (Reconcile env s).trace) ∧
    Event.NotifyProgressing ∉ (Reconcile env s).trace ∧
    (∀ r, Event.IncrementUnavailableNodeCount r ∉ (Reconcile env s).trace) ∧
    Event.DecrementUnavailableNodeCount ∉ (Reconcile env s).trace ∧
    (∀ e ∈ (Reconcile env s).trace, e.isStatusUpdate = false) ∧
    (Reconcile env s).store.policy = s.policy := by
  have hframe := initializeEnactment_frame env inst s
  have htr := initializeEnactment_trace env inst s
  rw [hinit] at hframe htr
  have htA : t.all Event.early = true := List.all_eq_true.mpr htr
  have hselA : (selectorFailureEvents (UnmatchedNodeLabels env inst s1).2).all Event.early
      = true := List.all_eq_true.mpr (selectorFailureEvents_early _)
  rw [Reconcile_eq_selected env s s1 inst prev t hget hinit,
    reconcileSelected_aborted env inst prev s1 en n hsel hen hcount hn]
  simp only
  have hearly : ∀ e ∈ Event.ClientGetPolicy :: Event.PolicyconditionsReset :: t ++
      (selectorFailureEvents (UnmatchedNodeLabels env inst s1).2 ++
        [Event.NotifyMatching,
          Event.NotifyAborted (Errorf "policy has failing enactments, aborting")]) ++
      [Event.PolicyconditionsUpdate], e.early = true := by
    apply List.all_eq_true.mp
    simp [htA, hselA, Event.early]
  refine ⟨by simp, trivial, trivial, ?_, ?_, ?_, ?_, ?_, hframe.1⟩
  · intro d
    exact not_mem_of_class hearly _ rfl
  · exact not_mem_of_class hearly _ rfl
  · intro r
    exact not_mem_of_class hearly _ rfl
  · exact not_mem_of_class hearly _ rfl
  · intro e he
    have := hearly e he
    cases e <;> simp_all [Event.early, Event.isStatusUpdate]

/-- One failing enactment is counted: the run on `node01` notifies Aborted, returns
`(Result{}, nil)` and leaves the count at 0. -/
theorem failing_sibling_aborts_witness :
    Event.NotifyAborted (Errorf "policy has failing enactments, aborting") ∈
      (Reconcile (failingSiblingEnv 2 1000) (exampleStore 0 none [])).trace ∧
    (Reconcile (failingSiblingEnv 2 1000) (exampleStore 0 none [])).result =
      { Requeue := false, RequeueAfter := 0 } ∧
    (Reconcile (failingSiblingEnv 2 1000) (exampleStore 0 none [])).store.policy =
      (exampleStore 0 none []).policy := by
  have h := failing_sibling_aborts (failingSiblingEnv 2 1000) (exampleStore 0 none [])
    { exampleStore 0 none [] with
      enactment := some ⟨"node01.policy1", "interfaces: []", 1, []⟩ }
    (examplePolicy 0 none) []
    [Event.EnactmentconditionsReset, Event.EnactmentstatusUpdate "interfaces: []" 1]
    ⟨"node01.policy1", "interfaces: []", 1, []⟩ 1 rfl rfl rfl rfl rfl (by decide)
  exact ⟨h.1, h.2.1, h.2.2.2.2.2.2.2.2⟩

/-- C15: in a Reconcile run in which the set of unmatched selector labels is not
empty, Reconcile notifies NotMatching with exactly those labels, which are the
`unmatchingLabels` of the policy's selector and the node's labels, and returns an
empty result and a nil error; Matching and Progressing are not notified, the engine
is not invoked, the increment and the decrement are not invoked and the policy object
is left as it was. -/
theorem not_matching_exit (env : Env) (s s1 : Store) (inst : Policy)
    (prev : ConditionList) (t : List Event)
    (hget : clientGetPolicy env.faultGetPolicy s = Except.ok inst)
    (hinit : initializeEnactment env inst s = (Except.ok prev, s1, t))
    (hsel : (UnmatchedNodeLabels env inst s1).1 ≠ []) :
    (∃ labels, s.nodeLabels = some labels ∧
      (UnmatchedNodeLabels env inst s1).1 = unmatchingLabels inst.nodeSelector labels) ∧
    Event.NotifyNodeSelectorNotMatching (UnmatchedNodeLabels env inst s1).1 ∈
      (Reconcile env s).trace ∧
    (∀ l, Event.NotifyNodeSelectorNotMatching l ∈ (Reconcile env s).trace →
      l = (UnmatchedNodeLabels env inst s1).1) ∧
    (Reconcile env s).result = { Requeue := false, RequeueAfter := 0 } ∧
    (Reconcile env s).err = none ∧
    Event.NotifyMatching ∉ (Reconcile env s).trace ∧
    Event.NotifyProgressing ∉ (Reconcile env s).trace ∧
    (∀ d, Event.ApplyDesiredState d ∉ (Reconcile env s).trace) ∧
    (∀ r, Event.IncrementUnavailableNodeCount r ∉ (Reconcile env s).trace) ∧
    Event.DecrementUnavailableNodeCount ∉ (Reconcile env s).trace ∧
    (∀ e ∈ (Reconcile env s).trace, e.isStatusUpdate = false) ∧
    (Reconcile env s).store.policy = s.policy := by
  have hframe := initializeEnactment_frame env inst s
  have htr := initializeEnactment_trace_initializing env inst s
  rw [hinit] at hframe htr
  simp only at hframe htr
  have hlabels : ∃ labels, s.nodeLabels = some labels ∧
      (UnmatchedNodeLabels env inst s1).1 = unmatchingLabels inst.nodeSelector labels ∧
      (UnmatchedNodeLabels env inst s1).2 = none := by
    unfold UnmatchedNodeLabels at hsel ⊢
    split at hsel
    · exact absurd rfl hsel
    · rename_i hf
      split at hsel
      · exact absurd rfl hsel
      · rename_i labels hl
        exact ⟨labels, by rw [← hframe.2.1, hl], rfl, rfl⟩
  obtain ⟨labels, hl1, hl2, hl3⟩ := hlabels
  rw [Reconcile_eq_selected env s s1 inst prev t hget hinit,
    reconcileSelected_not_matching env inst prev s1 hsel, hl3]
  simp only [selectorFailureEvents, List.nil_append]
  have hmem : ∀ x : Event, x.initializing = false → x ≠ Event.ClientGetPolicy →
      x ≠ Event.PolicyconditionsReset → x ≠ Event.PolicyconditionsUpdate →
      x ≠ Event.NotifyNodeSelectorNotMatching (UnmatchedNodeLabels env inst s1).1 →
      x ∉ Event.ClientGetPolicy :: Event.PolicyconditionsReset :: t ++
        [Event.NotifyNodeSelectorNotMatching (UnmatchedNodeLabels env inst s1).1] ++
        [Event.PolicyconditionsUpdate] := by
    intro x h1 h2 h3 h4 h5 hx
    simp only [List.mem_append, List.mem_cons, List.mem_singleton, List.not_mem_nil,
      or_false, List.cons_append] at hx
    rcases hx with h | h | (h | h) | h
    · exact h2 h
    · exact h3 h
    · exact not_mem_of_class htr x h1 h
    · exact h5 h
    · exact h4 h
  refine ⟨⟨labels, hl1, hl2⟩, by simp, ?_, trivial, trivial, ?_, ?_, ?_, ?_, ?_, ?_, hframe.1⟩
  · intro l hl
    by_contra hne
    exact hmem (Event.NotifyNodeSelectorNotMatching l) rfl (by simp) (by simp) (by simp)
      (by simpa using hne) hl
  · exact hmem _ rfl (by simp) (by simp) (by simp) (by simp)
  · exact hmem _ rfl (by simp) (by simp) (by simp) (by simp)
  · intro d
    exact hmem _ rfl (by simp) (by simp) (by simp) (by simp)
  · intro r
    exact hmem _ rfl (by simp) (by simp) (by simp) (by simp)
  · exact hmem _ rfl (by simp) (by simp) (by simp) (by simp)
  · intro e he
    cases e with
    | ClientStatusUpdatePolicy st rv ok =>
      exact absurd he (hmem _ rfl (by simp) (by simp) (by simp) (by simp))
    | _ => rfl

/-- The policy selects `role=worker`, `node01` has no label: NotMatching is notified
with that entry and the run returns `(Result{}, nil)`. -/
theorem not_matching_exit_witness :
    Event.NotifyNodeSelectorNotMatching [("role", "worker")] ∈
      (Reconcile (quietEnv 2 1000)
        (notMatchingStore (some ⟨"node01.policy1", "", 0, []⟩))).trace ∧
    (Reconcile (quietEnv 2 1000)
        (notMatchingStore (some ⟨"node01.policy1", "", 0, []⟩))).result =
      { Requeue := false, RequeueAfter := 0 } ∧
    Event.NotifyMatching ∉
      (Reconcile (quietEnv 2 1000)
        (notMatchingStore (some ⟨"node01.policy1", "", 0, []⟩))).trace := by
  have h := not_matching_exit (quietEnv 2 1000)
    (notMatchingStore (some ⟨"node01.policy1", "", 0, []⟩))
    (notMatchingStore (some ⟨"node01.policy1", "interfaces: []", 1, []⟩))
    { examplePolicy 0 none with nodeSelector := [("role", "worker")] } []
    [Event.EnactmentconditionsReset, Event.EnactmentstatusUpdate "interfaces: []" 1]
    rfl rfl (by decide)
  exact ⟨h.2.1, h.2.2.2.1, h.2.2.2.2.2.1⟩

/-! ## The apply step -/

theorem reconcileApply_result (env : Env) (en : Enactment) (s : Store) :
    (reconcileApply env en s).result = { Requeue := false, RequeueAfter := 0 } ∧
    (reconcileApply env en s).err = none := by
  unfold reconcileApply
  simp only
  split <;> exact ⟨rfl, rfl⟩

theorem reconcileApply_engine_failed (env : Env) (en : Enactment) (s : Store)
    (out : String) (err : Err)
    (hengine : env.ApplyDesiredState en.desiredState = (out, some err)) :
    (reconcileApply env en s).trace =
      [Event.NotifyProgressing, Event.ApplyDesiredState en.desiredState,
        Event.NotifyFailedToConfigure (Errorf
          ("error reconciling NodeNetworkConfigurationPolicy at desired state apply: " ++
            out ++ ", " ++ err.msg))] := by
  unfold reconcileApply
  simp only [hengine]

theorem forceNNSRefresh_trace_nns (env : Env) (s : Store) :
    ∀ e ∈ (forceNNSRefresh env s).2, ∃ b, e = Event.ClientUpdateNNS b := by
  intro e he
  unfold forceNNSRefresh at he
  split at he
  · simp at he
  · split at he
    · simp at he
    · split at he <;> simp at he <;> exact ⟨_, he⟩

theorem reconcileApply_engine_event (env : Env) (en : Enactment) (s : Store) (d : State)
    (h : Event.ApplyDesiredState d ∈ (reconcileApply env en s).trace) :
    d = en.desiredState := by
  unfold reconcileApply at h
  simp only at h
  split at h
  · simp at h
    exact h
  · simp only [List.mem_append, List.mem_cons, List.mem_singleton, List.not_mem_nil,
      or_false] at h
    rcases h with (h | h | h) | h
    · cases h
    · injection h
    · cases h
    · obtain ⟨b, hb⟩ := forceNNSRefresh_trace_nns env _ _ h
      cases hb

/-- What lines 183-210 can do: return from a failed increment, with the increment
and its store calls as the only events, or run the apply on some store between the
events of the increment (if any) and the deferred decrement. -/
theorem reconcileAdmit_cases (env : Env) (inst : Policy) (prev : ConditionList)
    (en : Enactment) (s : Store) :
    (∃ err s2 t, (∀ e ∈ t, e.gateCall = true) ∧
      shouldIncrementUnavailableNodeCount env inst prev = true ∧
      incrementUnavailableNodeCount env (env.beforeIncGet s) = (some err, s2, t) ∧
      (reconcileAdmit env inst prev en s).store = s2 ∧
      (reconcileAdmit env inst prev en s).trace =
        Event.IncrementUnavailableNodeCount (some err) :: t) ∨
    (∃ s2 tpre, (∀ e ∈ tpre, e.gateCall = true ∨ e = Event.IncrementUnavailableNodeCount none) ∧
      (tpre = [] ∧ s2 = s ∧ shouldIncrementUnavailableNodeCount env inst prev = false ∨
        ∃ t, tpre = Event.IncrementUnavailableNodeCount none :: t ∧
          shouldIncrementUnavailableNodeCount env inst prev = true ∧
          incrementUnavailableNodeCount env (env.beforeIncGet s) = (none, s2, t)) ∧
      (reconcileAdmit env inst prev en s).result = { Requeue := false, RequeueAfter := 0 } ∧
      (reconcileAdmit env inst prev en s).err = none ∧
      (reconcileAdmit env inst prev en s).store =
        (decrementUnavailableNodeCount env (reconcileApply env en s2).store).1 ∧
      (reconcileAdmit env inst prev en s).trace =
        tpre ++ ((reconcileApply env en s2).trace ++ Event.DecrementUnavailableNodeCount ::
          (decrementUnavailableNodeCount env (reconcileApply env en s2).store).2)) := by
  have hinc := incrementUnavailableNodeCount_trace env (env.beforeIncGet s)
  unfold reconcileAdmit
  by_cases hshould : shouldIncrementUnavailableNodeCount env inst prev = true
  · rw [if_pos hshould]
    rcases hi : incrementUnavailableNodeCount env (env.beforeIncGet s) with ⟨r, s2, t⟩
    rw [hi] at hinc
    cases r with
    | some err =>
      left
      refine ⟨err, s2, t, hinc, hshould, rfl, ?_, ?_⟩
      · simp only
        split <;> rfl
      · simp only
        split <;> rfl
    | none =>
      right
      refine ⟨s2, Event.IncrementUnavailableNodeCount none :: t, ?_,
        Or.inr ⟨t, rfl, hshould, rfl⟩, (reconcileApply_result env en s2).1,
        (reconcileApply_result env en s2).2, rfl, rfl⟩
      intro e he
      simp only [List.mem_cons] at he
      rcases he with rfl | he
      · exact Or.inr rfl
      · exact Or.inl (hinc e he)
  · rw [if_neg hshould]
    right
    refine ⟨s, [], by simp, Or.inl ⟨rfl, rfl, by simpa using hshould⟩,
      (reconcileApply_result env en s).1, (reconcileApply_result env en s).2, rfl, rfl⟩

theorem not_applying_of_early (e : Event) (h : e.early = true) : e.applying = false := by
  cases e <;> simp_all [Event.early, Event.applying]

theorem not_applying_of_gateCall (e : Event) (h : e.gateCall = true) : e.applying = false := by
  cases e <;> simp_all [Event.gateCall, Event.applying]

theorem all_not_applying {l : List Event} (h : ∀ e ∈ l, e.applying = false) :
    l.all (fun e => !e.applying) = true := by
  apply List.all_eq_true.mpr
  intro e he
  simp [h e he]

theorem not_applying_of_all {l : List Event} (h : l.all (fun e => !e.applying) = true) :
    ∀ e ∈ l, e.applying = false := by
  intro e he
  have := List.all_eq_true.mp h e he
  simpa using this

/-- The events of the apply step in a run of `Reconcile`: there are none, or they
are those of one run of lines 195-210, and then Reconcile returns `(Result{}, nil)`. -/
theorem Reconcile_applying (env : Env) (s : Store) :
    (∀ e ∈ (Reconcile env s).trace, e.applying = false) ∨
    ∃ en s2, (Reconcile env s).result = { Requeue := false, RequeueAfter := 0 } ∧
      (Reconcile env s).err = none ∧
      ∀ e, e.applying = true →
        (e ∈ (Reconcile env s).trace ↔ e ∈ (reconcileApply env en s2).trace) := by
  rcases Reconcile_paths env s with ⟨_, hearly⟩ |
    ⟨inst, prev, s1, t, en, n, _, hinit, _, _, _, _, heq⟩
  · left
    intro e he
    exact not_applying_of_early e (hearly e he)
  · have htr := initializeEnactment_trace env inst s
    rw [hinit] at htr
    have h1 : t.all (fun e => !e.applying) = true :=
      all_not_applying (fun e he => not_applying_of_early e (htr e he))
    have h2 : (selectorFailureEvents (UnmatchedNodeLabels env inst s1).2).all
        (fun e => !e.applying) = true :=
      all_not_applying (fun e he =>
        not_applying_of_early e (selectorFailureEvents_early _ e he))
    rw [heq]
    rcases reconcileAdmit_cases env inst prev en s1 with
      ⟨err, s2, t2, ht2, _, _, _, htrace⟩ |
      ⟨s2, tpre, htpre, _, hres, herr, _, htrace⟩
    · left
      have h3 : t2.all (fun e => !e.applying) = true :=
        all_not_applying (fun e he => not_applying_of_gateCall e (ht2 e he))
      intro e he
      simp only [htrace, List.mem_append, List.mem_cons, List.mem_singleton, List.not_mem_nil, or_false, or_assoc] at he
      rcases he with h | h | h | h | h | h | h | h
      · subst h; rfl
      · subst h; rfl
      · exact not_applying_of_all h1 e h
      · exact not_applying_of_all h2 e h
      · subst h; rfl
      · subst h; rfl
      · exact not_applying_of_all h3 e h
      · subst h; rfl
    · right
      refine ⟨en, s2, hres, herr, ?_⟩
      have h3 : ∀ e ∈ tpre, e.applying = false := by
        intro e he
        rcases htpre e he with h | h
        · exact not_applying_of_gateCall e h
        · subst h; rfl
      have h4 : ∀ e ∈ (decrementUnavailableNodeCount env (reconcileApply env en s2).store).2,
          e.applying = false :=
        fun e he => not_applying_of_gateCall e (decrementUnavailableNodeCount_trace env _ e he)
      intro e happ
      simp only [htrace, List.mem_append, List.mem_cons, List.mem_singleton, List.not_mem_nil, or_false, or_assoc]
      constructor
      · intro h
        rcases h with h | h | h | h | h | h | h | h | h | h
        · subst h; cases happ
        · subst h; cases happ
        · have := not_applying_of_all h1 e h; rw [this] at happ; cases happ
        · have := not_applying_of_all h2 e h; rw [this] at happ; cases happ
        · subst h; cases happ
        · have := h3 e h; rw [this] at happ; cases happ
        · exact h
        · subst h; cases happ
        · have := h4 e h; rw [this] at happ; cases happ
        · subst h; cases happ
      · intro h
        exact Or.inr (Or.inr (Or.inr (Or.inr (Or.inr (Or.inr (Or.inl h))))))

/-- C19: in a Reconcile run in which `ApplyDesiredState` returns an error, Reconcile
notifies FailedToConfigure with the message built from the engine's output and the
error, so a message that contains the engine's output; it does not notify Success,
does not write the NNS refresh label, and returns an empty result (no requeue) with a
nil error. -/
theorem engine_failure_is_terminal (env : Env) (s : Store) (d : State) (out : String)
    (err : Err)
    (hrun : Event.ApplyDesiredState d ∈ (Reconcile env s).trace)
    (hengine : env.ApplyDesiredState d = (out, some err)) :
    Event.NotifyFailedToConfigure (Errorf
        ("error reconciling NodeNetworkConfigurationPolicy at desired state apply: " ++
          out ++ ", " ++ err.msg)) ∈ (Reconcile env s).trace ∧
    (∀ e, Event.NotifyFailedToConfigure e ∈ (Reconcile env s).trace →
      ∃ pre post, e.msg = pre ++ out ++ post) ∧
    Event.NotifySuccess ∉ (Reconcile env s).trace ∧
    (∀ b, Event.ClientUpdateNNS b ∉ (Reconcile env s).trace) ∧
    (Reconcile env s).result = { Requeue := false, RequeueAfter := 0 } ∧
    (Reconcile env s).err = none := by
  rcases Reconcile_applying env s with hnone | ⟨en, s2, hres, herr, hiff⟩
  · have := hnone _ hrun
    cases this
  · have hd : d = en.desiredState :=
      reconcileApply_engine_event env en s2 d ((hiff (Event.ApplyDesiredState d) rfl).1 hrun)
    subst hd
    have htrace := reconcileApply_engine_failed env en s2 out err hengine
    rw [htrace] at hiff
    refine ⟨(hiff (Event.NotifyFailedToConfigure _) rfl).2 (by simp), ?_, ?_, ?_, hres, herr⟩
    · intro e he
      have := (hiff (Event.NotifyFailedToConfigure e) rfl).1 he
      simp only [List.mem_cons, List.mem_singleton, List.not_mem_nil, or_false] at this
      rcases this with h | h | h
      · cases h
      · cases h
      · injection h with h
        subst h
        exact ⟨"error reconciling NodeNetworkConfigurationPolicy at desired state apply: ",
          ", " ++ err.msg, by simp [Errorf, String.append_assoc]⟩
    · intro h
      have := (hiff Event.NotifySuccess rfl).1 h
      simp at this
    · intro b h
      have := (hiff (Event.ClientUpdateNNS b) rfl).1 h
      simp at this

/-- The engine answers `rollback` with `exit status 1`: FailedToConfigure carries
both, and the run returns `(Result{}, nil)`. -/
theorem engine_failure_is_terminal_witness :
    Event.NotifyFailedToConfigure (Errorf
        ("error reconciling NodeNetworkConfigurationPolicy at desired state apply: " ++
          "rollback" ++ ", " ++ (Errorf "exit status 1").msg)) ∈
      (Reconcile (failingEngineEnv 2 1000) (exampleStore 0 none [])).trace ∧
    Event.NotifySuccess ∉ (Reconcile (failingEngineEnv 2 1000) (exampleStore 0 none [])).trace ∧
    (Reconcile (failingEngineEnv 2 1000) (exampleStore 0 none [])).result =
      { Requeue := false, RequeueAfter := 0 } ∧
    (Reconcile (failingEngineEnv 2 1000) (exampleStore 0 none [])).err = none := by
  have h := engine_failure_is_terminal (failingEngineEnv 2 1000) (exampleStore 0 none [])
    "interfaces: []" "rollback" (Errorf "exit status 1") (by decide) rfl
  exact ⟨h.1, h.2.2.1, h.2.2.2.2.1, h.2.2.2.2.2⟩

/-! ## A restart while Progressing -/

theorem reconcileApply_starts (env : Env) (en : Enactment) (s : Store) :
    ∃ rest, (reconcileApply env en s).trace =
      Event.NotifyProgressing :: Event.ApplyDesiredState en.desiredState :: rest := by
  unfold reconcileApply
  simp only
  split
  · exact ⟨_, rfl⟩
  · exact ⟨_, rfl⟩

theorem IsProgressing_of_find (conditions : ConditionList) (c : Condition)
    (hc : ConditionList.Find conditions ConditionType.Progressing = some c)
    (hct : c.status = ConditionStatus.True) : IsProgressing conditions = true := by
  unfold IsProgressing
  rw [hc]
  simp [hct]

theorem shouldIncrementUnavailableNodeCount_progressing (env : Env) (inst : Policy)
    (conditions : ConditionList) (h : IsProgressing conditions = true) :
    shouldIncrementUnavailableNodeCount env inst conditions = false := by
  unfold shouldIncrementUnavailableNodeCount
  rw [h]
  rfl

theorem reconcileAdmit_not_eligible (env : Env) (inst : Policy) (prev : ConditionList)
    (en : Enactment) (s : Store)
    (h : shouldIncrementUnavailableNodeCount env inst prev = false) :
    reconcileAdmit env inst prev en s = deferDecrement env (reconcileApply env en s) := by
  unfold reconcileAdmit
  rw [if_neg (by simp [h])]

/-- C12: in a Reconcile run that finds the enactment in the store with a Progressing
condition of status True, `initializeEnactment` returns the conditions as they were
before its reset (and leaves the stored ones empty),
`shouldIncrementUnavailableNodeCount` is false for every policy status,
`incrementUnavailableNodeCount` is not invoked, and when the run passes the selector
and the abort gate it notifies Progressing and invokes the engine. -/
theorem restart_while_progressing (env : Env) (s : Store) (e : Enactment) (c : Condition)
    (he : s.enactment = some e) (hfault : env.faultGetEnactment = none)
    (hc : ConditionList.Find e.conditions ConditionType.Progressing = some c)
    (hct : c.status = ConditionStatus.True) :
    (∀ inst prev s1 t, initializeEnactment env inst s = (Except.ok prev, s1, t) →
      prev = e.conditions ∧ ∃ d, s1.enactment = some ⟨e.name, d, inst.generation, []⟩) ∧
    (∀ inst, shouldIncrementUnavailableNodeCount env inst e.conditions = false) ∧
    (∀ r, Event.IncrementUnavailableNodeCount r ∉ (Reconcile env s).trace) ∧
    (∀ inst prev s1 t en n,
      clientGetPolicy env.faultGetPolicy s = Except.ok inst →
      initializeEnactment env inst s = (Except.ok prev, s1, t) →
      (UnmatchedNodeLabels env inst s1).1 = [] →
      enactmentForPolicy env inst s1 = Except.ok en →
      env.CountByPolicyFailed = Except.ok n → ¬ n > 0 →
      Event.NotifyProgressing ∈ (Reconcile env s).trace ∧
      Event.ApplyDesiredState en.desiredState ∈ (Reconcile env s).trace) := by
  have hprog := IsProgressing_of_find e.conditions c hc hct
  have hshould : ∀ inst, shouldIncrementUnavailableNodeCount env inst e.conditions = false :=
    fun inst => shouldIncrementUnavailableNodeCount_progressing env inst e.conditions hprog
  refine ⟨?_, hshould, ?_, ?_⟩
  · intro inst prev s1 t hinit
    obtain ⟨h1, h2, _⟩ := initializeEnactment_existing env inst s e he hfault prev s1 t hinit
    exact ⟨h1, h2⟩
  · intro r hmem
    rcases Reconcile_paths env s with ⟨_, hearly⟩ |
      ⟨inst, prev, s1, t, en, n, _, hinit, _, _, _, _, heq⟩
    · exact not_mem_of_class hearly (Event.IncrementUnavailableNodeCount r) rfl hmem
    · obtain ⟨hprev, _, _⟩ := initializeEnactment_existing env inst s e he hfault prev s1 t hinit
      subst hprev
      have htr := initializeEnactment_trace env inst s
      rw [hinit] at htr
      rw [heq, reconcileAdmit_not_eligible env inst e.conditions en s1 (hshould inst),
        deferDecrement_trace] at hmem
      simp only [List.mem_append, List.mem_cons, List.mem_singleton, List.not_mem_nil,
        or_false, or_assoc] at hmem
      rcases hmem with h | h | h | h | h | h | h | h | h
      · cases h
      · cases h
      · exact not_mem_of_class htr (Event.IncrementUnavailableNodeCount r) rfl h
      · exact not_mem_of_class (selectorFailureEvents_early _) (Event.IncrementUnavailableNodeCount r) rfl h
      · cases h
      · exact not_mem_of_class (reconcileApply_trace env en s1) (Event.IncrementUnavailableNodeCount r) rfl h
      · cases h
      · exact not_mem_of_class (decrementUnavailableNodeCount_trace env _) (Event.IncrementUnavailableNodeCount r) rfl h
      · cases h
  · intro inst prev s1 t en n hget hinit hsel hen hcount hn
    obtain ⟨hprev, _, _⟩ := initializeEnactment_existing env inst s e he hfault prev s1 t hinit
    subst hprev
    obtain ⟨rest, hrest⟩ := reconcileApply_starts env en s1
    rw [Reconcile_eq_selected env s s1 inst e.conditions t hget hinit,
      reconcileSelected_admitted env inst e.conditions s1 en n hsel hen hcount hn,
      reconcileAdmit_not_eligible env inst e.conditions en s1 (hshould inst)]
    simp only [deferDecrement_trace, hrest]
    constructor <;> simp

/-- A Handler restarts while its enactment is Progressing and the count still holds
its earlier increment: no second increment, Progressing is notified and the engine is
invoked again. -/
theorem restart_while_progressing_witness :
    shouldIncrementUnavailableNodeCount (quietEnv 2 (1000 * Second))
      (examplePolicy 1 (some (990 * Second))) progressingConditions = false ∧
    (∀ r, Event.IncrementUnavailableNodeCount r ∉
      (Reconcile (quietEnv 2 (1000 * Second))
        (exampleStore 1 (some (990 * Second)) progressingConditions)).trace) ∧
    Event.ApplyDesiredState "interfaces: []" ∈
      (Reconcile (quietEnv 2 (1000 * Second))
        (exampleStore 1 (some (990 * Second)) progressingConditions)).trace := by
  have h := restart_while_progressing (quietEnv 2 (1000 * Second))
    (exampleStore 1 (some (990 * Second)) progressingConditions)
    ⟨"node01.policy1", "interfaces: []", 1, progressingConditions⟩
    ⟨ConditionType.Progressing, ConditionStatus.True, "ConfigurationProgressing", ""⟩
    rfl rfl rfl rfl
  refine ⟨h.2.1 _, h.2.2.1, ?_⟩
  exact (h.2.2.2 (examplePolicy 1 (some (990 * Second))) progressingConditions
    { exampleStore 1 (some (990 * Second)) progressingConditions with
      enactment := some ⟨"node01.policy1", "interfaces: []", 1, []⟩ }
    [Event.EnactmentconditionsReset, Event.EnactmentstatusUpdate "interfaces: []" 1]
    ⟨"node01.policy1", "interfaces: []", 1, []⟩ 0 rfl rfl rfl rfl rfl (by decide)).2

/-! ## The count over one run -/

theorem incrementUnavailableNodeCount_error_store (env : Env) (s s2 : Store) (err : Err)
    (t : List Event) (h : incrementUnavailableNodeCount env s = (some err, s2, t)) :
    s2 = s ∨ s2 = env.beforeIncUpdate s := by
  unfold incrementUnavailableNodeCount at h
  split at h
  · cases h
    exact Or.inl rfl
  · simp only at h
    split at h
    · cases h
      exact Or.inr rfl
    · cases h

theorem incrementUnavailableNodeCount_ok_store (env : Env) (s s2 : Store) (t : List Event)
    (h : incrementUnavailableNodeCount env s = (none, s2, t)) :
    ∃ p stored, s.policy = some p ∧ (env.beforeIncUpdate s).policy = some stored ∧
      stored.resourceVersion = p.resourceVersion ∧
      s2.policy = some { stored with
        status := { unavailableNodeCount := wrapInt (p.status.unavailableNodeCount + 1),
                    lastUnavailableNodeCountUpdate := some env.nowInc },
        resourceVersion := stored.resourceVersion + 1 } := by
  unfold incrementUnavailableNodeCount at h
  split at h
  · cases h
  · rename_i obj hprep
    simp only at h
    split at h
    · cases h
    · rename_i s3 hupd
      cases h
      obtain ⟨p, m, hp, _, _, _, hobj⟩ := incrementPrepare_ok hprep
      obtain ⟨stored, hs, hrv, hs3⟩ := clientStatusUpdatePolicy_ok hupd
      subst hobj
      subst hs3
      exact ⟨p, stored, hp, hs, hrv, rfl⟩

theorem decrementUnavailableNodeCount_zero (env : Env) (s : Store) (p : Policy)
    (hget : env.faultDecGet 0 = none) (hp : s.policy = some p)
    (hz : p.status.unavailableNodeCount ≤ 0) :
    decrementUnavailableNodeCount env s = (s, [Event.ClientGetPolicy]) := by
  have h := decrementPrepare_zero env 0 s p hget hp hz
  simp [decrementUnavailableNodeCount, DefaultRetrySteps, RetryOnConflict, decrementAttempt, h,
    IsConflict, Errorf]

theorem decrementUnavailableNodeCount_quiet (env : Env) (s : Store) (p : Policy)
    (hget : env.faultDecGet 0 = none) (hupd : env.faultDecUpdate 0 = none)
    (hq : env.beforeDecUpdate 0 = id) (hp : s.policy = some p)
    (hpos : 0 < p.status.unavailableNodeCount) :
    (decrementUnavailableNodeCount env s).1.policy = some { p with
      status := { unavailableNodeCount := wrapInt (p.status.unavailableNodeCount - 1),
                  lastUnavailableNodeCountUpdate := some (env.nowDec 0) },
      resourceVersion := p.resourceVersion + 1 } := by
  have hprep := decrementPrepare_positive env 0 s p hget hp hpos
  have hacc := clientStatusUpdatePolicy_accepted (env.beforeDecUpdate 0 s) p
    { p with status :=
      { lastUnavailableNodeCountUpdate := some (env.nowDec 0),
        unavailableNodeCount := wrapInt (p.status.unavailableNodeCount - 1) } }
    (by rw [hq]; exact hp) rfl
  rw [← hupd] at hacc
  rw [decrementUnavailableNodeCount_first_attempt env s _ _ hprep hacc]

/-- C11: one Handler, no other writer, the store calls of the decrement succeeding:
when `unavailableNodeCount` is 0 as Reconcile starts it is 0 as Reconcile returns,
on every path through Reconcile. -/
theorem count_returns_to_zero (env : Env) (s : Store) (p : Policy)
    (hp : s.policy = some p) (h0 : p.status.unavailableNodeCount = 0)
    (hq1 : env.beforeIncGet = id) (hq2 : env.beforeIncUpdate = id)
    (hq3 : env.duringApply = id) (hq4 : env.beforeDecUpdate 0 = id)
    (hf3 : env.faultDecGet 0 = none) (hf4 : env.faultDecUpdate 0 = none) :
    ∃ q, (Reconcile env s).store.policy = some q ∧ q.status.unavailableNodeCount = 0 := by
  rcases Reconcile_paths env s with ⟨hst, _⟩ |
    ⟨inst, prev, s1, t, en, n, _, hinit, _, _, _, _, heq⟩
  · exact ⟨p, by rw [hst, hp], h0⟩
  · have hframe := initializeEnactment_frame env inst s
    rw [hinit] at hframe
    have hp1 : s1.policy = some p := by rw [hframe.1, hp]
    rw [heq]
    simp only
    have hdec0 : ∀ s2 : Store, s2.policy = some p →
        ∃ q, (decrementUnavailableNodeCount env (reconcileApply env en s2).store).1.policy =
          some q ∧ q.status.unavailableNodeCount = 0 := by
      intro s2 hs2
      have hpol : (reconcileApply env en s2).store.policy = some p := by
        rw [reconcileApply_policy, hq3]; exact hs2
      rw [decrementUnavailableNodeCount_zero env _ p hf3 hpol (by omega)]
      exact ⟨p, hpol, h0⟩
    rcases reconcileAdmit_cases env inst prev en s1 with
      ⟨err, s2, t2, _, _, hinc, hstore, _⟩ |
      ⟨s2, tpre, _, hpre, _, _, hstore, _⟩
    · rw [hstore]
      rw [hq1] at hinc
      rcases incrementUnavailableNodeCount_error_store env s1 s2 err t2 hinc with h | h
      · exact ⟨p, by rw [h]; exact hp1, h0⟩
      · exact ⟨p, by rw [h, hq2]; exact hp1, h0⟩
    · rw [hstore]
      rcases hpre with ⟨_, hs2, _⟩ | ⟨t3, _, _, hinc⟩
      · exact hdec0 s2 (by rw [hs2]; exact hp1)
      · rw [hq1] at hinc
        obtain ⟨p2, stored, hp2, hstored, _, hs2⟩ :=
          incrementUnavailableNodeCount_ok_store env s1 s2 t3 hinc
        have hpe : p2 = p := by
          have : some p2 = some p := by rw [← hp2]; exact hp1
          exact Option.some.inj this
        have hse : stored = p := by
          rw [hq2] at hstored
          have : some stored = some p := by rw [← hstored]; exact hp1
          exact Option.some.inj this
        subst hpe
        subst hse
        rw [h0] at hs2
        have hone : wrapInt (0 + 1) = 1 := by decide
        rw [hone] at hs2
        have hpol : (reconcileApply env en s2).store.policy = s2.policy := by
          rw [reconcileApply_policy, hq3]; rfl
        have hd := decrementUnavailableNodeCount_quiet env (reconcileApply env en s2).store _
          hf3 hf4 hq4 (hpol.trans hs2) (by show (0 : Int) < 1; decide)
        refine ⟨_, hd, ?_⟩
        show wrapInt (1 - 1) = 0
        decide

/-- From count 0: a run whose engine succeeds, a run whose engine fails and a run
that is not eligible to increment each return with count 0. -/
theorem count_returns_to_zero_witness :
    ((Reconcile (quietEnv 2 1000) (exampleStore 0 none [])).store.policy.map
        (fun q => q.status.unavailableNodeCount) = some 0 ∧
      (Reconcile (failingEngineEnv 2 1000) (exampleStore 0 none [])).store.policy.map
        (fun q => q.status.unavailableNodeCount) = some 0 ∧
      (Reconcile (quietEnv 2 1000) (exampleStore 0 none progressingConditions)).store.policy.map
        (fun q => q.status.unavailableNodeCount) = some 0) ∧
    (∃ q, (Reconcile (quietEnv 2 1000) (exampleStore 0 none [])).store.policy = some q ∧
      q.status.unavailableNodeCount = 0) :=
  ⟨⟨rfl, rfl, rfl⟩,
    count_returns_to_zero (quietEnv 2 1000) (exampleStore 0 none []) (examplePolicy 0 none)
      rfl rfl rfl rfl rfl rfl rfl rfl⟩

/-! ## The selector evaluator -/

theorem lookup_eq_some_iff_mem (l : List (String × String))
    (hnodup : (l.map Prod.fst).Nodup) (k v : String) :
    l.lookup k = some v ↔ (k, v) ∈ l := by
  induction l with
  | nil => simp
  | cons a rest ih =>
    obtain ⟨a1, a2⟩ := a
    simp only [List.map_cons, List.nodup_cons] at hnodup
    obtain ⟨hnot, hrest⟩ := hnodup
    by_cases hk : k = a1
    · subst hk
      simp only [List.lookup_cons, beq_self_eq_true, Option.some.injEq, List.mem_cons,
        Prod.mk.injEq, true_and]
      constructor
      · intro h
        exact Or.inl h.symm
      · intro h
        rcases h with h | h
        · exact h.symm
        · exact absurd (List.mem_map_of_mem Prod.fst h) hnot
    · have hb : (k == a1) = false := by simpa using hk
      simp only [List.lookup_cons, hb, List.mem_cons, Prod.mk.injEq, hk, false_and, false_or]
      exact ih hrest

theorem mem_unmatchingLabels (nodeSelector labels : List (String × String)) (k v : String) :
    (k, v) ∈ unmatchingLabels nodeSelector labels ↔
      (k, v) ∈ nodeSelector ∧
        (labels.lookup k = none ∨ ∃ w, labels.lookup k = some w ∧ w ≠ v) := by
  unfold unmatchingLabels
  simp only [List.mem_filter]
  constructor
  · rintro ⟨hmem, hpred⟩
    refine ⟨hmem, ?_⟩
    cases hl : labels.lookup k with
    | none => exact Or.inl rfl
    | some w =>
      right
      simp only [hl] at hpred
      exact ⟨w, rfl, by simpa using hpred⟩
  · rintro ⟨hmem, hpred⟩
    refine ⟨hmem, ?_⟩
    rcases hpred with h | ⟨w, h, hne⟩
    · simp [h]
    · simp [h, hne]

/-- C13: `unmatchingLabels` returns exactly the selector entries whose key the labels
lack or hold with another value; the result is empty exactly when every selector entry
is in the labels with an equal value, so the empty selector matches every node; and
for a selector with distinct keys the same holds of the result read as a map. -/
theorem unmatchingLabels_exact (nodeSelector labels : List (String × String)) :
    (∀ k v, (k, v) ∈ unmatchingLabels nodeSelector labels ↔
      (k, v) ∈ nodeSelector ∧
        (labels.lookup k = none ∨ ∃ w, labels.lookup k = some w ∧ w ≠ v)) ∧
    (unmatchingLabels nodeSelector labels = [] ↔
      ∀ k v, (k, v) ∈ nodeSelector → labels.lookup k = some v) ∧
    unmatchingLabels [] labels = [] ∧
    ((nodeSelector.map Prod.fst).Nodup →
      ∀ k v, (unmatchingLabels nodeSelector labels).lookup k = some v ↔
        nodeSelector.lookup k = some v ∧
          (labels.lookup k = none ∨ ∃ w, labels.lookup k = some w ∧ w ≠ v)) := by
  refine ⟨mem_unmatchingLabels nodeSelector labels, ?_, rfl, ?_⟩
  · rw [List.eq_nil_iff_forall_not_mem]
    constructor
    · intro h k v hmem
      have hnot := h (k, v)
      rw [mem_unmatchingLabels] at hnot
      cases hl : labels.lookup k with
      | none => exact absurd ⟨hmem, Or.inl hl⟩ hnot
      | some w =>
        by_cases hw : w = v
        · rw [hw]
        · exact absurd ⟨hmem, Or.inr ⟨w, hl, hw⟩⟩ hnot
    · intro h kv hmem
      obtain ⟨k, v⟩ := kv
      rw [mem_unmatchingLabels] at hmem
      obtain ⟨hsel, hpred⟩ := hmem
      have := h k v hsel
      rcases hpred with hn | ⟨w, hw, hne⟩
      · rw [hn] at this; cases this
      · rw [hw] at this; exact hne (Option.some.inj this)
  · intro hnodup k v
    have hsub : ((unmatchingLabels nodeSelector labels).map Prod.fst).Nodup := by
      unfold unmatchingLabels
      exact List.Nodup.sublist (List.Sublist.map _ (List.filter_sublist _)) hnodup
    rw [lookup_eq_some_iff_mem _ hsub, mem_unmatchingLabels,
      lookup_eq_some_iff_mem _ hnodup]

/-- The selector `role=worker, zone=a` against the labels `role=worker, zone=b`:
the one unmatched entry is `zone=a`. -/
theorem unmatchingLabels_exact_witness :
    unmatchingLabels [("role", "worker"), ("zone", "a")] [("role", "worker"), ("zone", "b")]
      = [("zone", "a")] ∧
    ((unmatchingLabels [("role", "worker"), ("zone", "a")]
        [("role", "worker"), ("zone", "b")]).lookup "zone" = some "a" ↔
      List.lookup "zone" [("role", "worker"), ("zone", "a")] = some "a" ∧
        (List.lookup "zone" [("role", "worker"), ("zone", "b")] = none ∨
          ∃ w, List.lookup "zone" [("role", "worker"), ("zone", "b")] = some w ∧ w ≠ "a")) :=
  ⟨by decide,
    (unmatchingLabels_exact [("role", "worker"), ("zone", "a")]
      [("role", "worker"), ("zone", "b")]).2.2.2 (by decide) "zone" "a"⟩

/-! ## The enactment of a node the selector does not match -/

/-- C16, as stated, fails: `policy1` selects `role=worker`, `node01` carries no label
and no enactment `node01.policy1` exists; the Reconcile run creates it and then
notifies NotMatching. -/
theorem non_matching_node_gets_enactment :
    (notMatchingStore none).enactment = none ∧
    unmatchingLabels [("role", "worker")] [] = [("role", "worker")] ∧
    (Reconcile (quietEnv 2 1000) (notMatchingStore none)).store.enactment =
      some ⟨"node01.policy1", "interfaces: []", 1, []⟩ ∧
    (Reconcile (quietEnv 2 1000) (notMatchingStore none)).trace =
      [Event.ClientGetPolicy, Event.PolicyconditionsReset, Event.ClientCreateEnactment,
        Event.EnactmentstatusUpdate "interfaces: []" 1,
        Event.NotifyNodeSelectorNotMatching [("role", "worker")],
        Event.PolicyconditionsUpdate] :=
  ⟨rfl, rfl, rfl, rfl⟩

/-- C16, amended: for a policy whose selector does not match the local node's labels
and for which no enactment `<node>.<policy>` exists yet, a Reconcile run whose store
calls succeed creates that enactment in `initializeEnactment`, before the selector is
evaluated, records the desired state and the policy generation on it, and then
notifies NotMatching on it and returns; nothing else is done. -/
theorem non_matching_node_enactment_created (env : Env) (s : Store) (inst : Policy)
    (d : State) (labels : List (String × String))
    (hp : s.policy = some inst) (hget : env.faultGetPolicy = none)
    (he : s.enactment = none)
    (hvlan : env.ApplyDefaultVlanFiltering inst.desiredState = Except.ok d)
    (hf1 : env.faultGetEnactment = none) (hf2 : env.faultCreateEnactment = none)
    (hf3 : env.faultWaitEnactmentCreated = none) (hf4 : env.faultEnactmentstatusUpdate = none)
    (hnode : env.faultGetNode = none) (hl : s.nodeLabels = some labels)
    (hsel : unmatchingLabels inst.nodeSelector labels ≠ []) :
    (Reconcile env s).store.enactment =
      some { NewEnactment env.nodeName inst with
        desiredState := d, policyGeneration := inst.generation } ∧
    (Reconcile env s).trace =
      [Event.ClientGetPolicy, Event.PolicyconditionsReset, Event.ClientCreateEnactment,
        Event.EnactmentstatusUpdate d inst.generation,
        Event.NotifyNodeSelectorNotMatching (unmatchingLabels inst.nodeSelector labels),
        Event.PolicyconditionsUpdate] ∧
    (Reconcile env s).err = none := by
  have hg : clientGetPolicy env.faultGetPolicy s = Except.ok inst := by
    simp [clientGetPolicy, hget, hp]
  have hinit := initializeEnactment_creates env inst s d he hvlan hf1 hf2 hf3 hf4
  have hun : UnmatchedNodeLabels env inst
      { s with enactment := some { NewEnactment env.nodeName inst with
          desiredState := d, policyGeneration := inst.generation } } =
      (unmatchingLabels inst.nodeSelector labels, none) := by
    simp [UnmatchedNodeLabels, hnode, hl]
  rw [Reconcile_eq_selected env s _ inst [] _ hg hinit,
    reconcileSelected_not_matching env inst [] _ (by rw [hun]; exact hsel), hun]
  exact ⟨rfl, rfl, rfl⟩

/-- The run of the counterexample: the enactment `node01.policy1` is in the store
afterwards. -/
theorem non_matching_node_enactment_created_witness :
    (Reconcile (quietEnv 2 1000) (notMatchingStore none)).store.enactment =
      some { NewEnactment "node01"
          { examplePolicy 0 none with nodeSelector := [("role", "worker")] } with
        desiredState := "interfaces: []", policyGeneration := 1 } :=
  (non_matching_node_enactment_created (quietEnv 2 1000) (notMatchingStore none)
    { examplePolicy 0 none with nodeSelector := [("role", "worker")] } "interfaces: []" []
    rfl rfl rfl rfl rfl rfl rfl rfl rfl rfl (by decide)).1

/-! ## A failed read of the node -/

/-- C14: the read of the node fails with `connection refused`; Reconcile notifies
NodeSelectorFailure and then goes on as on a matching node: it notifies Matching and
Progressing and invokes the engine. -/
theorem node_read_failure_still_applies :
    (Reconcile (nodeReadFailsEnv 2 1000) (exampleStore 0 none [])).trace =
      [Event.ClientGetPolicy, Event.PolicyconditionsReset, Event.EnactmentconditionsReset,
        Event.EnactmentstatusUpdate "interfaces: []" 1,
        Event.NotifyNodeSelectorFailure (Errorf "connection refused"),
        Event.NotifyMatching,
        Event.IncrementUnavailableNodeCount none,
        Event.ClientGetPolicy,
        Event.ClientStatusUpdatePolicy
          { unavailableNodeCount := 1, lastUnavailableNodeCountUpdate := some 1000 } 7 true,
        Event.NotifyProgressing, Event.ApplyDesiredState "interfaces: []",
        Event.NotifySuccess, Event.ClientUpdateNNS true,
        Event.DecrementUnavailableNodeCount,
        Event.ClientGetPolicy,
        Event.ClientStatusUpdatePolicy
          { unavailableNodeCount := 0,
            lastUnavailableNodeCountUpdate := some (1000 + 30 * Second) } 8 true,
        Event.PolicyconditionsUpdate] ∧
    Event.ApplyDesiredState "interfaces: []" ∈
      (Reconcile (nodeReadFailsEnv 2 1000) (exampleStore 0 none [])).trace :=
  ⟨rfl, by decide⟩

/-! ## The key of an enactment -/

theorem append_dot_cancel (l1 l2 r1 r2 : List Char) (h1 : '.' ∉ l1) (h2 : '.' ∉ l2)
    (h : l1 ++ '.' :: r1 = l2 ++ '.' :: r2) : l1 = l2 ∧ r1 = r2 := by
  induction l1 generalizing l2 with
  | nil =>
    cases l2 with
    | nil =>
      simp only [List.nil_append, List.cons.injEq, true_and] at h
      exact ⟨rfl, h⟩
    | cons b rest =>
      simp only [List.nil_append, List.cons_append, List.cons.injEq] at h
      exact absurd (List.mem_cons.mpr (Or.inl h.1)) h2
  | cons a rest ih =>
    cases l2 with
    | nil =>
      simp only [List.nil_append, List.cons_append, List.cons.injEq] at h
      exact absurd (List.mem_cons.mpr (Or.inl h.1.symm)) h1
    | cons b rest2 =>
      simp only [List.cons_append, List.cons.injEq] at h
      obtain ⟨hab, hrest⟩ := h
      have hr1 : '.' ∉ rest := fun hm => h1 (List.mem_cons_of_mem a hm)
      have hr2 : '.' ∉ rest2 := fun hm => h2 (List.mem_cons_of_mem b hm)
      obtain ⟨e1, e2⟩ := ih rest2 hr1 hr2 hrest
      exact ⟨by rw [hab, e1], e2⟩

theorem EnactmentKey_name_data (n p : String) :
    (EnactmentKey n p).Name.data = n.data ++ '.' :: p.data := by
  simp [EnactmentKey, String.data_append]

/-- C17, as stated, fails: node `a.b` with policy `c` and node `a` with policy `b.c`
have the same key `a.b.c`. -/
theorem EnactmentKey_collision :
    EnactmentKey "a.b" "c" = EnactmentKey "a" "b.c" ∧ "a.b" ≠ "a" ∧ "c" ≠ "b.c" := by
  decide

/-- C17, amended: `EnactmentKey(n, p)` has an empty namespace and the name `n`, a dot,
`p`; on node names that contain no dot it is injective (equal keys give equal node
names and equal policy names), and for one node name equal keys give equal policy
names. -/
theorem EnactmentKey_injective_without_dot (n1 n2 p1 p2 : String) :
    ((EnactmentKey n1 p1).Namespace = "" ∧ (EnactmentKey n1 p1).Name = n1 ++ "." ++ p1) ∧
    ('.' ∉ n1.data → '.' ∉ n2.data → EnactmentKey n1 p1 = EnactmentKey n2 p2 →
      n1 = n2 ∧ p1 = p2) ∧
    (n1 = n2 → EnactmentKey n1 p1 = EnactmentKey n2 p2 → p1 = p2) := by
  refine ⟨⟨rfl, rfl⟩, ?_, ?_⟩
  · intro h1 h2 h
    have hd : (EnactmentKey n1 p1).Name.data = (EnactmentKey n2 p2).Name.data := by rw [h]
    rw [EnactmentKey_name_data, EnactmentKey_name_data] at hd
    obtain ⟨e1, e2⟩ := append_dot_cancel _ _ _ _ h1 h2 hd
    exact ⟨String.ext e1, String.ext e2⟩
  · intro hn h
    subst hn
    have hd : (EnactmentKey n1 p1).Name.data = (EnactmentKey n1 p2).Name.data := by rw [h]
    rw [EnactmentKey_name_data, EnactmentKey_name_data] at hd
    have := List.append_cancel_left hd
    simp only [List.cons.injEq, true_and] at this
    exact String.ext this

/-- The key of `policy1` on the undotted node name `node01` is `node01.policy1` and
determines both names. -/
theorem EnactmentKey_injective_without_dot_witness :
    ("node01" = "node01" ∧ "policy1" = "policy1") ∧
    (EnactmentKey "node01" "policy1").Name = "node01.policy1" :=
  ⟨(EnactmentKey_injective_without_dot "node01" "node01" "policy1" "policy1").2.1
      (by decide) (by decide) rfl,
    rfl⟩

/-! ## The deferred aggregator -/

theorem reconcileSelected_trace (env : Env) (inst : Policy) (prev : ConditionList)
    (s1 : Store) : ∀ e ∈ (reconcileSelected env inst prev s1).trace, e.selected = true := by
  have hsel : ∀ e ∈ selectorFailureEvents (UnmatchedNodeLabels env inst s1).2,
      e.selected = true := by
    intro e he
    cases h : (UnmatchedNodeLabels env inst s1).2 with
    | none => rw [h] at he; simp [selectorFailureEvents] at he
    | some x =>
      rw [h] at he
      simp [selectorFailureEvents] at he
      subst he
      rfl
  have hselA := List.all_eq_true.mpr hsel
  by_cases hs : (UnmatchedNodeLabels env inst s1).1 = []
  · cases hen : enactmentForPolicy env inst s1 with
    | error err =>
      have : reconcileSelected env inst prev s1 =
          { result := {}, err := some err, store := s1,
            trace := selectorFailureEvents (UnmatchedNodeLabels env inst s1).2 } := by
        unfold reconcileSelected
        simp only [hs, List.length_nil, gt_iff_lt, lt_self_iff_false, if_false, hen]
        rfl
      rw [this]
      exact hsel
    | ok en =>
      cases hcount : env.CountByPolicyFailed with
      | error err =>
        have : reconcileSelected env inst prev s1 =
            { result := {}, err := some err, store := s1,
              trace := selectorFailureEvents (UnmatchedNodeLabels env inst s1).2 ++
                [Event.NotifyMatching] } := by
          unfold reconcileSelected
          simp only [hs, List.length_nil, gt_iff_lt, lt_self_iff_false, if_false, hen, hcount]
          rfl
        rw [this]
        apply List.all_eq_true.mp
        simp [hselA, Event.selected]
      | ok n =>
        by_cases hn : n > 0
        · rw [reconcileSelected_aborted env inst prev s1 en n hs hen hcount hn]
          apply List.all_eq_true.mp
          simp [hselA, Event.selected]
        · rw [reconcileSelected_admitted env inst prev s1 en n hs hen hcount hn]
          have hadm : (reconcileAdmit env inst prev en s1).trace.all Event.selected = true := by
            apply List.all_eq_true.mpr
            intro e he
            have := reconcileAdmit_trace env inst prev en s1 e he
            cases e <;> simp_all [Event.selected, Event.admission]
          apply List.all_eq_true.mp
          simp [hselA, hadm, Event.selected]
  · rw [reconcileSelected_not_matching env inst prev s1 hs]
    apply List.all_eq_true.mp
    simp [hselA, Event.selected]

/-- C21, as stated, fails: `policy1` is found but rendering the defaults of its
desired state fails; `Reconcile` returns the error of `initializeEnactment` and the
run ends without `policyconditions.Update`. -/
theorem init_failure_skips_aggregator :
    clientGetPolicy (brokenDefaultsEnv 2 1000).faultGetPolicy (exampleStore 0 none []) =
      Except.ok (examplePolicy 0 none) ∧
    (Reconcile (brokenDefaultsEnv 2 1000) (exampleStore 0 none [])).trace =
      [Event.ClientGetPolicy, Event.PolicyconditionsReset] ∧
    (Reconcile (brokenDefaultsEnv 2 1000) (exampleStore 0 none [])).err =
      some (Wrap (Errorf "yaml: invalid document")
        "error applying defaults to policy desiredState") ∧
    Event.PolicyconditionsUpdate ∉
      (Reconcile (brokenDefaultsEnv 2 1000) (exampleStore 0 none [])).trace :=
  ⟨rfl, rfl, rfl, by decide⟩

/-- C21, amended: in a Reconcile run in which the policy is found and
`initializeEnactment` succeeds, `policyconditions.Update` is executed exactly once, as
the last action before Reconcile returns, on every exit path after that point (enactment
read failure, count failure, increment failure, not-matching, aborted, saturated, engine
failure, success); when `initializeEnactment` fails, Reconcile returns its error
without running the aggregator. -/
theorem aggregator_runs_after_initialization (env : Env) (s : Store) (inst : Policy)
    (hget : clientGetPolicy env.faultGetPolicy s = Except.ok inst) :
    (∀ prev s1 t, initializeEnactment env inst s = (Except.ok prev, s1, t) →
      (∃ body, (Reconcile env s).trace = body ++ [Event.PolicyconditionsUpdate] ∧
        Event.PolicyconditionsUpdate ∉ body) ∧
      (Reconcile env s).trace.count Event.PolicyconditionsUpdate = 1) ∧
    (∀ err s1 t, initializeEnactment env inst s = (Except.error err, s1, t) →
      Event.PolicyconditionsUpdate ∉ (Reconcile env s).trace ∧
      (Reconcile env s).err = some err) := by
  constructor
  · intro prev s1 t hinit
    have htr := initializeEnactment_trace_initializing env inst s
    rw [hinit] at htr
    have hbody : Event.PolicyconditionsUpdate ∉
        Event.ClientGetPolicy :: Event.PolicyconditionsReset :: t ++
          (reconcileSelected env inst prev s1).trace := by
      intro h
      simp only [List.mem_append, List.mem_cons, List.not_mem_nil, or_false, or_assoc] at h
      rcases h with h | h | h | h
      · cases h
      · cases h
      · exact not_mem_of_class htr Event.PolicyconditionsUpdate rfl h
      · exact not_mem_of_class (reconcileSelected_trace env inst prev s1)
          Event.PolicyconditionsUpdate rfl h
    rw [Reconcile_eq_selected env s s1 inst prev t hget hinit]
    refine ⟨⟨_, rfl, hbody⟩, ?_⟩
    show List.count Event.PolicyconditionsUpdate
      (Event.ClientGetPolicy :: Event.PolicyconditionsReset :: t ++
        (reconcileSelected env inst prev s1).trace ++ [Event.PolicyconditionsUpdate]) = 1
    rw [List.count_append, List.count_eq_zero_of_not_mem hbody]
    rfl
  · intro err s1 t hinit
    have htr := initializeEnactment_trace_initializing env inst s
    rw [hinit] at htr
    have hrec : Reconcile env s =
        { result := {}, err := some err, store := s1,
          trace := Event.ClientGetPolicy :: Event.PolicyconditionsReset :: t } := by
      unfold Reconcile
      simp only [hget, hinit]
    rw [hrec]
    refine ⟨?_, rfl⟩
    intro h
    simp only [List.mem_cons] at h
    rcases h with h | h | h
    · cases h
    · cases h
    · exact not_mem_of_class htr Event.PolicyconditionsUpdate rfl h

/-- A successful run ends with the one `policyconditions.Update`; the run whose
initialisation fails has none. -/
theorem aggregator_runs_after_initialization_witness :
    (Reconcile (quietEnv 2 1000) (exampleStore 0 none [])).trace.count
      Event.PolicyconditionsUpdate = 1 ∧
    Event.PolicyconditionsUpdate ∉
      (Reconcile (brokenDefaultsEnv 2 1000) (exampleStore 0 none [])).trace :=
  ⟨((aggregator_runs_after_initialization (quietEnv 2 1000) (exampleStore 0 none [])
      (examplePolicy 0 none) rfl).1 []
      { exampleStore 0 none [] with
        enactment := some ⟨"node01.policy1", "interfaces: []", 1, []⟩ }
      [Event.EnactmentconditionsReset, Event.EnactmentstatusUpdate "interfaces: []" 1]
      rfl).2,
   ((aggregator_runs_after_initialization (brokenDefaultsEnv 2 1000) (exampleStore 0 none [])
      (examplePolicy 0 none) rfl).2
      (Wrap (Errorf "yaml: invalid document") "error applying defaults to policy desiredState")
      (exampleStore 0 none []) [] rfl).1⟩

/-! ## The reset of the conditions -/

/-- C22, as stated, fails: the enactment `node01.policy1` records generation 1 and
holds the conditions of a successful apply; `policy1` is still at generation 1;
`initializeEnactment` resets the conditions all the same. -/
theorem same_generation_conditions_reset :
    (examplePolicy 0 none).generation = 1 ∧
    (exampleStore 0 none successConditions).enactment =
      some ⟨"node01.policy1", "interfaces: []", 1, successConditions⟩ ∧
    initializeEnactment (quietEnv 2 1000) (examplePolicy 0 none)
        (exampleStore 0 none successConditions) =
      (Except.ok successConditions,
        exampleStore 0 none [],
        [Event.EnactmentconditionsReset, Event.EnactmentstatusUpdate "interfaces: []" 1]) :=
  ⟨rfl, rfl, rfl⟩

/-- C22, amended: when the enactment already exists, `initializeEnactment` resets its
conditions on every run, whatever policy generation the enactment records, and then
records the policy's generation on it; the conditions it returns are the ones read
before the reset. -/
theorem existing_enactment_always_reset (env : Env) (p : Policy) (s : Store) (e : Enactment)
    (d : State) (he : s.enactment = some e) (hfault : env.faultGetEnactment = none)
    (hvlan : env.ApplyDefaultVlanFiltering p.desiredState = Except.ok d) :
    Event.EnactmentconditionsReset ∈ (initializeEnactment env p s).2.2 ∧
    (∃ e1, (initializeEnactment env p s).2.1.enactment = some e1 ∧ e1.conditions = []) ∧
    (env.faultEnactmentstatusUpdate = none →
      initializeEnactment env p s =
        (Except.ok e.conditions,
          { s with enactment := some ⟨e.name, d, p.generation, []⟩ },
          [Event.EnactmentconditionsReset, Event.EnactmentstatusUpdate d p.generation])) := by
  unfold initializeEnactment
  simp only [hvlan, clientGetEnactment, hfault, he, Option.map_some']
  cases hf : env.faultEnactmentstatusUpdate with
  | some err =>
    simp only
    exact ⟨by simp, ⟨_, rfl, rfl⟩, fun h => by cases h⟩
  | none =>
    simp only
    exact ⟨by simp, ⟨_, rfl, rfl⟩, fun _ => rfl⟩

/-- The enactment of the counterexample, at the generation it already records: the
stored conditions are empty after `initializeEnactment`. -/
theorem existing_enactment_always_reset_witness :
    initializeEnactment (quietEnv 2 1000) (examplePolicy 0 none)
        (exampleStore 0 none successConditions) =
      (Except.ok successConditions,
        { exampleStore 0 none successConditions with
          enactment := some ⟨"node01.policy1", "interfaces: []", 1, []⟩ },
        [Event.EnactmentconditionsReset, Event.EnactmentstatusUpdate "interfaces: []" 1]) :=
  (existing_enactment_always_reset (quietEnv 2 1000) (examplePolicy 0 none)
    (exampleStore 0 none successConditions)
    ⟨"node01.policy1", "interfaces: []", 1, successConditions⟩ "interfaces: []"
    rfl rfl rfl).2.2 rfl

/-! ## The decrement of a run that did not increment -/

/-- C30: in a Reconcile run that reaches the apply step while
`shouldIncrementUnavailableNodeCount` is false, no increment is invoked, and when the
count stored after the apply is `c > 0` and the store accepts the write, the deferred
`decrementUnavailableNodeCount` writes `c - 1`: the run returns with the count lowered
by one. -/
theorem unpaired_decrement (env : Env) (s s1 : Store) (inst : Policy)
    (prev : ConditionList) (t : List Event) (en : Enactment) (n : Int) (p stored : Policy)
    (hget : clientGetPolicy env.faultGetPolicy s = Except.ok inst)
    (hinit : initializeEnactment env inst s = (Except.ok prev, s1, t))
    (hsel : (UnmatchedNodeLabels env inst s1).1 = [])
    (hen : enactmentForPolicy env inst s1 = Except.ok en)
    (hcount : env.CountByPolicyFailed = Except.ok n) (hn : ¬ n > 0)
    (hshould : shouldIncrementUnavailableNodeCount env inst prev = false)
    (hp : (env.duringApply s1).policy = some p)
    (hpos : 0 < p.status.unavailableNodeCount) (hint : p.status.unavailableNodeCount ≤ maxInt)
    (hf3 : env.faultDecGet 0 = none) (hf4 : env.faultDecUpdate 0 = none)
    (hstored : (env.beforeDecUpdate 0 (reconcileApply env en s1).store).policy = some stored)
    (hrv : stored.resourceVersion = p.resourceVersion) :
    (∀ r, Event.IncrementUnavailableNodeCount r ∉ (Reconcile env s).trace) ∧
    Event.ClientStatusUpdatePolicy
        { unavailableNodeCount := p.status.unavailableNodeCount - 1,
          lastUnavailableNodeCountUpdate := some (env.nowDec 0) } p.resourceVersion true ∈
      (Reconcile env s).trace ∧
    (Reconcile env s).store.policy = some { stored with
      status := { unavailableNodeCount := p.status.unavailableNodeCount - 1,
                  lastUnavailableNodeCountUpdate := some (env.nowDec 0) },
      resourceVersion := stored.resourceVersion + 1 } := by
  have hpol : (reconcileApply env en s1).store.policy = some p := by
    rw [reconcileApply_policy]; exact hp
  have hprep := decrementPrepare_positive env 0 (reconcileApply env en s1).store p hf3 hpol hpos
  have hw := wrapInt_of_inRange (p.status.unavailableNodeCount - 1)
    (by unfold minInt; omega) (by omega)
  rw [hw] at hprep
  have hacc := clientStatusUpdatePolicy_accepted
    (env.beforeDecUpdate 0 (reconcileApply env en s1).store) stored
    { p with status :=
      { lastUnavailableNodeCountUpdate := some (env.nowDec 0),
        unavailableNodeCount := p.status.unavailableNodeCount - 1 } } hstored hrv
  rw [← hf4] at hacc
  have hdec := decrementUnavailableNodeCount_first_attempt env _ _ _ hprep hacc
  have htr := initializeEnactment_trace env inst s
  rw [hinit] at htr
  rw [Reconcile_eq_selected env s s1 inst prev t hget hinit,
    reconcileSelected_admitted env inst prev s1 en n hsel hen hcount hn,
    reconcileAdmit_not_eligible env inst prev en s1 hshould]
  simp only [deferDecrement, hdec]
  refine ⟨?_, by simp, trivial⟩
  intro r hmem
  simp only [List.mem_append, List.mem_cons, List.mem_singleton, List.not_mem_nil,
    or_false, or_assoc] at hmem
  rcases hmem with h | h | h | h | h | h | h | h | h | h
  · cases h
  · cases h
  · exact not_mem_of_class htr (Event.IncrementUnavailableNodeCount r) rfl h
  · exact not_mem_of_class (selectorFailureEvents_early _)
      (Event.IncrementUnavailableNodeCount r) rfl h
  · cases h
  · exact not_mem_of_class (reconcileApply_trace env en s1)
      (Event.IncrementUnavailableNodeCount r) rfl h
  · cases h
  · cases h
  · cases h
  · cases h

/-- A run that finds its enactment Progressing and the count at 1: it invokes no
increment and returns with the count at 0. -/
theorem unpaired_decrement_witness :
    (∀ r, Event.IncrementUnavailableNodeCount r ∉
      (Reconcile (quietEnv 2 (1000 * Second))
        (exampleStore 1 (some (990 * Second)) progressingConditions)).trace) ∧
    (Reconcile (quietEnv 2 (1000 * Second))
        (exampleStore 1 (some (990 * Second)) progressingConditions)).store.policy =
      some { examplePolicy 1 (some (990 * Second)) with
        status := { unavailableNodeCount := 1 - 1,
                    lastUnavailableNodeCountUpdate := some (1000 * Second + 30 * Second) },
        resourceVersion := 7 + 1 } := by
  have h := unpaired_decrement (quietEnv 2 (1000 * Second))
    (exampleStore 1 (some (990 * Second)) progressingConditions)
    { exampleStore 1 (some (990 * Second)) progressingConditions with
      enactment := some ⟨"node01.policy1", "interfaces: []", 1, []⟩ }
    (examplePolicy 1 (some (990 * Second))) progressingConditions
    [Event.EnactmentconditionsReset, Event.EnactmentstatusUpdate "interfaces: []" 1]
    ⟨"node01.policy1", "interfaces: []", 1, []⟩ 0
    (examplePolicy 1 (some (990 * Second))) (examplePolicy 1 (some (990 * Second)))
    rfl rfl rfl rfl rfl (by decide) (by decide) rfl (by decide) (by decide) rfl rfl rfl rfl
  exact ⟨h.1, h.2.2⟩

/-! ## The conditions package against its test table -/

/-- The model of `Count` and of the setters gives the expected count on each of the
sixteen entries of the table of `counter_test.go`. -/
theorem Count_agrees_with_counter_test :
    ∀ entry ∈ counterTestTable, Count entry.1 entry.2.1 = entry.2.2 := by
  decide

/-! ## The setters -/

theorem ConditionList.Find_Set_same (l : ConditionList) (t : ConditionType)
    (status : ConditionStatus) (reason message : String) :
    ConditionList.Find (ConditionList.Set l t status reason message) t =
      some ⟨t, status, reason, message⟩ := by
  induction l with
  | nil => simp [ConditionList.Set, ConditionList.Find]
  | cons c rest ih =>
    unfold ConditionList.Set
    by_cases hc : (c.type == t) = true
    · simp [hc, ConditionList.Find]
    · simp only [Bool.not_eq_true] at hc
      simp only [hc, Bool.false_eq_true, if_false]
      simp only [ConditionList.Find] at ih ⊢
      rw [List.find?_cons, hc]
      exact ih

theorem ConditionList.Find_Set_other (l : ConditionList) (t other : ConditionType)
    (status : ConditionStatus) (reason message : String) (h : other ≠ t) :
    ConditionList.Find (ConditionList.Set l t status reason message) other =
      ConditionList.Find l other := by
  induction l with
  | nil =>
    simp only [ConditionList.Set, ConditionList.Find, List.find?_cons, List.find?_nil]
    have : (t == other) = false := by simpa using fun hh => h hh.symm
    simp [this]
  | cons c rest ih =>
    unfold ConditionList.Set
    by_cases hc : (c.type == t) = true
    · have hct : c.type = t := by simpa using hc
      have h1 : (t == other) = false := by simpa using fun hh => h hh.symm
      have h2 : (c.type == other) = false := by rw [hct]; exact h1
      simp only [hc, if_true, ConditionList.Find, List.find?_cons, h1, h2]
    · simp only [Bool.not_eq_true] at hc
      simp only [hc, Bool.false_eq_true, if_false]
      simp only [ConditionList.Find] at ih ⊢
      rw [List.find?_cons, List.find?_cons, ih]

theorem ConditionList.statusOf_Set_same (l : ConditionList) (t : ConditionType)
    (status : ConditionStatus) (reason message : String) :
    ConditionList.statusOf (ConditionList.Set l t status reason message) t = some status := by
  simp [ConditionList.statusOf, ConditionList.Find_Set_same]

theorem ConditionList.statusOf_Set_other (l : ConditionList) (t other : ConditionType)
    (status : ConditionStatus) (reason message : String) (h : other ≠ t) :
    ConditionList.statusOf (ConditionList.Set l t status reason message) other =
      ConditionList.statusOf l other := by
  simp [ConditionList.statusOf, ConditionList.Find_Set_other _ _ _ _ _ _ h]

/-- The six statuses a row of the setter table leaves, whatever the list held. -/
theorem statusOf_setVector (l : ConditionList) (reason message : String)
    (matching pending progressing available failing aborted : ConditionStatus) :
    let r := setVector l reason message matching pending progressing available failing aborted
    ConditionList.statusOf r ConditionType.Matching = some matching ∧
    ConditionList.statusOf r ConditionType.Pending = some pending ∧
    ConditionList.statusOf r ConditionType.Progressing = some progressing ∧
    ConditionList.statusOf r ConditionType.Available = some available ∧
    ConditionList.statusOf r ConditionType.Failing = some failing ∧
    ConditionList.statusOf r ConditionType.Aborted = some aborted := by
  intro r
  refine ⟨?_, ?_, ?_, ?_, ?_, ?_⟩ <;>
    simp only [r, setVector] <;>
    repeat (first
      | rw [ConditionList.statusOf_Set_same]
      | rw [ConditionList.statusOf_Set_other _ _ _ _ _ _ (by decide)])

/-- C23: each of the five per-reason setters, applied to any condition list with any
message, leaves the five counted conditions at the full vector of its row of the
table; hence no list produced by one of them has Progressing and Failing both True,
and at most one of the five counted conditions is True. -/
theorem setters_write_full_vector (l : ConditionList) (message : String) :
    (ConditionList.statusOf (SetPending l message) ConditionType.Pending =
        some ConditionStatus.True ∧
      ConditionList.statusOf (SetPending l message) ConditionType.Progressing =
        some ConditionStatus.False ∧
      ConditionList.statusOf (SetPending l message) ConditionType.Available =
        some ConditionStatus.False ∧
      ConditionList.statusOf (SetPending l message) ConditionType.Failing =
        some ConditionStatus.False ∧
      ConditionList.statusOf (SetPending l message) ConditionType.Aborted =
        some ConditionStatus.False) ∧
    (ConditionList.statusOf (SetProgressing l message) ConditionType.Progressing =
        some ConditionStatus.True ∧
      ConditionList.statusOf (SetProgressing l message) ConditionType.Available =
        some ConditionStatus.Unknown ∧
      ConditionList.statusOf (SetProgressing l message) ConditionType.Failing =
        some ConditionStatus.Unknown ∧
      ConditionList.statusOf (SetProgressing l message) ConditionType.Pending =
        some ConditionStatus.False ∧
      ConditionList.statusOf (SetProgressing l message) ConditionType.Aborted =
        some ConditionStatus.False) ∧
    (ConditionList.statusOf (SetSuccess l message) ConditionType.Available =
        some ConditionStatus.True ∧
      ConditionList.statusOf (SetSuccess l message) ConditionType.Failing =
        some ConditionStatus.False ∧
      ConditionList.statusOf (SetSuccess l message) ConditionType.Progressing =
        some ConditionStatus.False ∧
      ConditionList.statusOf (SetSuccess l message) ConditionType.Pending =
        some ConditionStatus.False ∧
      ConditionList.statusOf (SetSuccess l message) ConditionType.Aborted =
        some ConditionStatus.False) ∧
    (ConditionList.statusOf (SetFailedToConfigure l message) ConditionType.Failing =
        some ConditionStatus.True ∧
      ConditionList.statusOf (SetFailedToConfigure l message) ConditionType.Available =
        some ConditionStatus.False ∧
      ConditionList.statusOf (SetFailedToConfigure l message) ConditionType.Progressing =
        some ConditionStatus.False ∧
      ConditionList.statusOf (SetFailedToConfigure l message) ConditionType.Pending =
        some ConditionStatus.False ∧
      ConditionList.statusOf (SetFailedToConfigure l message) ConditionType.Aborted =
        some ConditionStatus.False) ∧
    (ConditionList.statusOf (SetConfigurationAborted l message) ConditionType.Aborted =
        some ConditionStatus.True ∧
      ConditionList.statusOf (SetConfigurationAborted l message) ConditionType.Available =
        some ConditionStatus.False ∧
      ConditionList.statusOf (SetConfigurationAborted l message) ConditionType.Failing =
        some ConditionStatus.False ∧
      ConditionList.statusOf (SetConfigurationAborted l message) ConditionType.Progressing =
        some ConditionStatus.False ∧
      ConditionList.statusOf (SetConfigurationAborted l message) ConditionType.Pending =
        some ConditionStatus.False) ∧
    (∀ setter ∈ perReasonSetters,
      ¬ (ConditionList.statusOf (setter l message) ConditionType.Progressing =
            some ConditionStatus.True ∧
          ConditionList.statusOf (setter l message) ConditionType.Failing =
            some ConditionStatus.True) ∧
      (countedVector (setter l message)).count (some ConditionStatus.True) ≤ 1) := by
  have hP := statusOf_setVector l "MaxUnavailableLimitReached" message
    ConditionStatus.True ConditionStatus.True ConditionStatus.False ConditionStatus.False
    ConditionStatus.False ConditionStatus.False
  have hG := statusOf_setVector l "ConfigurationProgressing" message
    ConditionStatus.True ConditionStatus.False ConditionStatus.True ConditionStatus.Unknown
    ConditionStatus.Unknown ConditionStatus.False
  have hS := statusOf_setVector l "SuccessfullyConfigured" message
    ConditionStatus.True ConditionStatus.False ConditionStatus.False ConditionStatus.True
    ConditionStatus.False ConditionStatus.False
  have hF := statusOf_setVector l "FailedToConfigure" message
    ConditionStatus.True ConditionStatus.False ConditionStatus.False ConditionStatus.False
    ConditionStatus.True ConditionStatus.False
  have hA := statusOf_setVector l "ConfigurationAborted" message
    ConditionStatus.True ConditionStatus.False ConditionStatus.False ConditionStatus.False
    ConditionStatus.False ConditionStatus.True
  simp only at hP hG hS hF hA
  obtain ⟨-, hP1, hP2, hP3, hP4, hP5⟩ := hP
  obtain ⟨-, hG1, hG2, hG3, hG4, hG5⟩ := hG
  obtain ⟨-, hS1, hS2, hS3, hS4, hS5⟩ := hS
  obtain ⟨-, hF1, hF2, hF3, hF4, hF5⟩ := hF
  obtain ⟨-, hA1, hA2, hA3, hA4, hA5⟩ := hA
  refine ⟨⟨hP1, hP2, hP3, hP4, hP5⟩, ⟨hG2, hG3, hG4, hG1, hG5⟩, ⟨hS3, hS4, hS2, hS1, hS5⟩,
    ⟨hF4, hF3, hF2, hF1, hF5⟩, ⟨hA5, hA3, hA4, hA2, hA1⟩, ?_⟩
  intro setter hs
  simp only [perReasonSetters, List.mem_cons, List.mem_singleton, List.not_mem_nil,
    or_false] at hs
  rcases hs with h | h | h | h | h <;> subst h
  · simp only [SetPending, countedVector, NodeNetworkConfigurationEnactmentConditionTypes,
      List.map] at *
    rw [hP1, hP2, hP3, hP4, hP5]; decide
  · simp only [SetProgressing, countedVector, NodeNetworkConfigurationEnactmentConditionTypes,
      List.map] at *
    rw [hG1, hG2, hG3, hG4, hG5]; decide
  · simp only [SetSuccess, countedVector, NodeNetworkConfigurationEnactmentConditionTypes,
      List.map] at *
    rw [hS1, hS2, hS3, hS4, hS5]; decide
  · simp only [SetFailedToConfigure, countedVector,
      NodeNetworkConfigurationEnactmentConditionTypes, List.map] at *
    rw [hF1, hF2, hF3, hF4, hF5]; decide
  · simp only [SetConfigurationAborted, countedVector,
      NodeNetworkConfigurationEnactmentConditionTypes, List.map] at *
    rw [hA1, hA2, hA3, hA4, hA5]; decide

theorem setters_write_full_vector_witness :
    ConditionList.statusOf (SetProgressing successConditions "") ConditionType.Available =
      some ConditionStatus.Unknown :=
  (setters_write_full_vector successConditions "").2.1.2.1

/-! ## The counter -/

theorem CountByConditionStatus.get_incr (c : CountByConditionStatus)
    (added status : ConditionStatus) :
    (c.incr added).get status = c.get status + (if added = status then 1 else 0) := by
  cases added <;> cases status <;> simp [CountByConditionStatus.incr, CountByConditionStatus.get]

theorem foldl_incr_get {α : Type} (f : α → ConditionStatus) (l : List α)
    (init : CountByConditionStatus) (status : ConditionStatus) :
    (l.foldl (fun acc a => acc.incr (f a)) init).get status =
      init.get status + l.countP (fun a => f a == status) := by
  induction l generalizing init with
  | nil => simp
  | cons a rest ih =>
    rw [List.foldl_cons, ih, CountByConditionStatus.get_incr, List.countP_cons]
    by_cases h : f a = status
    · simp [h]; omega
    · simp [h]

/-- The count of `Count` for a counted type and a status: the number of enactments
whose counted status for the type is that status. -/
theorem Count_get (enactments : List Enactment) (policyGeneration : Int)
    (conditionType : ConditionType)
    (hT : conditionType ∈ NodeNetworkConfigurationEnactmentConditionTypes)
    (status : ConditionStatus) :
    (Count enactments policyGeneration).get conditionType status =
      enactments.countP (fun e => countedStatus e policyGeneration conditionType == status) := by
  have hfold := foldl_incr_get (fun e => countedStatus e policyGeneration conditionType)
    enactments ⟨0, 0, 0⟩ status
  have hzero : (⟨0, 0, 0⟩ : CountByConditionStatus).get status = 0 := by
    cases status <;> rfl
  rw [hzero, Nat.zero_add] at hfold
  simp only [NodeNetworkConfigurationEnactmentConditionTypes, List.mem_cons,
    List.mem_singleton, List.not_mem_nil, or_false] at hT
  rcases hT with h | h | h | h | h <;> subst h <;>
    simp only [ConditionCount.get, Count, NodeNetworkConfigurationEnactmentConditionTypes,
      List.map, List.lookup] <;> exact hfold

/-- The count of `Count` with one more enactment anywhere in the list. -/
theorem Count_get_insert (pre post : List Enactment) (e : Enactment) (policyGeneration : Int)
    (conditionType : ConditionType)
    (hT : conditionType ∈ NodeNetworkConfigurationEnactmentConditionTypes)
    (status : ConditionStatus) :
    (Count (pre ++ e :: post) policyGeneration).get conditionType status =
      (Count (pre ++ post) policyGeneration).get conditionType status +
        (if countedStatus e policyGeneration conditionType = status then 1 else 0) := by
  rw [Count_get _ _ _ hT, Count_get _ _ _ hT, List.countP_append, List.countP_append,
    List.countP_cons]
  by_cases h : countedStatus e policyGeneration conditionType = status
  · simp [h]; omega
  · simp [h]

theorem countP_three_statuses {α : Type} (f : α → ConditionStatus) (l : List α) :
    l.countP (fun a => f a == ConditionStatus.True) +
      l.countP (fun a => f a == ConditionStatus.False) +
      l.countP (fun a => f a == ConditionStatus.Unknown) = l.length := by
  induction l with
  | nil => simp
  | cons a rest ih =>
    simp only [List.countP_cons, List.length_cons]
    cases h : f a <;> simp <;> omega

theorem countedStatus_stale (e : Enactment) (policyGeneration : Int)
    (conditionType : ConditionType) (hstale : e.policyGeneration ≠ policyGeneration) :
    countedStatus e policyGeneration conditionType = ConditionStatus.Unknown := by
  unfold countedStatus
  cases ConditionList.Find e.conditions conditionType <;> simp [hstale]

/-- C25 (counterexample): the entry "p(2), e(1,Pending), e(2,Pending)" of the table of
`counter_test.go`. The enactment of generation 1 is stale for generation 2 and carries
Pending=True and Aborted=False; it is counted as Unknown on Pending and on Aborted (no
False is counted for it on either), as the table expects, whereas the count in the
words of the claim differs from the table's. -/
theorem stale_pending_counted_unknown :
    (testEnactment 1 [SetPending]).policyGeneration ≠ 2 ∧
    ConditionList.statusOf (testEnactment 1 [SetPending]).conditions ConditionType.Pending =
      some ConditionStatus.True ∧
    ConditionList.statusOf (testEnactment 1 [SetPending]).conditions ConditionType.Aborted =
      some ConditionStatus.False ∧
    (Count [testEnactment 1 [SetPending]] 2).get ConditionType.Pending ConditionStatus.False = 0 ∧
    (Count [testEnactment 1 [SetPending]] 2).get ConditionType.Pending ConditionStatus.Unknown = 1 ∧
    (Count [testEnactment 1 [SetPending]] 2).get ConditionType.Aborted ConditionStatus.False = 0 ∧
    (Count [testEnactment 1 [SetPending]] 2).get ConditionType.Aborted ConditionStatus.Unknown = 1 ∧
    ([testEnactment 1 [SetPending], testEnactment 2 [SetPending]], 2,
      Count [testEnactment 1 [SetPending], testEnactment 2 [SetPending]] 2) ∈ counterTestTable ∧
    (Count [testEnactment 1 [SetPending], testEnactment 2 [SetPending]] 2).lookup
      ConditionType.Pending = some ⟨1, 0, 1⟩ ∧
    (CountAsSpecified [testEnactment 1 [SetPending], testEnactment 2 [SetPending]] 2).lookup
      ConditionType.Pending = some ⟨1, 1, 0⟩ := by
  refine ⟨by decide, by decide, by decide, by decide, by decide, by decide, by decide,
    by decide, by decide, by decide⟩

/-- C25 (amended): an enactment whose generation is not the policy's is counted by
`Count` as Unknown on each of the five counted types, Pending and Aborted included,
whatever conditions it carries: with it in the list the Unknown count of the type is
one more and the True and False counts are the same. -/
theorem stale_enactment_counted_unknown (pre post : List Enactment) (e : Enactment)
    (policyGeneration : Int) (conditionType : ConditionType)
    (hT : conditionType ∈ NodeNetworkConfigurationEnactmentConditionTypes)
    (hstale : e.policyGeneration ≠ policyGeneration) :
    (Count (pre ++ e :: post) policyGeneration).get conditionType ConditionStatus.Unknown =
      (Count (pre ++ post) policyGeneration).get conditionType ConditionStatus.Unknown + 1 ∧
    (Count (pre ++ e :: post) policyGeneration).get conditionType ConditionStatus.True =
      (Count (pre ++ post) policyGeneration).get conditionType ConditionStatus.True ∧
    (Count (pre ++ e :: post) policyGeneration).get conditionType ConditionStatus.False =
      (Count (pre ++ post) policyGeneration).get conditionType ConditionStatus.False := by
  have hu := countedStatus_stale e policyGeneration conditionType hstale
  refine ⟨?_, ?_, ?_⟩ <;> rw [Count_get_insert _ _ _ _ _ hT, hu] <;> simp

theorem stale_enactment_counted_unknown_witness :
    (Count ([] ++ testEnactment 1 [SetPending] :: [testEnactment 2 [SetPending]]) 2).get
        ConditionType.Pending ConditionStatus.Unknown =
      (Count ([] ++ [testEnactment 2 [SetPending]]) 2).get
        ConditionType.Pending ConditionStatus.Unknown + 1 ∧
    (Count ([] ++ testEnactment 1 [SetPending] :: [testEnactment 2 [SetPending]]) 2).get
        ConditionType.Pending ConditionStatus.True =
      (Count ([] ++ [testEnactment 2 [SetPending]]) 2).get
        ConditionType.Pending ConditionStatus.True ∧
    (Count ([] ++ testEnactment 1 [SetPending] :: [testEnactment 2 [SetPending]]) 2).get
        ConditionType.Pending ConditionStatus.False =
      (Count ([] ++ [testEnactment 2 [SetPending]]) 2).get
        ConditionType.Pending ConditionStatus.False :=
  stale_enactment_counted_unknown [] [testEnactment 2 [SetPending]] (testEnactment 1 [SetPending])
    2 ConditionType.Pending (by decide) (by decide)

/-- C26: for each of the five counted types the True, False and Unknown counts of
`Count` add up to the number of enactments; an enactment of the policy's generation
adds one to the bucket of the status of its condition of the type, and one to Unknown
when it carries no condition of the type; an enactment of an older generation adds
nothing to True on Available, Failing or Aborted. -/
theorem Count_totals (policyGeneration : Int) (conditionType : ConditionType)
    (hT : conditionType ∈ NodeNetworkConfigurationEnactmentConditionTypes) :
    (∀ enactments : List Enactment,
      (Count enactments policyGeneration).get conditionType ConditionStatus.True +
        (Count enactments policyGeneration).get conditionType ConditionStatus.False +
        (Count enactments policyGeneration).get conditionType ConditionStatus.Unknown =
          enactments.length) ∧
    (∀ (pre post : List Enactment) (e : Enactment) (c : Condition) (status : ConditionStatus),
      e.policyGeneration = policyGeneration →
      ConditionList.Find e.conditions conditionType = some c →
      (Count (pre ++ e :: post) policyGeneration).get conditionType status =
        (Count (pre ++ post) policyGeneration).get conditionType status +
          (if c.status = status then 1 else 0)) ∧
    (∀ (pre post : List Enactment) (e : Enactment) (status : ConditionStatus),
      e.policyGeneration = policyGeneration →
      ConditionList.Find e.conditions conditionType = none →
      (Count (pre ++ e :: post) policyGeneration).get conditionType status =
        (Count (pre ++ post) policyGeneration).get conditionType status +
          (if status = ConditionStatus.Unknown then 1 else 0)) ∧
    (∀ (pre post : List Enactment) (e : Enactment),
      e.policyGeneration < policyGeneration →
      (Count (pre ++ e :: post) policyGeneration).get conditionType ConditionStatus.True =
        (Count (pre ++ post) policyGeneration).get conditionType ConditionStatus.True) := by
  refine ⟨?_, ?_, ?_, ?_⟩
  · intro enactments
    rw [Count_get _ _ _ hT, Count_get _ _ _ hT, Count_get _ _ _ hT]
    exact countP_three_statuses _ _
  · intro pre post e c status hgen hfind
    rw [Count_get_insert _ _ _ _ _ hT]
    simp [countedStatus, hfind, hgen]
  · intro pre post e status hgen hfind
    rw [Count_get_insert _ _ _ _ _ hT]
    simp only [countedStatus, hfind]
    by_cases h : status = ConditionStatus.Unknown
    · simp [h]
    · have h2 : ¬ ConditionStatus.Unknown = status := fun hh => h hh.symm
      simp [h, h2]
  · intro pre post e hlt
    rw [Count_get_insert _ _ _ _ _ hT, countedStatus_stale e policyGeneration conditionType
      (by omega)]
    simp

theorem Count_totals_witness :
    (Count [testEnactment 1 [SetFailedToConfigure], testEnactment 2 [SetProgressing]] 2).get
        ConditionType.Failing ConditionStatus.True +
      (Count [testEnactment 1 [SetFailedToConfigure], testEnactment 2 [SetProgressing]] 2).get
        ConditionType.Failing ConditionStatus.False +
      (Count [testEnactment 1 [SetFailedToConfigure], testEnactment 2 [SetProgressing]] 2).get
        ConditionType.Failing ConditionStatus.Unknown = 2 ∧
    (Count ([] ++ testEnactment 1 [SetFailedToConfigure] :: [testEnactment 2 [SetProgressing]])
        2).get ConditionType.Failing ConditionStatus.True =
      (Count ([] ++ [testEnactment 2 [SetProgressing]]) 2).get
        ConditionType.Failing ConditionStatus.True :=
  ⟨(Count_totals 2 ConditionType.Failing (by decide)).1
      [testEnactment 1 [SetFailedToConfigure], testEnactment 2 [SetProgressing]],
    (Count_totals 2 ConditionType.Failing (by decide)).2.2.2 []
      [testEnactment 2 [SetProgressing]] (testEnactment 1 [SetFailedToConfigure]) (by decide)⟩

/-! ## The conditions along a successful apply -/

theorem reconcileApply_success (env : Env) (en : Enactment) (s : Store)
    (hengine : (env.ApplyDesiredState en.desiredState).2 = none) :
    reconcileApply env en s =
      { result := {}, err := none, store := (forceNNSRefresh env (env.duringApply s)).1,
        trace := [Event.NotifyProgressing, Event.ApplyDesiredState en.desiredState,
          Event.NotifySuccess] ++ (forceNNSRefresh env (env.duringApply s)).2 } := by
  unfold reconcileApply
  rcases h : env.ApplyDesiredState en.desiredState with ⟨out, _ | err⟩
  · rfl
  · rw [h] at hengine; cases hengine

theorem reconcileAdmit_success_trace (env : Env) (inst : Policy) (prev : ConditionList)
    (en : Enactment) (s : Store)
    (hadm : shouldIncrementUnavailableNodeCount env inst prev = true →
      (incrementUnavailableNodeCount env (env.beforeIncGet s)).1 = none)
    (hengine : (env.ApplyDesiredState en.desiredState).2 = none) :
    (reconcileAdmit env inst prev en s).trace =
      admissionEvents env inst prev s ++
        (Event.NotifyProgressing :: Event.ApplyDesiredState en.desiredState ::
          Event.NotifySuccess ::
          ((forceNNSRefresh env (env.duringApply (admittedStore env inst prev s))).2 ++
            Event.DecrementUnavailableNodeCount ::
              (decrementUnavailableNodeCount env
                (forceNNSRefresh env (env.duringApply (admittedStore env inst prev s))).1).2)) := by
  unfold reconcileAdmit admittedStore admissionEvents
  by_cases hs : shouldIncrementUnavailableNodeCount env inst prev = true
  · have hnone := hadm hs
    rcases hinc : incrementUnavailableNodeCount env (env.beforeIncGet s) with ⟨r, s2, t⟩
    rw [hinc] at hnone
    simp only at hnone
    subst hnone
    simp only [hs, if_true, deferDecrement, reconcileApply_success env en s2 hengine]
    simp
  · simp only [Bool.not_eq_true] at hs
    simp only [hs, Bool.false_eq_true, if_false, deferDecrement,
      reconcileApply_success env en s hengine]
    simp

theorem admissionEvents_class (env : Env) (inst : Policy) (prev : ConditionList) (s : Store) :
    ∀ e ∈ admissionEvents env inst prev s,
      e = Event.IncrementUnavailableNodeCount none ∨ e.gateCall = true := by
  intro e he
  unfold admissionEvents at he
  by_cases hs : shouldIncrementUnavailableNodeCount env inst prev = true
  · simp only [hs, if_true, List.mem_cons] at he
    rcases he with h | h
    · exact Or.inl h
    · exact Or.inr (incrementUnavailableNodeCount_trace env _ e h)
  · simp only [Bool.not_eq_true] at hs
    simp [hs] at he

theorem conditionsAfter_append (l : ConditionList) (a b : List Event) :
    conditionsAfter l (a ++ b) = conditionsAfter (conditionsAfter l a) b := by
  simp [conditionsAfter, List.foldl_append]

theorem conditionsAfter_cons (l : ConditionList) (e : Event) (b : List Event) :
    conditionsAfter l (e :: b) = conditionsAfter (notifyConditions l e) b := rfl

theorem conditionsAfter_unchanged (l : ConditionList) (tr : List Event)
    (h : ∀ e ∈ tr, ∀ c, notifyConditions c e = c) : conditionsAfter l tr = l := by
  induction tr generalizing l with
  | nil => rfl
  | cons e rest ih =>
    rw [conditionsAfter_cons, h e (List.mem_cons_self _ _)]
    exact ih l (fun e he => h e (List.mem_cons_of_mem _ he))

theorem notifyConditions_gateCall (e : Event) (h : e.gateCall = true) (c : ConditionList) :
    notifyConditions c e = c := by
  cases e <;> first | rfl | simp [Event.gateCall] at h

theorem notifyConditions_isNNSUpdate (e : Event) (h : e.isNNSUpdate = true)
    (c : ConditionList) : notifyConditions c e = c := by
  cases e <;> first | rfl | simp [Event.isNNSUpdate] at h

theorem filter_eq_nil_of_class {l : List Event} {f : Event → Bool}
    (h : ∀ e ∈ l, f e = false) : l.filter f = [] := by
  rw [List.filter_eq_nil_iff]
  intro e he
  simp [h e he]

theorem isNotification_of_gateCall (e : Event) (h : e.gateCall = true) :
    e.isNotification = false := by
  cases e <;> first | rfl | simp [Event.gateCall] at h

theorem isNotification_of_initializing (e : Event) (h : e.initializing = true) :
    e.isNotification = false := by
  cases e <;> first | rfl | simp [Event.initializing] at h

theorem isNotification_of_isNNSUpdate (e : Event) (h : e.isNNSUpdate = true) :
    e.isNotification = false := by
  cases e <;> first | rfl | simp [Event.isNNSUpdate] at h

theorem isNNSUpdate_of_gateCall (e : Event) (h : e.gateCall = true) :
    e.isNNSUpdate = false := by
  cases e <;> first | rfl | simp [Event.gateCall] at h

theorem isNNSUpdate_of_initializing (e : Event) (h : e.initializing = true) :
    e.isNNSUpdate = false := by
  cases e <;> first | rfl | simp [Event.initializing] at h

theorem forceNNSRefresh_isNNSUpdate (env : Env) (s : Store) :
    ∀ e ∈ (forceNNSRefresh env s).2, e.isNNSUpdate = true := by
  intro e he
  obtain ⟨b, hb⟩ := forceNNSRefresh_trace_nns env s e he
  subst hb; rfl

theorem forceNNSRefresh_writes (env : Env) (s : Store) (labels : List (String × String))
    (hget : env.faultNnsGet = none) (hupd : env.faultNnsUpdate = none)
    (hnns : s.nnsLabels = some labels) :
    (forceNNSRefresh env s).2 = [Event.ClientUpdateNNS true] := by
  simp [forceNNSRefresh, hget, hupd, hnns]

/-- The trace of a run that reaches the apply with the engine succeeding. -/
theorem Reconcile_success_trace (env : Env) (s s1 : Store) (inst : Policy)
    (prev : ConditionList) (t : List Event) (en : Enactment) (n : Int)
    (hget : clientGetPolicy env.faultGetPolicy s = Except.ok inst)
    (hinit : initializeEnactment env inst s = (Except.ok prev, s1, t))
    (hsel : UnmatchedNodeLabels env inst s1 = ([], none))
    (hen : enactmentForPolicy env inst s1 = Except.ok en)
    (hcount : env.CountByPolicyFailed = Except.ok n) (hn : ¬ n > 0)
    (hadm : shouldIncrementUnavailableNodeCount env inst prev = true →
      (incrementUnavailableNodeCount env (env.beforeIncGet s1)).1 = none)
    (hengine : (env.ApplyDesiredState en.desiredState).2 = none) :
    (Reconcile env s).trace =
      (Event.ClientGetPolicy :: Event.PolicyconditionsReset :: t ++
        Event.NotifyMatching :: admissionEvents env inst prev s1) ++
      Event.NotifyProgressing :: [Event.ApplyDesiredState en.desiredState] ++
      Event.NotifySuccess ::
        (forceNNSRefresh env (env.duringApply (admittedStore env inst prev s1))).2 ++
      (Event.DecrementUnavailableNodeCount ::
        (decrementUnavailableNodeCount env
          (forceNNSRefresh env (env.duringApply (admittedStore env inst prev s1))).1).2 ++
        [Event.PolicyconditionsUpdate]) := by
  rw [Reconcile_eq_selected env s s1 inst prev t hget hinit]
  have hsel1 : (UnmatchedNodeLabels env inst s1).1 = [] := by rw [hsel]
  rw [reconcileSelected_admitted env inst prev s1 en n hsel1 hen hcount hn]
  simp only [hsel, selectorFailureEvents, reconcileAdmit_success_trace env inst prev en s1 hadm
    hengine]
  simp

/-- C24: on a run that finds the policy and initialises the enactment, on a node whose
labels were read and all match, with no failing sibling, with the increment (when it
runs) admitted and the engine returning success, the notifications of the run are
exactly Matching, Progressing, Success in this order; after the Progressing
notification the conditions are Progressing=True, Available=Unknown, Failing=Unknown,
Matching=True and at the end of the run Progressing=False, Available=True,
Failing=False, Matching=True, whatever the enactment held before; and the refresh of
the NodeNetworkState comes right after the Success notification, no write of its label
happening anywhere else in the run. -/
theorem successful_apply_condition_sequence (env : Env) (s s1 : Store) (inst : Policy)
    (prev : ConditionList) (t : List Event) (en : Enactment) (n : Int)
    (hget : clientGetPolicy env.faultGetPolicy s = Except.ok inst)
    (hinit : initializeEnactment env inst s = (Except.ok prev, s1, t))
    (hsel : UnmatchedNodeLabels env inst s1 = ([], none))
    (hen : enactmentForPolicy env inst s1 = Except.ok en)
    (hcount : env.CountByPolicyFailed = Except.ok n) (hn : ¬ n > 0)
    (hadm : shouldIncrementUnavailableNodeCount env inst prev = true →
      (incrementUnavailableNodeCount env (env.beforeIncGet s1)).1 = none)
    (hengine : (env.ApplyDesiredState en.desiredState).2 = none) :
    (Reconcile env s).trace.filter Event.isNotification =
      [Event.NotifyMatching, Event.NotifyProgressing, Event.NotifySuccess] ∧
    ∃ before between after,
      (Reconcile env s).trace =
        before ++ Event.NotifyProgressing :: between ++ Event.NotifySuccess ::
          (forceNNSRefresh env (env.duringApply (admittedStore env inst prev s1))).2 ++ after ∧
      (∀ e ∈ before ++ between ++ after, e.isNNSUpdate = false) ∧
      (∀ labels, env.faultNnsGet = none → env.faultNnsUpdate = none →
        (env.duringApply (admittedStore env inst prev s1)).nnsLabels = some labels →
        (forceNNSRefresh env (env.duringApply (admittedStore env inst prev s1))).2 =
          [Event.ClientUpdateNNS true]) ∧
      (∀ l0 : ConditionList,
        [ConditionType.Progressing, ConditionType.Available, ConditionType.Failing,
            ConditionType.Matching].map
          (ConditionList.statusOf (conditionsAfter l0 (before ++ [Event.NotifyProgressing]))) =
        [some ConditionStatus.True, some ConditionStatus.Unknown, some ConditionStatus.Unknown,
          some ConditionStatus.True]) ∧
      (∀ l0 : ConditionList,
        [ConditionType.Progressing, ConditionType.Available, ConditionType.Failing,
            ConditionType.Matching].map
          (ConditionList.statusOf (conditionsAfter l0 (Reconcile env s).trace)) =
        [some ConditionStatus.False, some ConditionStatus.True, some ConditionStatus.False,
          some ConditionStatus.True]) := by
  have htrace := Reconcile_success_trace env s s1 inst prev t en n hget hinit hsel hen hcount hn
    hadm hengine
  have ht : ∀ e ∈ t, e.initializing = true := by
    have h := initializeEnactment_trace_initializing env inst s
    rw [hinit] at h
    exact h
  have hadmE := admissionEvents_class env inst prev s1
  have hnns := forceNNSRefresh_isNNSUpdate env (env.duringApply (admittedStore env inst prev s1))
  have hdec := decrementUnavailableNodeCount_trace env
    (forceNNSRefresh env (env.duringApply (admittedStore env inst prev s1))).1
  have hf1 : t.filter Event.isNotification = [] :=
    filter_eq_nil_of_class (fun e he => isNotification_of_initializing e (ht e he))
  have hf2 : (admissionEvents env inst prev s1).filter Event.isNotification = [] :=
    filter_eq_nil_of_class (fun e he => by
      rcases hadmE e he with h | h
      · subst h; rfl
      · exact isNotification_of_gateCall e h)
  have hf3 : (forceNNSRefresh env (env.duringApply (admittedStore env inst prev s1))).2.filter
      Event.isNotification = [] :=
    filter_eq_nil_of_class (fun e he => isNotification_of_isNNSUpdate e (hnns e he))
  have hf4 : (decrementUnavailableNodeCount env
      (forceNNSRefresh env (env.duringApply (admittedStore env inst prev s1))).1).2.filter
      Event.isNotification = [] :=
    filter_eq_nil_of_class (fun e he => isNotification_of_gateCall e (hdec e he))
  refine ⟨?_, _, _, _, htrace, ?_, ?_, ?_, ?_⟩
  · rw [htrace]
    simp only [List.filter_append, List.filter_cons, hf1, hf2, hf3, hf4, Event.isNotification,
      List.filter_nil]
    simp
  · intro e he
    simp only [List.mem_append, List.mem_cons, List.mem_singleton, List.not_mem_nil,
      or_false, or_assoc] at he
    rcases he with h | h | h | h | h | h | h | h | h
    · subst h; rfl
    · subst h; rfl
    · exact isNNSUpdate_of_initializing e (ht e h)
    · subst h; rfl
    · rcases hadmE e h with h1 | h1
      · subst h1; rfl
      · exact isNNSUpdate_of_gateCall e h1
    · subst h; rfl
    · subst h; rfl
    · exact isNNSUpdate_of_gateCall e (hdec e h)
    · subst h; rfl
  · intro labels h1 h2 h3
    exact forceNNSRefresh_writes env _ labels h1 h2 h3
  · intro l0
    rw [conditionsAfter_append]
    have hv := statusOf_setVector
      (conditionsAfter l0 (Event.ClientGetPolicy :: Event.PolicyconditionsReset :: t ++
        Event.NotifyMatching :: admissionEvents env inst prev s1))
      "ConfigurationProgressing" ""
      ConditionStatus.True ConditionStatus.False ConditionStatus.True ConditionStatus.Unknown
      ConditionStatus.Unknown ConditionStatus.False
    simp only at hv
    obtain ⟨h1, -, h3, h4, h5, -⟩ := hv
    simp only [conditionsAfter, List.foldl_cons, List.foldl_nil, notifyConditions,
      SetProgressing, List.map] at h1 h3 h4 h5 ⊢
    rw [h1, h3, h4, h5]
  · intro l0
    have hD : ∀ c, conditionsAfter c (Event.DecrementUnavailableNodeCount ::
        (decrementUnavailableNodeCount env
          (forceNNSRefresh env (env.duringApply (admittedStore env inst prev s1))).1).2 ++
        [Event.PolicyconditionsUpdate]) = c := by
      intro c
      apply conditionsAfter_unchanged
      intro e he c
      simp only [List.mem_append, List.mem_cons, List.mem_singleton, List.not_mem_nil,
        or_false, or_assoc] at he
      rcases he with h | h | h
      · subst h; rfl
      · exact notifyConditions_gateCall e (hdec e h) c
      · subst h; rfl
    have hF : ∀ c, conditionsAfter c
        (forceNNSRefresh env (env.duringApply (admittedStore env inst prev s1))).2 = c := by
      intro c
      apply conditionsAfter_unchanged
      intro e he c
      exact notifyConditions_isNNSUpdate e (hnns e he) c
    rw [htrace, conditionsAfter_append, hD, conditionsAfter_append,
      conditionsAfter_cons _ Event.NotifySuccess, hF]
    have hv := statusOf_setVector
      (conditionsAfter l0
        (Event.ClientGetPolicy :: Event.PolicyconditionsReset :: t ++
          Event.NotifyMatching :: admissionEvents env inst prev s1 ++
          Event.NotifyProgressing :: [Event.ApplyDesiredState en.desiredState]))
      "SuccessfullyConfigured" ""
      ConditionStatus.True ConditionStatus.False ConditionStatus.False ConditionStatus.True
      ConditionStatus.False ConditionStatus.False
    simp only at hv
    obtain ⟨h1, -, h3, h4, h5, -⟩ := hv
    simp only [notifyConditions, SetSuccess, List.map] at h1 h3 h4 h5 ⊢
    rw [h1, h3, h4, h5]

theorem successful_apply_condition_sequence_witness :
    (Reconcile (quietEnv 2 (1000 * Second))
        (exampleStore 0 none successConditions)).trace.filter Event.isNotification =
      [Event.NotifyMatching, Event.NotifyProgressing, Event.NotifySuccess] :=
  (successful_apply_condition_sequence (quietEnv 2 (1000 * Second))
    (exampleStore 0 none successConditions)
    { exampleStore 0 none successConditions with
      enactment := some ⟨"node01.policy1", "interfaces: []", 1, []⟩ }
    (examplePolicy 0 none) successConditions
    [Event.EnactmentconditionsReset, Event.EnactmentstatusUpdate "interfaces: []" 1]
    ⟨"node01.policy1", "interfaces: []", 1, []⟩ 0
    rfl rfl rfl rfl rfl (by decide) (fun _ => rfl) rfl).1

/-! ## The event filters -/

theorem lookup_isSome_iff_mem_keys (m : List (String × String)) (k : String) :
    (m.lookup k).isSome = true ↔ k ∈ mapKeys m := by
  unfold mapKeys
  rw [List.mem_dedup]
  induction m with
  | nil => simp
  | cons kv rest ih =>
    obtain ⟨a, b⟩ := kv
    by_cases h : k = a
    · subst h; simp [List.lookup]
    · have hb : (k == a) = false := by simpa using h
      simp only [List.lookup, hb, List.map_cons, List.mem_cons, h, false_or]
      exact ih

theorem mapKeys_nodup (m : List (String × String)) : (mapKeys m).Nodup :=
  List.nodup_dedup _

/-- The model of `reflect.DeepEqual` on two maps that are not nil decides whether the
two bind every key alike. -/
theorem DeepEqual_some_iff (a b : List (String × String)) :
    DeepEqual (some a) (some b) = true ↔ ∀ k, a.lookup k = b.lookup k := by
  simp only [DeepEqual, Bool.and_eq_true, beq_iff_eq, List.all_eq_true]
  constructor
  · rintro ⟨hlen, hall⟩
    have hsub : mapKeys a ⊆ mapKeys b := by
      intro k hk
      have h1 := (lookup_isSome_iff_mem_keys a k).2 hk
      rw [hall k hk] at h1
      exact (lookup_isSome_iff_mem_keys b k).1 h1
    have hperm : (mapKeys a).Perm (mapKeys b) :=
      (List.subperm_of_subset (mapKeys_nodup a) hsub).perm_of_length_le (by omega)
    intro k
    by_cases hk : k ∈ mapKeys a
    · exact hall k hk
    · have hkb : k ∉ mapKeys b := fun h => hk (hperm.mem_iff.2 h)
      have h1 : (a.lookup k).isSome = false :=
        Bool.eq_false_iff.2 (fun h => hk ((lookup_isSome_iff_mem_keys a k).1 h))
      have h2 : (b.lookup k).isSome = false :=
        Bool.eq_false_iff.2 (fun h => hkb ((lookup_isSome_iff_mem_keys b k).1 h))
      cases ha : a.lookup k with
      | some v => rw [ha] at h1; cases h1
      | none =>
        cases hb : b.lookup k with
        | some v => rw [hb] at h2; cases h2
        | none => rfl
  · intro h
    have hmem : ∀ k, k ∈ mapKeys a ↔ k ∈ mapKeys b := by
      intro k
      rw [← lookup_isSome_iff_mem_keys, ← lookup_isSome_iff_mem_keys, h k]
    refine ⟨?_, fun k _ => h k⟩
    exact ((List.perm_ext_iff_of_nodup (mapKeys_nodup a) (mapKeys_nodup b)).2 hmem).length_eq

theorem DeepEqual_iff (a b : LabelMap) : DeepEqual a b = true ↔ sameLabelMap a b := by
  cases a <;> cases b
  · simp [DeepEqual, sameLabelMap]
  · simp [DeepEqual, sameLabelMap]
  · simp [DeepEqual, sameLabelMap]
  · rw [DeepEqual_some_iff]; rfl

/-- C27: `onCreateOrUpdateWithDifferentGeneration` accepts every create event, rejects
every delete event, and accepts an update event exactly when the generation of the new
object differs from that of the old one; an update whose new object keeps the old
generation is rejected whatever else (name, labels, annotations, status) it changes. -/
theorem policy_filter_by_generation (createEvent : CreateEvent) (deleteEvent : DeleteEvent)
    (updateEvent : UpdateEvent) :
    onCreateOrUpdateWithDifferentGeneration.Create createEvent = true ∧
    onCreateOrUpdateWithDifferentGeneration.Delete deleteEvent = false ∧
    (onCreateOrUpdateWithDifferentGeneration.Update updateEvent = true ↔
      updateEvent.ObjectNew.generation ≠ updateEvent.ObjectOld.generation) ∧
    onCreateOrUpdateWithDifferentGeneration.Update
      ⟨updateEvent.ObjectOld,
        { updateEvent.ObjectNew with generation := updateEvent.ObjectOld.generation }⟩ =
      false := by
  refine ⟨rfl, rfl, ?_, ?_⟩
  · simp [Funcs.Update, onCreateOrUpdateWithDifferentGeneration]
  · simp [Funcs.Update, onCreateOrUpdateWithDifferentGeneration]

theorem policy_filter_by_generation_witness :
    onCreateOrUpdateWithDifferentGeneration.Update
      ⟨⟨"policy1", 1, none, none, "Progressing"⟩,
        { (⟨"policy1", 2, none, some [("note", "edited")], "Available"⟩ : Object) with
          generation := 1 }⟩ = false :=
  (policy_filter_by_generation ⟨⟨"policy1", 1, none, none, ""⟩⟩ ⟨⟨"policy1", 1, none, none, ""⟩⟩
    ⟨⟨"policy1", 1, none, none, "Progressing"⟩,
      ⟨"policy1", 2, none, some [("note", "edited")], "Available"⟩⟩).2.2.2

/-- C28: `onLabelsUpdatedForThisNode` rejects every create, delete and generic event,
and accepts an update event exactly when the old and the new label maps are not the
same map and the new object carries the name of the Handler's node; so it rejects an
update exactly when the labels are the same map or the new object is another node. -/
theorem node_filter_by_labels (nodeName : String) (createEvent : CreateEvent)
    (deleteEvent : DeleteEvent) (genericEvent : GenericEvent) (updateEvent : UpdateEvent) :
    (onLabelsUpdatedForThisNode nodeName).Create createEvent = false ∧
    (onLabelsUpdatedForThisNode nodeName).Delete deleteEvent = false ∧
    (onLabelsUpdatedForThisNode nodeName).Generic genericEvent = false ∧
    ((onLabelsUpdatedForThisNode nodeName).Update updateEvent = true ↔
      ¬ sameLabelMap updateEvent.ObjectOld.labels updateEvent.ObjectNew.labels ∧
        updateEvent.ObjectNew.name = nodeName) ∧
    ((onLabelsUpdatedForThisNode nodeName).Update updateEvent = false ↔
      sameLabelMap updateEvent.ObjectOld.labels updateEvent.ObjectNew.labels ∨
        updateEvent.ObjectNew.name ≠ nodeName) := by
  have hiff : (onLabelsUpdatedForThisNode nodeName).Update updateEvent = true ↔
      ¬ sameLabelMap updateEvent.ObjectOld.labels updateEvent.ObjectNew.labels ∧
        updateEvent.ObjectNew.name = nodeName := by
    rw [← DeepEqual_iff]
    simp [Funcs.Update, onLabelsUpdatedForThisNode, EventIsForThisNode]
  refine ⟨rfl, rfl, rfl, hiff, ?_⟩
  rw [← Bool.not_eq_true, hiff]
  by_cases h : sameLabelMap updateEvent.ObjectOld.labels updateEvent.ObjectNew.labels <;>
    simp [h]

theorem node_filter_by_labels_witness :
    (onLabelsUpdatedForThisNode "node01").Update
      ⟨⟨"node01", 1, some [("zone", "a")], none, ""⟩,
        ⟨"node01", 1, some [("zone", "b")], none, ""⟩⟩ = true :=
  ((node_filter_by_labels "node01" ⟨⟨"node01", 1, none, none, ""⟩⟩
    ⟨⟨"node01", 1, none, none, ""⟩⟩ ⟨⟨"node01", 1, none, none, ""⟩⟩
    ⟨⟨"node01", 1, some [("zone", "a")], none, ""⟩,
      ⟨"node01", 1, some [("zone", "b")], none, ""⟩⟩).2.2.2.1).2
    ⟨fun h => absurd (h "zone") (by decide), rfl⟩

/-! ## The operator: one NMState object -/

theorem clientGetNMState_ok (fault : Option Err) (name : String) (s : List NMState)
    (inst : NMState) (h : clientGetNMState fault name s = Except.ok inst) :
    inst.Name = name ∧ inst ∈ s := by
  unfold clientGetNMState at h
  cases fault with
  | some err => cases h
  | none =>
    simp only at h
    cases hf : s.find? (fun i => i.Name == name) with
    | none => rw [hf] at h; cases h
    | some found =>
      rw [hf] at h
      cases h
      have h1 := List.find?_some hf
      exact ⟨by simpa using h1, List.mem_of_find?_eq_some hf⟩

theorem applyManifests_trace (env : OperatorEnv) (inst : NMState) :
    OperatorEvent.applyCRDs inst.Name ∈ (applyManifests env inst).2 ∧
    ∀ e ∈ (applyManifests env inst).2, e.isApply = true := by
  unfold applyManifests
  cases env.applyCRDs inst <;> cases env.applyNamespace inst <;> cases env.applyRBAC inst <;>
    simp [OperatorEvent.isApply]

theorem listedItems_sorted (env : OperatorEnv) (s : List NMState)
    (hsort : 1 < s.length → (env.sortSlice creationLess s).Perm s ∧
      (env.sortSlice creationLess s).Pairwise (fun a b => creationLess b a = false)) :
    (listedItems env s).Perm s ∧
    (listedItems env s).Pairwise (fun a b => a.CreationTimestamp ≤ b.CreationTimestamp) := by
  unfold listedItems
  by_cases hlen : s.length > 1
  · simp only [hlen, if_true]
    refine ⟨(hsort hlen).1, (hsort hlen).2.imp ?_⟩
    intro a b hab
    simp only [creationLess, decide_eq_false_iff_not, gt_iff_lt, not_lt] at hab
    exact hab
  · simp only [hlen, if_false]
    refine ⟨List.Perm.refl _, ?_⟩
    match s, hlen with
    | [], _ => exact List.Pairwise.nil
    | [x], _ => exact List.pairwise_singleton _ _
    | _ :: _ :: _, h => simp at h

/-- The run on a request whose object the `Get` returns and whose name is not the
first listed one: the delete and nothing else. -/
theorem NMStateReconciler.Reconcile_mismatch (env : OperatorEnv) (reqName : String)
    (s : List NMState) (inst first : NMState) (rest : List NMState)
    (hlist : env.faultList = none)
    (hget : clientGetNMState env.faultGet reqName (env.beforeGet s) = Except.ok inst)
    (hitems : listedItems env s = first :: rest) (hname : first.Name ≠ reqName) :
    NMStateReconciler.Reconcile env reqName s =
      { result := {}, err := none,
        store := match env.faultDelete with
          | some _ => env.beforeGet s
          | none => (env.beforeGet s).filter (fun i => i.Name != inst.Name),
        trace := [OperatorEvent.ClientList, OperatorEvent.ClientGet reqName,
          OperatorEvent.ClientDelete inst.Name] } := by
  unfold NMStateReconciler.Reconcile
  simp only [hlist, hget, hitems]
  simp [hname]

/-- The run on a request whose object the `Get` returns and which the singleton check
lets through: the four apply steps, up to the first that fails. -/
theorem NMStateReconciler.Reconcile_applies (env : OperatorEnv) (reqName : String)
    (s : List NMState) (inst : NMState)
    (hlist : env.faultList = none)
    (hget : clientGetNMState env.faultGet reqName (env.beforeGet s) = Except.ok inst)
    (hitems : ∀ first rest, listedItems env s = first :: rest → first.Name = reqName) :
    NMStateReconciler.Reconcile env reqName s =
      { result := {}, err := (applyManifests env inst).1, store := env.beforeGet s,
        trace := OperatorEvent.ClientList :: OperatorEvent.ClientGet reqName ::
          (applyManifests env inst).2 } := by
  unfold NMStateReconciler.Reconcile
  simp only [hlist, hget]
  cases hl : listedItems env s with
  | nil => rfl
  | cons first rest =>
    have := hitems first rest hl
    simp [this]

/-- C29: on a request whose object the `Get` returns, with `sort.Slice` sorting by the
`less` it is handed, the listed items are the listed objects in ascending order of
creation timestamp; when the first of them does not carry the requested name, the run
is the `List`, the `Get` and the `Delete` of the requested object (which leaves no
object of that name when the call is accepted), no apply step runs, and the result is
empty with a nil error; when it does, the apply steps run; so an apply step runs only
when the first listed item carries the requested name (and with no write between the
`List` and the `Get` there is a first listed item), and with pairwise distinct
creation timestamps that item is older than every other listed object. -/
theorem operator_applies_for_oldest_only (env : OperatorEnv) (reqName : String)
    (s : List NMState) (inst : NMState)
    (hlist : env.faultList = none)
    (hget : clientGetNMState env.faultGet reqName (env.beforeGet s) = Except.ok inst)
    (hsort : 1 < s.length → (env.sortSlice creationLess s).Perm s ∧
      (env.sortSlice creationLess s).Pairwise (fun a b => creationLess b a = false)) :
    ((listedItems env s).Perm s ∧
      (listedItems env s).Pairwise (fun a b => a.CreationTimestamp ≤ b.CreationTimestamp)) ∧
    (∀ first rest, listedItems env s = first :: rest → first.Name ≠ reqName →
      inst.Name = reqName ∧
      (NMStateReconciler.Reconcile env reqName s).trace =
        [OperatorEvent.ClientList, OperatorEvent.ClientGet reqName,
          OperatorEvent.ClientDelete reqName] ∧
      (∀ e ∈ (NMStateReconciler.Reconcile env reqName s).trace, e.isApply = false) ∧
      (NMStateReconciler.Reconcile env reqName s).result = {} ∧
      (NMStateReconciler.Reconcile env reqName s).err = none ∧
      (env.faultDelete = none →
        ∀ i ∈ (NMStateReconciler.Reconcile env reqName s).store, i.Name ≠ reqName)) ∧
    (∀ first rest, listedItems env s = first :: rest → first.Name = reqName →
      OperatorEvent.applyCRDs reqName ∈ (NMStateReconciler.Reconcile env reqName s).trace ∧
      ∀ name, OperatorEvent.ClientDelete name ∉
        (NMStateReconciler.Reconcile env reqName s).trace) ∧
    ((∃ e ∈ (NMStateReconciler.Reconcile env reqName s).trace, e.isApply = true) →
      ∀ first rest, listedItems env s = first :: rest → first.Name = reqName) ∧
    (env.beforeGet s = s → listedItems env s ≠ []) ∧
    (s.Pairwise (fun a b => a.CreationTimestamp ≠ b.CreationTimestamp) →
      ∀ first rest, listedItems env s = first :: rest →
        first ∈ s ∧ ∀ x ∈ s, x ≠ first → first.CreationTimestamp < x.CreationTimestamp) := by
  obtain ⟨hperm, hsorted⟩ := listedItems_sorted env s hsort
  obtain ⟨hinstName, hinstMem⟩ := clientGetNMState_ok _ _ _ _ hget
  refine ⟨⟨hperm, hsorted⟩, ?_, ?_, ?_, ?_, ?_⟩
  · intro first rest hitems hname
    have hrun := NMStateReconciler.Reconcile_mismatch env reqName s inst first rest hlist hget
      hitems hname
    rw [hrun]
    refine ⟨hinstName, by rw [hinstName], ?_, rfl, rfl, ?_⟩
    · intro e he
      simp only [List.mem_cons, List.mem_singleton, List.not_mem_nil, or_false] at he
      rcases he with h | h | h <;> subst h <;> rfl
    · intro hdel i hi
      simp only [hdel, List.mem_filter, hinstName] at hi
      simpa using hi.2
  · intro first rest hitems hname
    have hrun := NMStateReconciler.Reconcile_applies env reqName s inst hlist hget
      (fun f r hfr => by rw [hitems] at hfr; cases hfr; exact hname)
    rw [hrun]
    have hap := applyManifests_trace env inst
    rw [hinstName] at hap
    refine ⟨List.mem_cons_of_mem _ (List.mem_cons_of_mem _ hap.1), ?_⟩
    intro name hmem
    simp only [List.mem_cons] at hmem
    rcases hmem with h | h | h
    · cases h
    · cases h
    · have := hap.2 _ h
      simp [OperatorEvent.isApply] at this
  · rintro ⟨e, he, hap⟩ first rest hitems
    by_contra hname
    have hrun := NMStateReconciler.Reconcile_mismatch env reqName s inst first rest hlist hget
      hitems hname
    rw [hrun] at he
    simp only [List.mem_cons, List.mem_singleton, List.not_mem_nil, or_false] at he
    rcases he with h | h | h <;> subst h <;> simp [OperatorEvent.isApply] at hap
  · intro hsame hnil
    rw [hsame] at hinstMem
    have := hperm.mem_iff.2 hinstMem
    rw [hnil] at this
    cases this
  · intro hdistinct first rest hitems
    have hfirst : first ∈ s := hperm.mem_iff.1 (by rw [hitems]; exact List.mem_cons_self _ _)
    refine ⟨hfirst, ?_⟩
    intro x hx hne
    have hxl : x ∈ listedItems env s := hperm.mem_iff.2 hx
    rw [hitems] at hxl hsorted
    have hxr : x ∈ rest := by
      rcases List.mem_cons.1 hxl with h | h
      · exact absurd h hne
      · exact h
    have hle := (List.pairwise_cons.1 hsorted).1 x hxr
    have hd : (first :: rest).Pairwise (fun a b => a.CreationTimestamp ≠ b.CreationTimestamp) := by
      rw [← hitems]
      exact (hperm.pairwise_iff (fun hab => Ne.symm hab)).2 hdistinct
    have hneq := (List.pairwise_cons.1 hd).1 x hxr
    exact lt_of_le_of_ne hle hneq

theorem operator_applies_for_oldest_only_witness :
    (NMStateReconciler.Reconcile quietOperatorEnv "second" exampleInstances).trace =
      [OperatorEvent.ClientList, OperatorEvent.ClientGet "second",
        OperatorEvent.ClientDelete "second"] :=
  ((operator_applies_for_oldest_only quietOperatorEnv "second" exampleInstances ⟨"second", 20⟩
    rfl rfl (fun _ => by decide)).2.1 ⟨"nmstate", 10⟩ [⟨"second", 20⟩, ⟨"third", 30⟩] rfl
    (by decide)).2.1

end Nmstate
